import Mathlib

/-!
# bgpwatcher: views, view iterators and the watcher server

A shallow embedding of the bgpwatcher view (`bgpwatcher_view.h`) and of the
bgpwatcher server (`bgpwatcher_server.h`), followed by the properties proved
about them.

The headers declare the public interface; the bodies of the view, of the
peer-signature map and of the server loop are not part of the sources at hand.
Every definition that stands for such a body says so in its doc comment
(`Modelled from the spec: ...`).
-/

namespace BgpWatcher

/-! ## Section 1: error codes (`bgpwatcher_server.h`) -/

/-- Enumeration of table types (`bgpwatcher_server_table_type_t`). -/
inductive bgpwatcher_server_table_type_t where
  | BGPWATCHER_SERVER_TABLE_TYPE_PREFIX
  | BGPWATCHER_SERVER_TABLE_TYPE_PEER
  deriving DecidableEq, Repr

/-- Enumeration of error codes (`bgpwatcher_server_err_code_t`). -/
inductive bgpwatcher_server_err_code_t where
  | BGPWATCHER_SERVER_ERR_NONE
  | BGPWATCHER_SERVER_ERR_INIT_FAILED
  | BGPWATCHER_SERVER_ERR_START_FAILED
  | BGPWATCHER_SERVER_ERR_INTERRUPT
  | BGPWATCHER_SERVER_ERR_UNHANDLED
  | BGPWATCHER_SERVER_ERR_PROTOCOL
  | BGPWATCHER_SERVER_ERR_MALLOC
  deriving DecidableEq, Repr

/-- The integer value the C enumeration gives to each error code. -/
def bgpwatcher_server_err_code_t.toInt : bgpwatcher_server_err_code_t → Int
  | .BGPWATCHER_SERVER_ERR_NONE => 0
  | .BGPWATCHER_SERVER_ERR_INIT_FAILED => -1
  | .BGPWATCHER_SERVER_ERR_START_FAILED => -2
  | .BGPWATCHER_SERVER_ERR_INTERRUPT => -3
  | .BGPWATCHER_SERVER_ERR_UNHANDLED => -4
  | .BGPWATCHER_SERVER_ERR_PROTOCOL => -5
  | .BGPWATCHER_SERVER_ERR_MALLOC => -6

/-- The integer value of each table type. -/
def bgpwatcher_server_table_type_t.toInt : bgpwatcher_server_table_type_t → Int
  | .BGPWATCHER_SERVER_TABLE_TYPE_PREFIX => 0
  | .BGPWATCHER_SERVER_TABLE_TYPE_PEER => 1

/-! ## Section 2: the peer-signature table -/

/-- An IP address, version 4 or version 6, as the number it encodes. -/
inductive bl_addr_storage_t where
  | v4 (addr : Nat)
  | v6 (addr : Nat)
  deriving DecidableEq, Repr

/-- Modelled from the spec: the peer signature `bl_peer_signature_t`
(declared in `bl_peersign_map.h`, which is missing): collector name, peer IP
and peer ASN. -/
structure bl_peer_signature_t where
  collector_name : String
  peer_ip : bl_addr_storage_t
  peer_asn : Nat
  deriving DecidableEq, Repr

/-- Peer identifiers; `0` is the reserved, invalid identifier. -/
abbrev bl_peerid_t := Nat

/-- Modelled from the spec: the peer-signature table `bl_peersign_map_t`
(`bl_peersign_map.h` and its implementation are missing). Identifiers are
dense and assigned in increasing order, so the table is the list of the
signatures in the order they were interned: the signature at position `i` has
identifier `i + 1`. -/
structure bl_peersign_map_t where
  sigs : List bl_peer_signature_t
  deriving DecidableEq, Repr

/-- Modelled from the spec: a fresh, empty peer-signature table. -/
def bl_peersign_map_t.create : bl_peersign_map_t := ⟨[]⟩

/-- Modelled from the spec: `intern(signature) -> peer_id` of the
peer-signature table: the existing identifier when the signature is present,
otherwise the next identifier, the signature being inserted. Allocation
exhaustion is not modelled. -/
def bl_peersign_map_t.intern (t : bl_peersign_map_t) (s : bl_peer_signature_t) :
    bl_peerid_t × bl_peersign_map_t :=
  if s ∈ t.sigs then (t.sigs.indexOf s + 1, t)
  else (t.sigs.length + 1, ⟨t.sigs ++ [s]⟩)

/-- Modelled from the spec: `lookup(peer_id) -> signature` of the
peer-signature table; `none` is NotFound. -/
def bl_peersign_map_t.lookup (t : bl_peersign_map_t) (id : bl_peerid_t) :
    Option bl_peer_signature_t :=
  if id = 0 then none else t.sigs[id - 1]?

/-- Interning a list of signatures one after the other, keeping the table. -/
def bl_peersign_map_t.internAll (t : bl_peersign_map_t) :
    List bl_peer_signature_t → bl_peersign_map_t
  | [] => t
  | s :: rest => (t.intern s).2.internAll rest

/-! ## Section 3: prefix tables -/

/-- Modelled from the spec: the state of a storage slot. `DIRTY` means the slot
is logically empty but its storage is retained for reuse. -/
inductive slot_state_t where
  | ACTIVE
  | DIRTY
  deriving DecidableEq, Repr

/-- An IPv4 prefix (`bl_ipv4_pfx_t`, declared outside the sources at hand). -/
structure bl_ipv4_pfx_t where
  address : Nat
  mask_len : Nat
  deriving DecidableEq, Repr

/-- An IPv6 prefix (`bl_ipv6_pfx_t`, declared outside the sources at hand). -/
structure bl_ipv6_pfx_t where
  address : Nat
  mask_len : Nat
  deriving DecidableEq, Repr

/-- A prefix of either version. -/
inductive bl_pfx_storage_t where
  | v4 (pfx : bl_ipv4_pfx_t)
  | v6 (pfx : bl_ipv6_pfx_t)
  deriving DecidableEq, Repr

/-- Modelled from the spec: `PfxPeerInfo`, the observation of one prefix by one
peer (`bgpwatcher_pfx_peer_info_t` of the missing `bgpwatcher_common.h`): an
opaque attribute blob and the slot state. -/
structure bgpwatcher_pfx_peer_info_t where
  attributes : Nat
  state : slot_state_t
  deriving DecidableEq, Repr

/-- One peer slot of a prefix: the peer identifier (the key) and the
observation (the value). -/
structure peer_slot_t where
  peer_id : bl_peerid_t
  info : bgpwatcher_pfx_peer_info_t
  deriving DecidableEq, Repr

/-- One prefix slot of a table: the prefix (the key), the slot state, the
optional user pointer (`none` is NULL) and the peer slots of the prefix. -/
structure pfx_slot_t (κ : Type) where
  pfx : κ
  state : slot_state_t
  user : Option Nat
  peers : List peer_slot_t
  deriving DecidableEq, Repr

/-- Modelled from the spec: `PrefixPeerTable`, prefix -> peer_id -> info, as
arena-style storage: the allocated prefix slots in allocation order. The
implementation (`bgpwatcher_view.c`) is missing. -/
structure PrefixPeerTable (κ : Type) where
  slots : List (pfx_slot_t κ)
  deriving DecidableEq, Repr

/-- A peer slot is ACTIVE. -/
def peer_slot_t.isActive (s : peer_slot_t) : Bool :=
  decide (s.info.state = slot_state_t.ACTIVE)

/-- A prefix is ACTIVE: its slot is not DIRTY and it has at least one ACTIVE
peer slot. -/
def pfx_slot_t.isActive {κ : Type} (e : pfx_slot_t κ) : Bool :=
  decide (e.state = slot_state_t.ACTIVE) && e.peers.any peer_slot_t.isActive

/-- The slot written by an upsert. -/
def peer_slot_t.fresh (id : bl_peerid_t) (attrs : Nat) : peer_slot_t :=
  ⟨id, ⟨attrs, slot_state_t.ACTIVE⟩⟩

/-- Upsert on the peer slots of one prefix: an existing slot of the peer is
overwritten in place and made ACTIVE, otherwise a new slot is allocated. The
indicator is `true` for an insert (slot absent or DIRTY) and `false` for an
update of an ACTIVE slot. -/
def peers_upsert (peers : List peer_slot_t) (id : bl_peerid_t) (attrs : Nat) :
    List peer_slot_t × Bool :=
  if peers.any (fun s => decide (s.peer_id = id)) then
    (peers.map (fun s => if s.peer_id = id then peer_slot_t.fresh id attrs else s),
     peers.any (fun s => decide (s.peer_id = id) && !s.isActive))
  else (peers ++ [peer_slot_t.fresh id attrs], true)

/-- Remove on the peer slots of one prefix: the slot of the peer is marked
DIRTY, its storage stays. -/
def peers_remove (peers : List peer_slot_t) (id : bl_peerid_t) : List peer_slot_t :=
  peers.map (fun s =>
    if s.peer_id = id then { s with info := { s.info with state := slot_state_t.DIRTY } }
    else s)

/-- Modelled from the spec: `upsert(prefix, peer_id, info)` of the
PrefixPeerTable; returns the table and the insert-vs-update indicator (`true`:
insert). -/
def PrefixPeerTable.upsert {κ : Type} [DecidableEq κ] (t : PrefixPeerTable κ) (p : κ)
    (id : bl_peerid_t) (attrs : Nat) : PrefixPeerTable κ × Bool :=
  if t.slots.any (fun e => decide (e.pfx = p)) then
    (⟨t.slots.map (fun e =>
        if e.pfx = p then
          { e with state := slot_state_t.ACTIVE, peers := (peers_upsert e.peers id attrs).1 }
        else e)⟩,
     t.slots.any (fun e =>
        decide (e.pfx = p) &&
          (decide (e.state = slot_state_t.DIRTY) || (peers_upsert e.peers id attrs).2)))
  else
    (⟨t.slots ++ [⟨p, slot_state_t.ACTIVE, none, [peer_slot_t.fresh id attrs]⟩]⟩, true)

/-- Modelled from the spec: `remove(prefix, peer_id)` of the PrefixPeerTable:
marks the entry DIRTY and never shrinks the table. The indicator says whether an
ACTIVE entry was removed. -/
def PrefixPeerTable.remove {κ : Type} [DecidableEq κ] (t : PrefixPeerTable κ) (p : κ)
    (id : bl_peerid_t) : PrefixPeerTable κ × Bool :=
  (⟨t.slots.map (fun e =>
      if e.pfx = p then { e with peers := peers_remove e.peers id } else e)⟩,
   t.slots.any (fun e =>
      decide (e.pfx = p) && decide (e.state = slot_state_t.ACTIVE) &&
        e.peers.any (fun s => decide (s.peer_id = id) && s.isActive)))

/-- Modelled from the spec: `clear_all()` of the PrefixPeerTable: every prefix
slot and every peer slot becomes DIRTY, the storage is retained. -/
def PrefixPeerTable.clear_all {κ : Type} (t : PrefixPeerTable κ) : PrefixPeerTable κ :=
  ⟨t.slots.map (fun e =>
    { e with
      state := slot_state_t.DIRTY,
      peers := e.peers.map (fun s =>
        { s with info := { s.info with state := slot_state_t.DIRTY } }) })⟩

/-- Modelled from the spec: `size()` of the PrefixPeerTable, the count of ACTIVE
prefixes. -/
def PrefixPeerTable.size {κ : Type} (t : PrefixPeerTable κ) : Nat :=
  t.slots.countP pfx_slot_t.isActive

/-- The storage capacity of a table: the number of allocated prefix slots and of
allocated peer slots. -/
def PrefixPeerTable.capacity {κ : Type} (t : PrefixPeerTable κ) : Nat × Nat :=
  (t.slots.length, (t.slots.map (fun e => e.peers.length)).sum)

/-- The ACTIVE (prefix, peer) pairs of a table, in storage order. -/
def PrefixPeerTable.activePairs {κ : Type} (t : PrefixPeerTable κ) :
    List (κ × bl_peerid_t) :=
  (t.slots.filter pfx_slot_t.isActive).flatMap (fun e =>
    (e.peers.filter peer_slot_t.isActive).map (fun s => (e.pfx, s.peer_id)))

/-! ## Section 4: the view (`bgpwatcher_view.h`) -/

/-- The per-peer record of a view: the peer identifier, the number of v4 and v6
prefixes observed by the peer, and the slot state. -/
structure peer_info_t where
  peer_id : bl_peerid_t
  v4_count : Nat
  v6_count : Nat
  state : slot_state_t
  deriving DecidableEq, Repr

/-- Modelled from the spec: the view `bgpwatcher_view_t` (the handle is opaque
in `bgpwatcher_view.h`): timestamp, the v4 and v6 tables, the referenced
peer-signature table and the per-peer counters. The shared reference is
represented by the table it designates. -/
structure bgpwatcher_view_t where
  time : Nat
  v4_table : PrefixPeerTable bl_ipv4_pfx_t
  v6_table : PrefixPeerTable bl_ipv6_pfx_t
  peersigs : bl_peersign_map_t
  peers : List peer_info_t
  deriving DecidableEq, Repr

/-- Modelled from the spec: `bgpwatcher_view_create_shared`, a new empty view
reusing an existing peersigns table. -/
def bgpwatcher_view_create_shared (peersigns : bl_peersign_map_t) : bgpwatcher_view_t :=
  ⟨0, ⟨[]⟩, ⟨[]⟩, peersigns, []⟩

/-- Modelled from the spec: `bgpwatcher_view_create`, a new empty view with a
fresh peersigns table. -/
def bgpwatcher_view_create : bgpwatcher_view_t :=
  bgpwatcher_view_create_shared bl_peersign_map_t.create

/-- Modelled from the spec: `bgpwatcher_view_clear`: marks prefixes and peers as
dirty so that future inserts can reuse the storage; does not touch the
peersigns table. -/
def bgpwatcher_view_clear (view : bgpwatcher_view_t) : bgpwatcher_view_t :=
  { view with
    v4_table := view.v4_table.clear_all,
    v6_table := view.v6_table.clear_all,
    peers := view.peers.map (fun q =>
      { q with v4_count := 0, v6_count := 0, state := slot_state_t.DIRTY }) }

/-- Modelled from the spec: `bgpwatcher_view_v4pfx_size` (a `uint32_t`). -/
def bgpwatcher_view_v4pfx_size (view : bgpwatcher_view_t) : Nat :=
  view.v4_table.size % 2 ^ 32

/-- Modelled from the spec: `bgpwatcher_view_v6pfx_size` (a `uint32_t`). -/
def bgpwatcher_view_v6pfx_size (view : bgpwatcher_view_t) : Nat :=
  view.v6_table.size % 2 ^ 32

/-- Modelled from the spec: `bgpwatcher_view_pfx_size`, v4 + v6 (a `uint32_t`). -/
def bgpwatcher_view_pfx_size (view : bgpwatcher_view_t) : Nat :=
  (bgpwatcher_view_v4pfx_size view + bgpwatcher_view_v6pfx_size view) % 2 ^ 32

/-- A per-peer record is ACTIVE. -/
def peer_info_t.isActive (q : peer_info_t) : Bool :=
  decide (q.state = slot_state_t.ACTIVE)

/-- Modelled from the spec: `bgpwatcher_view_peer_size`, the number of peers in
the view (a `uint32_t`). -/
def bgpwatcher_view_peer_size (view : bgpwatcher_view_t) : Nat :=
  view.peers.countP peer_info_t.isActive % 2 ^ 32

/-- Modelled from the spec: `bgpwatcher_view_time`. -/
def bgpwatcher_view_time (view : bgpwatcher_view_t) : Nat :=
  view.time % 2 ^ 32

/-- The per-peer record of `id` is (re)activated and its counters grow by `d4`
and `d6`; a peer not seen before gets a new record. -/
def peers_touch (peers : List peer_info_t) (id : bl_peerid_t) (d4 d6 : Nat) :
    List peer_info_t :=
  if peers.any (fun q => decide (q.peer_id = id)) then
    peers.map (fun q =>
      if q.peer_id = id then
        { q with v4_count := q.v4_count + d4, v6_count := q.v6_count + d6,
                 state := slot_state_t.ACTIVE }
      else q)
  else peers ++ [⟨id, d4, d6, slot_state_t.ACTIVE⟩]

/-- The counters of the per-peer record of `id` shrink by `d4` and `d6`; the
peer remains known. -/
def peers_uncount (peers : List peer_info_t) (id : bl_peerid_t) (d4 d6 : Nat) :
    List peer_info_t :=
  peers.map (fun q =>
    if q.peer_id = id then { q with v4_count := q.v4_count - d4, v6_count := q.v6_count - d6 }
    else q)

/-- Modelled from the spec: insertion of a (prefix, peer) observation into a
view by peer identifier: upsert into the table of the prefix version; a fresh
insert counts for the peer. -/
def bgpwatcher_view_add (view : bgpwatcher_view_t) (pfx : bl_pfx_storage_t)
    (id : bl_peerid_t) (attrs : Nat) : bgpwatcher_view_t :=
  match pfx with
  | .v4 p =>
    let r := view.v4_table.upsert p id attrs
    { view with v4_table := r.1, peers := peers_touch view.peers id (if r.2 then 1 else 0) 0 }
  | .v6 p =>
    let r := view.v6_table.upsert p id attrs
    { view with v6_table := r.1, peers := peers_touch view.peers id 0 (if r.2 then 1 else 0) }

/-- Modelled from the spec: insertion of a prefix observed by a peer given by
its signature: the signature is interned in the referenced peer-signature table
and the observation is inserted under the identifier. -/
def bgpwatcher_view_insert (view : bgpwatcher_view_t) (pfx : bl_pfx_storage_t)
    (sig : bl_peer_signature_t) (attrs : Nat) : bl_peerid_t × bgpwatcher_view_t :=
  let r := view.peersigs.intern sig
  (r.1, bgpwatcher_view_add { view with peersigs := r.2 } pfx r.1 attrs)

/-- Modelled from the spec: withdrawal of a (prefix, peer) observation: remove
from the table of the prefix version; the peer remains known. -/
def bgpwatcher_view_withdraw (view : bgpwatcher_view_t) (pfx : bl_pfx_storage_t)
    (id : bl_peerid_t) : bgpwatcher_view_t :=
  match pfx with
  | .v4 p =>
    let r := view.v4_table.remove p id
    { view with v4_table := r.1, peers := peers_uncount view.peers id (if r.2 then 1 else 0) 0 }
  | .v6 p =>
    let r := view.v6_table.remove p id
    { view with v6_table := r.1, peers := peers_uncount view.peers id 0 (if r.2 then 1 else 0) }

/-! ## Section 5: the view iterator (`bgpwatcher_view.h`) -/

/-- The iterator fields (`bgpwatcher_view_iter_field_t`). -/
inductive bgpwatcher_view_iter_field_t where
  | BGPWATCHER_VIEW_ITER_FIELD_V4PFX
  | BGPWATCHER_VIEW_ITER_FIELD_V6PFX
  | BGPWATCHER_VIEW_ITER_FIELD_PEER
  | BGPWATCHER_VIEW_ITER_FIELD_V4PFX_PEER
  | BGPWATCHER_VIEW_ITER_FIELD_V6PFX_PEER
  deriving DecidableEq, Repr

/-- The integer value of each iterator field. -/
def bgpwatcher_view_iter_field_t.toInt : bgpwatcher_view_iter_field_t → Int
  | .BGPWATCHER_VIEW_ITER_FIELD_V4PFX => 1
  | .BGPWATCHER_VIEW_ITER_FIELD_V6PFX => 2
  | .BGPWATCHER_VIEW_ITER_FIELD_PEER => 3
  | .BGPWATCHER_VIEW_ITER_FIELD_V4PFX_PEER => 4
  | .BGPWATCHER_VIEW_ITER_FIELD_V6PFX_PEER => 5

/-- Modelled from the spec: the state of one field of the iterator:
BEFORE_FIRST (initial), POSITIONED(index), AT_END. -/
inductive iter_cursor_t where
  | BEFORE_FIRST
  | POSITIONED (index : Nat)
  | AT_END
  deriving DecidableEq, Repr

/-- Modelled from the spec: the iterator `bgpwatcher_view_iter_t` (the handle is
opaque in `bgpwatcher_view.h`): the borrowed view and one cursor per field. -/
structure bgpwatcher_view_iter_t where
  view : bgpwatcher_view_t
  v4pfx_it : iter_cursor_t
  v6pfx_it : iter_cursor_t
  peer_it : iter_cursor_t
  v4pfx_peer_it : iter_cursor_t
  v6pfx_peer_it : iter_cursor_t
  deriving DecidableEq, Repr

/-- Modelled from the spec: `bgpwatcher_view_iter_create`; every field starts
BEFORE_FIRST. -/
def bgpwatcher_view_iter_create (view : bgpwatcher_view_t) : bgpwatcher_view_iter_t :=
  ⟨view, .BEFORE_FIRST, .BEFORE_FIRST, .BEFORE_FIRST, .BEFORE_FIRST, .BEFORE_FIRST⟩

/-- The cursor of a field. -/
def iter_cursor (iter : bgpwatcher_view_iter_t) :
    bgpwatcher_view_iter_field_t → iter_cursor_t
  | .BGPWATCHER_VIEW_ITER_FIELD_V4PFX => iter.v4pfx_it
  | .BGPWATCHER_VIEW_ITER_FIELD_V6PFX => iter.v6pfx_it
  | .BGPWATCHER_VIEW_ITER_FIELD_PEER => iter.peer_it
  | .BGPWATCHER_VIEW_ITER_FIELD_V4PFX_PEER => iter.v4pfx_peer_it
  | .BGPWATCHER_VIEW_ITER_FIELD_V6PFX_PEER => iter.v6pfx_peer_it

/-- The iterator with the cursor of one field replaced. -/
def iter_set_cursor (iter : bgpwatcher_view_iter_t) (field : bgpwatcher_view_iter_field_t)
    (c : iter_cursor_t) : bgpwatcher_view_iter_t :=
  match field with
  | .BGPWATCHER_VIEW_ITER_FIELD_V4PFX => { iter with v4pfx_it := c }
  | .BGPWATCHER_VIEW_ITER_FIELD_V6PFX => { iter with v6pfx_it := c }
  | .BGPWATCHER_VIEW_ITER_FIELD_PEER => { iter with peer_it := c }
  | .BGPWATCHER_VIEW_ITER_FIELD_V4PFX_PEER => { iter with v4pfx_peer_it := c }
  | .BGPWATCHER_VIEW_ITER_FIELD_V6PFX_PEER => { iter with v6pfx_peer_it := c }

/-- The slot a cursor points at, if any. -/
def iter_cursor_t.slot {α : Type} (c : iter_cursor_t) (l : List α) : Option α :=
  match c with
  | .POSITIONED i => l[i]?
  | _ => none

/-- The v4 prefix slot the iterator is positioned at, if any. -/
def iter_cur_v4pfx (iter : bgpwatcher_view_iter_t) : Option (pfx_slot_t bl_ipv4_pfx_t) :=
  iter.v4pfx_it.slot iter.view.v4_table.slots

/-- The v6 prefix slot the iterator is positioned at, if any. -/
def iter_cur_v6pfx (iter : bgpwatcher_view_iter_t) : Option (pfx_slot_t bl_ipv6_pfx_t) :=
  iter.v6pfx_it.slot iter.view.v6_table.slots

/-- The per-peer record the iterator is positioned at, if any. -/
def iter_cur_peer (iter : bgpwatcher_view_iter_t) : Option peer_info_t :=
  iter.peer_it.slot iter.view.peers

/-- The peer slot of the current v4 prefix the iterator is positioned at. -/
def iter_cur_v4pfx_peer (iter : bgpwatcher_view_iter_t) : Option peer_slot_t :=
  match iter_cur_v4pfx iter with
  | some e => iter.v4pfx_peer_it.slot e.peers
  | none => none

/-- The peer slot of the current v6 prefix the iterator is positioned at. -/
def iter_cur_v6pfx_peer (iter : bgpwatcher_view_iter_t) : Option peer_slot_t :=
  match iter_cur_v6pfx iter with
  | some e => iter.v6pfx_peer_it.slot e.peers
  | none => none

/-- The domain of a field: for each storage slot the field ranges over, whether
the slot is ACTIVE. The nested fields range over the peer slots of the current
prefix; without a current prefix their domain is empty. -/
def iter_domain (iter : bgpwatcher_view_iter_t) :
    bgpwatcher_view_iter_field_t → List Bool
  | .BGPWATCHER_VIEW_ITER_FIELD_V4PFX => iter.view.v4_table.slots.map pfx_slot_t.isActive
  | .BGPWATCHER_VIEW_ITER_FIELD_V6PFX => iter.view.v6_table.slots.map pfx_slot_t.isActive
  | .BGPWATCHER_VIEW_ITER_FIELD_PEER => iter.view.peers.map peer_info_t.isActive
  | .BGPWATCHER_VIEW_ITER_FIELD_V4PFX_PEER =>
    match iter_cur_v4pfx iter with
    | some e => e.peers.map peer_slot_t.isActive
    | none => []
  | .BGPWATCHER_VIEW_ITER_FIELD_V6PFX_PEER =>
    match iter_cur_v6pfx iter with
    | some e => e.peers.map peer_slot_t.isActive
    | none => []

/-- The first ACTIVE index at or after `start`, if any: DIRTY slots are
skipped. -/
def seek_active : List Bool → Nat → Option Nat
  | [], _ => none
  | b :: rest, 0 => if b then some 0 else (seek_active rest 0).map (· + 1)
  | _ :: rest, start + 1 => (seek_active rest start).map (· + 1)

/-- The cursor for the outcome of a seek. -/
def iter_cursor_t.ofSeek : Option Nat → iter_cursor_t
  | some i => .POSITIONED i
  | none => .AT_END

/-- Modelled from the spec: `bgpwatcher_view_iter_first`: resets the cursor to
the first ACTIVE entry of the field, AT_END if there is none. -/
def bgpwatcher_view_iter_first (iter : bgpwatcher_view_iter_t)
    (field : bgpwatcher_view_iter_field_t) : bgpwatcher_view_iter_t :=
  iter_set_cursor iter field (.ofSeek (seek_active (iter_domain iter field) 0))

/-- Modelled from the spec: `bgpwatcher_view_iter_is_end`: 1 iff the cursor of
the field is AT_END, 0 otherwise. -/
def bgpwatcher_view_iter_is_end (iter : bgpwatcher_view_iter_t)
    (field : bgpwatcher_view_iter_field_t) : Int :=
  if iter_cursor iter field = .AT_END then 1 else 0

/-- Modelled from the spec: `bgpwatcher_view_iter_next`: no effect at AT_END;
otherwise the cursor advances to the next ACTIVE entry, or to AT_END if none
remain. -/
def bgpwatcher_view_iter_next (iter : bgpwatcher_view_iter_t)
    (field : bgpwatcher_view_iter_field_t) : bgpwatcher_view_iter_t :=
  match iter_cursor iter field with
  | .AT_END => iter
  | .POSITIONED i =>
    iter_set_cursor iter field (.ofSeek (seek_active (iter_domain iter field) (i + 1)))
  | .BEFORE_FIRST =>
    iter_set_cursor iter field (.ofSeek (seek_active (iter_domain iter field) 0))

/-- Modelled from the spec: `bgpwatcher_view_iter_size` (a `uint64_t`): the
number of ACTIVE items of the field. For a nested field without a current
prefix the header leaves the result open; the empty domain gives 0 here. -/
def bgpwatcher_view_iter_size (iter : bgpwatcher_view_iter_t)
    (field : bgpwatcher_view_iter_field_t) : Nat :=
  (iter_domain iter field).count true % 2 ^ 64

/-- Modelled from the spec: `bgpwatcher_view_iter_get_v4pfx`; `none` is NULL. -/
def bgpwatcher_view_iter_get_v4pfx (iter : bgpwatcher_view_iter_t) : Option bl_ipv4_pfx_t :=
  (iter_cur_v4pfx iter).map (fun e => e.pfx)

/-- Modelled from the spec: `bgpwatcher_view_iter_get_v6pfx`; `none` is NULL. -/
def bgpwatcher_view_iter_get_v6pfx (iter : bgpwatcher_view_iter_t) : Option bl_ipv6_pfx_t :=
  (iter_cur_v6pfx iter).map (fun e => e.pfx)

/-- Modelled from the spec: `bgpwatcher_view_iter_get_v4pfx_user`; `none` is
NULL. -/
def bgpwatcher_view_iter_get_v4pfx_user (iter : bgpwatcher_view_iter_t) : Option Nat :=
  (iter_cur_v4pfx iter).bind (fun e => e.user)

/-- Modelled from the spec: `bgpwatcher_view_iter_get_v6pfx_user`; `none` is
NULL. -/
def bgpwatcher_view_iter_get_v6pfx_user (iter : bgpwatcher_view_iter_t) : Option Nat :=
  (iter_cur_v6pfx iter).bind (fun e => e.user)

/-- Modelled from the spec: `bgpwatcher_view_iter_set_v4pfx_user`: stores the
user pointer in the current v4 prefix; nothing happens without one. -/
def bgpwatcher_view_iter_set_v4pfx_user (iter : bgpwatcher_view_iter_t) (user : Option Nat) :
    bgpwatcher_view_iter_t :=
  match iter.v4pfx_it with
  | .POSITIONED i =>
    { iter with view := { iter.view with v4_table :=
        ⟨iter.view.v4_table.slots.modify (fun e => { e with user := user }) i⟩ } }
  | _ => iter

/-- Modelled from the spec: `bgpwatcher_view_iter_set_v6pfx_user`: stores the
user pointer in the current v6 prefix; nothing happens without one. -/
def bgpwatcher_view_iter_set_v6pfx_user (iter : bgpwatcher_view_iter_t) (user : Option Nat) :
    bgpwatcher_view_iter_t :=
  match iter.v6pfx_it with
  | .POSITIONED i =>
    { iter with view := { iter.view with v6_table :=
        ⟨iter.view.v6_table.slots.modify (fun e => { e with user := user }) i⟩ } }
  | _ => iter

/-- Modelled from the spec: `bgpwatcher_view_iter_get_peerid`; `0`, the reserved
identifier, when there is no current peer. -/
def bgpwatcher_view_iter_get_peerid (iter : bgpwatcher_view_iter_t) : bl_peerid_t :=
  match iter_cur_peer iter with
  | some q => q.peer_id
  | none => 0

/-- Modelled from the spec: `bgpwatcher_view_iter_get_peersig`; `none` is
NULL. -/
def bgpwatcher_view_iter_get_peersig (iter : bgpwatcher_view_iter_t) :
    Option bl_peer_signature_t :=
  (iter_cur_peer iter).bind (fun q => iter.view.peersigs.lookup q.peer_id)

/-- Modelled from the spec: `bgpwatcher_view_iter_get_peer_v4pfx_cnt`; -1
without a current peer. -/
def bgpwatcher_view_iter_get_peer_v4pfx_cnt (iter : bgpwatcher_view_iter_t) : Int :=
  match iter_cur_peer iter with
  | some q => (q.v4_count : Int)
  | none => -1

/-- Modelled from the spec: `bgpwatcher_view_iter_get_peer_v6pfx_cnt`; -1
without a current peer. -/
def bgpwatcher_view_iter_get_peer_v6pfx_cnt (iter : bgpwatcher_view_iter_t) : Int :=
  match iter_cur_peer iter with
  | some q => (q.v6_count : Int)
  | none => -1

/-- Modelled from the spec: `bgpwatcher_view_iter_get_v4pfx_peerid`; `0` when
there is no current peer of the current v4 prefix. -/
def bgpwatcher_view_iter_get_v4pfx_peerid (iter : bgpwatcher_view_iter_t) : bl_peerid_t :=
  match iter_cur_v4pfx_peer iter with
  | some s => s.peer_id
  | none => 0

/-- Modelled from the spec: `bgpwatcher_view_iter_get_v6pfx_peerid`; `0` when
there is no current peer of the current v6 prefix. -/
def bgpwatcher_view_iter_get_v6pfx_peerid (iter : bgpwatcher_view_iter_t) : bl_peerid_t :=
  match iter_cur_v6pfx_peer iter with
  | some s => s.peer_id
  | none => 0

/-- Modelled from the spec: `bgpwatcher_view_iter_get_v4pfx_peersig`; `none` is
NULL. -/
def bgpwatcher_view_iter_get_v4pfx_peersig (iter : bgpwatcher_view_iter_t) :
    Option bl_peer_signature_t :=
  (iter_cur_v4pfx_peer iter).bind (fun s => iter.view.peersigs.lookup s.peer_id)

/-- Modelled from the spec: `bgpwatcher_view_iter_get_v6pfx_peersig`; `none` is
NULL. -/
def bgpwatcher_view_iter_get_v6pfx_peersig (iter : bgpwatcher_view_iter_t) :
    Option bl_peer_signature_t :=
  (iter_cur_v6pfx_peer iter).bind (fun s => iter.view.peersigs.lookup s.peer_id)

/-- Modelled from the spec: `bgpwatcher_view_iter_get_v4pfx_pfxinfo`; `none` is
NULL. -/
def bgpwatcher_view_iter_get_v4pfx_pfxinfo (iter : bgpwatcher_view_iter_t) :
    Option bgpwatcher_pfx_peer_info_t :=
  (iter_cur_v4pfx_peer iter).map (fun s => s.info)

/-- Modelled from the spec: `bgpwatcher_view_iter_get_v6pfx_pfxinfo`; `none` is
NULL. -/
def bgpwatcher_view_iter_get_v6pfx_pfxinfo (iter : bgpwatcher_view_iter_t) :
    Option bgpwatcher_pfx_peer_info_t :=
  (iter_cur_v6pfx_peer iter).map (fun s => s.info)

/-- The loop `for (...; !is_end(iter, field); next(iter, field)) body`, the
caller having positioned the field; `none` when the fuel runs out. -/
def iter_for_each {β : Type} (field : bgpwatcher_view_iter_field_t)
    (body : bgpwatcher_view_iter_t × β → Option (bgpwatcher_view_iter_t × β)) :
    Nat → bgpwatcher_view_iter_t × β → Option (bgpwatcher_view_iter_t × β)
  | 0, _ => none
  | fuel + 1, st =>
    if bgpwatcher_view_iter_is_end st.1 field ≠ 0 then some st
    else
      match body st with
      | none => none
      | some st2 => iter_for_each field body fuel (bgpwatcher_view_iter_next st2.1 field, st2.2)

/-- The body of the inner loop of the nested v4 iteration: records the current
prefix and the current peer of the prefix, as the getters return them. -/
def visit_v4pfx_peer (st : bgpwatcher_view_iter_t × List (Option bl_ipv4_pfx_t × bl_peerid_t)) :
    Option (bgpwatcher_view_iter_t × List (Option bl_ipv4_pfx_t × bl_peerid_t)) :=
  some (st.1, st.2 ++ [(bgpwatcher_view_iter_get_v4pfx st.1,
                         bgpwatcher_view_iter_get_v4pfx_peerid st.1)])

/-- The body of the outer loop of the nested v4 iteration: iterates over the
peers of the current v4 prefix. -/
def visit_v4pfx (fuel : Nat)
    (st : bgpwatcher_view_iter_t × List (Option bl_ipv4_pfx_t × bl_peerid_t)) :
    Option (bgpwatcher_view_iter_t × List (Option bl_ipv4_pfx_t × bl_peerid_t)) :=
  iter_for_each .BGPWATCHER_VIEW_ITER_FIELD_V4PFX_PEER visit_v4pfx_peer fuel
    (bgpwatcher_view_iter_first st.1 .BGPWATCHER_VIEW_ITER_FIELD_V4PFX_PEER, st.2)

/-- The nested v4pfx -> v4pfx_peer iteration over a view: the (prefix, peer)
pairs visited, in order; `none` when the fuel runs out. -/
def iter_visit_v4 (fuel : Nat) (iter : bgpwatcher_view_iter_t) :
    Option (List (Option bl_ipv4_pfx_t × bl_peerid_t)) :=
  (iter_for_each .BGPWATCHER_VIEW_ITER_FIELD_V4PFX (visit_v4pfx fuel) fuel
    (bgpwatcher_view_iter_first iter .BGPWATCHER_VIEW_ITER_FIELD_V4PFX, [])).map (fun st => st.2)

/-- The body of the inner loop of the nested v6 iteration: records the current
prefix and the current peer of the prefix, as the getters return them. -/
def visit_v6pfx_peer (st : bgpwatcher_view_iter_t × List (Option bl_ipv6_pfx_t × bl_peerid_t)) :
    Option (bgpwatcher_view_iter_t × List (Option bl_ipv6_pfx_t × bl_peerid_t)) :=
  some (st.1, st.2 ++ [(bgpwatcher_view_iter_get_v6pfx st.1,
                         bgpwatcher_view_iter_get_v6pfx_peerid st.1)])

/-- The body of the outer loop of the nested v6 iteration: iterates over the
peers of the current v6 prefix. -/
def visit_v6pfx (fuel : Nat)
    (st : bgpwatcher_view_iter_t × List (Option bl_ipv6_pfx_t × bl_peerid_t)) :
    Option (bgpwatcher_view_iter_t × List (Option bl_ipv6_pfx_t × bl_peerid_t)) :=
  iter_for_each .BGPWATCHER_VIEW_ITER_FIELD_V6PFX_PEER visit_v6pfx_peer fuel
    (bgpwatcher_view_iter_first st.1 .BGPWATCHER_VIEW_ITER_FIELD_V6PFX_PEER, st.2)

/-- The nested v6pfx -> v6pfx_peer iteration over a view: the (prefix, peer)
pairs visited, in order; `none` when the fuel runs out. -/
def iter_visit_v6 (fuel : Nat) (iter : bgpwatcher_view_iter_t) :
    Option (List (Option bl_ipv6_pfx_t × bl_peerid_t)) :=
  (iter_for_each .BGPWATCHER_VIEW_ITER_FIELD_V6PFX (visit_v6pfx fuel) fuel
    (bgpwatcher_view_iter_first iter .BGPWATCHER_VIEW_ITER_FIELD_V6PFX, [])).map (fun st => st.2)

/-- The outer v4pfx iteration alone: the prefixes visited, in order; `none`
when the fuel runs out. -/
def iter_visit_v4pfxs (fuel : Nat) (iter : bgpwatcher_view_iter_t) :
    Option (List (Option bl_ipv4_pfx_t)) :=
  (iter_for_each .BGPWATCHER_VIEW_ITER_FIELD_V4PFX
    (fun st => some (st.1, st.2 ++ [bgpwatcher_view_iter_get_v4pfx st.1])) fuel
    (bgpwatcher_view_iter_first iter .BGPWATCHER_VIEW_ITER_FIELD_V4PFX, [])).map (fun st => st.2)

/-- Fuel that suffices for the nested iterations over a view: more than the
number of prefix slots of either table and more than the number of peer slots
of any prefix. -/
def iter_fuel (view : bgpwatcher_view_t) : Nat :=
  view.v4_table.slots.length + (view.v4_table.slots.map (fun e => e.peers.length)).sum +
  view.v6_table.slots.length + (view.v6_table.slots.map (fun e => e.peers.length)).sum + 1

/-- The sum over the ACTIVE v4 prefixes of a view of their ACTIVE peer counts. -/
def v4_active_peer_total (view : bgpwatcher_view_t) : Nat :=
  ((view.v4_table.slots.filter pfx_slot_t.isActive).map
    (fun e => e.peers.countP peer_slot_t.isActive)).sum

/-- A view with one v4 prefix, 10.0.0.0/8, observed by two peers. -/
def view_one_pfx_two_peers : bgpwatcher_view_t :=
  (bgpwatcher_view_insert
    (bgpwatcher_view_insert bgpwatcher_view_create (.v4 ⟨167772160, 8⟩)
      ⟨"rrc00", .v4 16909060, 65000⟩ 0).2
    (.v4 ⟨167772160, 8⟩) ⟨"rrc01", .v4 16909061, 65001⟩ 0).2

/-- The index from which `next` looks for the next ACTIVE entry of a field. -/
def iter_next_start (iter : bgpwatcher_view_iter_t) (field : bgpwatcher_view_iter_field_t) :
    Nat :=
  match iter_cursor iter field with
  | .POSITIONED i => i + 1
  | _ => 0

/-- A view with one prefix slot that is DIRTY and one that is ACTIVE. -/
def view_dirty_then_active : bgpwatcher_view_t :=
  bgpwatcher_view_withdraw
    (bgpwatcher_view_add
      (bgpwatcher_view_add bgpwatcher_view_create (.v4 ⟨167772160, 8⟩) 1 0)
      (.v4 ⟨3232235520, 16⟩) 1 0)
    (.v4 ⟨167772160, 8⟩) 1

/-- The field is not positioned: never initialised with `first`, or at
the end (`is_end` returns non-zero). -/
def iter_not_positioned (iter : bgpwatcher_view_iter_t)
    (field : bgpwatcher_view_iter_field_t) : Prop :=
  iter_cursor iter field = .BEFORE_FIRST ∨ bgpwatcher_view_iter_is_end iter field ≠ 0

/-- The peer signature of the scenario: collector rrc00, IP 1.2.3.4, ASN 65000. -/
def scenario_sig : bl_peer_signature_t := ⟨"rrc00", .v4 16909060, 65000⟩

/-- The prefix of the scenario: 10.0.0.0/8. -/
def scenario_pfx : bl_pfx_storage_t := .v4 ⟨167772160, 8⟩

/-- The scenario after the insert into an empty view with a fresh signature
table. -/
def scenario_inserted (attrs : Nat) : bl_peerid_t × bgpwatcher_view_t :=
  bgpwatcher_view_insert bgpwatcher_view_create scenario_pfx scenario_sig attrs

/-- The scenario after the withdrawal of the same prefix and peer. -/
def scenario_withdrawn (attrs : Nat) : bgpwatcher_view_t :=
  bgpwatcher_view_withdraw (scenario_inserted attrs).2 scenario_pfx (scenario_inserted attrs).1

/-- The scenario after the final clear. -/
def scenario_cleared (attrs : Nat) : bgpwatcher_view_t :=
  bgpwatcher_view_clear (scenario_withdrawn attrs)

/-- A table after `upsert(p, peer, info)` followed by `remove(p, peer)`. -/
def table_upsert_remove {κ : Type} [DecidableEq κ] (t : PrefixPeerTable κ) (p : κ)
    (peer : bl_peerid_t) (info : Nat) : PrefixPeerTable κ :=
  ((t.upsert p peer info).1.remove p peer).1

/-- A view after the insertion of (p, peer) followed by its withdrawal. -/
def view_add_withdraw (view : bgpwatcher_view_t) (p : bl_pfx_storage_t)
    (peer : bl_peerid_t) (info : Nat) : bgpwatcher_view_t :=
  bgpwatcher_view_withdraw (bgpwatcher_view_add view p peer info) p peer

/-- The prefixes that have a slot in the table, in storage order. -/
def PrefixPeerTable.keys {κ : Type} (t : PrefixPeerTable κ) : List κ :=
  t.slots.map (fun e => e.pfx)

/-- Some slot of the prefix is ACTIVE. -/
def PrefixPeerTable.key_active {κ : Type} [DecidableEq κ] (t : PrefixPeerTable κ) (p : κ) :
    Bool :=
  t.slots.any (fun e => decide (e.pfx = p) && e.isActive)

/-- A list of observations upserted one after the other. -/
def PrefixPeerTable.upsert_all {κ : Type} [DecidableEq κ] (t : PrefixPeerTable κ) :
    List (κ × bl_peerid_t × Nat) → PrefixPeerTable κ
  | [] => t
  | x :: rest => (t.upsert x.1 x.2.1 x.2.2).1.upsert_all rest

/-- A list of observations inserted into a view one after the other. -/
def bgpwatcher_view_add_all (view : bgpwatcher_view_t) :
    List (bl_pfx_storage_t × bl_peerid_t × Nat) → bgpwatcher_view_t
  | [] => view
  | x :: rest => bgpwatcher_view_add_all (bgpwatcher_view_add view x.1 x.2.1 x.2.2) rest

/-- The ACTIVE (prefix, peer) pairs of a view, v4 then v6. -/
def view_active_pairs (view : bgpwatcher_view_t) : List (bl_pfx_storage_t × bl_peerid_t) :=
  view.v4_table.activePairs.map (fun x => (bl_pfx_storage_t.v4 x.1, x.2)) ++
  view.v6_table.activePairs.map (fun x => (bl_pfx_storage_t.v6 x.1, x.2))

/-- The tables of a view are maps: no prefix has two slots. -/
def view_wf (view : bgpwatcher_view_t) : Prop :=
  view.v4_table.keys.Nodup ∧ view.v6_table.keys.Nodup

/-- The v4 observations of a list of observations. -/
def pairs_v4 (l : List (bl_pfx_storage_t × bl_peerid_t × Nat)) :
    List (bl_ipv4_pfx_t × bl_peerid_t × Nat) :=
  l.filterMap (fun x =>
    match x.1 with
    | .v4 p => some (p, x.2)
    | .v6 _ => none)

/-- The v6 observations of a list of observations. -/
def pairs_v6 (l : List (bl_pfx_storage_t × bl_peerid_t × Nat)) :
    List (bl_ipv6_pfx_t × bl_peerid_t × Nat) :=
  l.filterMap (fun x =>
    match x.1 with
    | .v4 _ => none
    | .v6 p => some (p, x.2))

/-! ## Section 6: the server (`bgpwatcher_server.h`) -/

/-- Information about a client given to the callbacks
(`bgpwatcher_server_client_info_t`). -/
structure bgpwatcher_server_client_info_t where
  name : String
  deriving DecidableEq, Repr

/-- Modelled from the spec: the per-client record of the server:
{name, last_heartbeat_tick, missed_beats}. -/
structure bgpwatcher_server_client_t where
  info : bgpwatcher_server_client_info_t
  last_heartbeat_tick : Nat
  missed_beats : Nat
  deriving DecidableEq, Repr

/-- Modelled from the spec: a prefix record (`bgpwatcher_pfx_record_t` of the
missing `bgpwatcher_common.h`). -/
structure bgpwatcher_pfx_record_t where
  pfx : bl_pfx_storage_t
  peer_id : bl_peerid_t
  attributes : Nat
  deriving DecidableEq, Repr

/-- Modelled from the spec: a peer record (`bgpwatcher_peer_record_t` of the
missing `bgpwatcher_common.h`). -/
structure bgpwatcher_peer_record_t where
  sig : bl_peer_signature_t
  v4_count : Nat
  v6_count : Nat
  deriving DecidableEq, Repr

/-- Modelled from the spec: the message kinds of the wire protocol. -/
inductive bgpwatcher_msg_t where
  | HANDSHAKE
  | HEARTBEAT
  | PFX_RECORD (table_id : Nat) (record : bgpwatcher_pfx_record_t)
  | PEER_RECORD (table_id : Nat) (record : bgpwatcher_peer_record_t)
  | TABLE_END (table_id : Nat) (table_type : bgpwatcher_server_table_type_t)
  | DISCONNECT
  deriving DecidableEq, Repr

/-- What the wait-for-next-event step of the server loop returns: a message
from a client, the elapse of one heartbeat interval, or the stop signal. -/
inductive server_event_t where
  | RECV (client : String) (msg : bgpwatcher_msg_t)
  | TICK
  | STOP
  deriving DecidableEq, Repr

/-- One invocation of a callback of `bgpwatcher_server_callbacks_t`, with its
arguments. -/
inductive server_call_t where
  | client_connect (client : bgpwatcher_server_client_info_t)
  | client_disconnect (client : bgpwatcher_server_client_info_t)
  | recv_pfx_record (table_id : Nat) (record : bgpwatcher_pfx_record_t)
  | recv_peer_record (table_id : Nat) (record : bgpwatcher_peer_record_t)
  | table_end (table_id : Nat) (table_type : bgpwatcher_server_table_type_t)
  deriving DecidableEq, Repr

/-- The callbacks (`bgpwatcher_server_callbacks_t`) over user data of type `U`:
each callback returns 0 if the signal was handled and -1 otherwise, and may
update the user data it is given. -/
structure bgpwatcher_server_callbacks_t (U : Type) where
  client_connect : bgpwatcher_server_client_info_t → U → Int × U
  client_disconnect : bgpwatcher_server_client_info_t → U → Int × U
  recv_pfx_record : Nat → bgpwatcher_pfx_record_t → U → Int × U
  recv_peer_record : Nat → bgpwatcher_peer_record_t → U → Int × U
  table_end : Nat → bgpwatcher_server_table_type_t → U → Int × U
  user : U

/-- Modelled from the spec: the error status (`bgpwatcher_err_t` of the missing
`bgpwatcher_common.h`), holding the code of the last error recorded. -/
structure bgpwatcher_err_t where
  err_num : Int
  deriving DecidableEq, Repr

/-- The server (`struct bgpwatcher_server`), without the 0MQ context and socket.
The fields `now` (heartbeat intervals elapsed) and `trace` (the callback
invocations so far, each with its return value) are there for the statements. -/
structure bgpwatcher_server_t (U : Type) where
  err : bgpwatcher_err_t
  client_uri : String
  clients : List bgpwatcher_server_client_t
  heartbeat_interval : Nat
  heartbeat_next : Nat
  heartbeat_liveness : Int
  shutdown : Int
  callbacks : bgpwatcher_server_callbacks_t U
  now : Nat
  trace : List (server_call_t × Int)

/-- Modelled from the spec: `bgpwatcher_server_init`. The defaults of the URI,
of the heartbeat interval and of the heartbeat liveness are constants of the
missing `bgpwatcher_common.h` and are parameters here. -/
def bgpwatcher_server_init {U : Type} (callbacks : bgpwatcher_server_callbacks_t U)
    (uri_default : String) (interval_default : Nat) (liveness_default : Int) :
    bgpwatcher_server_t U :=
  { err := ⟨bgpwatcher_server_err_code_t.BGPWATCHER_SERVER_ERR_NONE.toInt⟩,
    client_uri := uri_default,
    clients := [],
    heartbeat_interval := interval_default,
    heartbeat_next := 0,
    heartbeat_liveness := liveness_default,
    shutdown := 0,
    callbacks := callbacks,
    now := 0,
    trace := [] }

/-- Modelled from the spec: `bgpwatcher_server_set_heartbeat_interval`. -/
def bgpwatcher_server_set_heartbeat_interval {U : Type} (server : bgpwatcher_server_t U)
    (interval_ms : Nat) : bgpwatcher_server_t U :=
  { server with heartbeat_interval := interval_ms % 2 ^ 64 }

/-- Modelled from the spec: `bgpwatcher_server_set_heartbeat_liveness`. -/
def bgpwatcher_server_set_heartbeat_liveness {U : Type} (server : bgpwatcher_server_t U)
    (beats : Int) : bgpwatcher_server_t U :=
  { server with heartbeat_liveness := beats }

/-- Modelled from the spec: `bgpwatcher_server_stop`: the server shuts down at
the next opportunity. -/
def bgpwatcher_server_stop {U : Type} (server : bgpwatcher_server_t U) :
    bgpwatcher_server_t U :=
  { server with shutdown := 1 }

/-- The callback of an invocation, applied to the user data. -/
def server_invoke {U : Type} (callbacks : bgpwatcher_server_callbacks_t U) :
    server_call_t → Int × U
  | .client_connect client => callbacks.client_connect client callbacks.user
  | .client_disconnect client => callbacks.client_disconnect client callbacks.user
  | .recv_pfx_record table_id record => callbacks.recv_pfx_record table_id record callbacks.user
  | .recv_peer_record table_id record => callbacks.recv_peer_record table_id record callbacks.user
  | .table_end table_id table_type => callbacks.table_end table_id table_type callbacks.user

/-- Modelled from the spec: the server signals an event to its callback. A
failure return is recorded in the error status and is otherwise without
consequence: the loop continues. The spec names no error code for a failed
callback; the catch-all UNHANDLED is recorded. -/
def server_signal {U : Type} (server : bgpwatcher_server_t U) (call : server_call_t) :
    bgpwatcher_server_t U :=
  let r := server_invoke server.callbacks call
  { server with
    callbacks := { server.callbacks with user := r.2 },
    trace := server.trace ++ [(call, r.1)],
    err := if r.1 ≠ 0 then
        ⟨bgpwatcher_server_err_code_t.BGPWATCHER_SERVER_ERR_UNHANDLED.toInt⟩
      else server.err }

/-- The client name is the name of a connected client. -/
def server_knows {U : Type} (server : bgpwatcher_server_t U) (client : String) : Bool :=
  server.clients.any (fun cl => decide (cl.info.name = client))

/-- Modelled from the spec: the callback a message is dispatched to: the first
message from an unknown client name is a client connect; from a known client, a
prefix record, a peer record, a table end and a disconnect go to their
callbacks; handshakes and heartbeats of a known client go to none. -/
def server_dispatch {U : Type} (server : bgpwatcher_server_t U) (client : String)
    (msg : bgpwatcher_msg_t) : Option server_call_t :=
  if server_knows server client then
    match msg with
    | .HANDSHAKE => none
    | .HEARTBEAT => none
    | .PFX_RECORD table_id record => some (.recv_pfx_record table_id record)
    | .PEER_RECORD table_id record => some (.recv_peer_record table_id record)
    | .TABLE_END table_id table_type => some (.table_end table_id table_type)
    | .DISCONNECT => some (.client_disconnect ⟨client⟩)
  else some (.client_connect ⟨client⟩)

/-- Modelled from the spec: what a message does to the client records: an
unknown client gets a record; a heartbeat resets the missed beats of the
client; a disconnect removes the record. -/
def server_bookkeep {U : Type} (server : bgpwatcher_server_t U) (client : String)
    (msg : bgpwatcher_msg_t) : bgpwatcher_server_t U :=
  if server_knows server client then
    match msg with
    | .HEARTBEAT =>
      { server with clients := server.clients.map (fun cl =>
          if cl.info.name = client then
            { cl with last_heartbeat_tick := server.now, missed_beats := 0 }
          else cl) }
    | .DISCONNECT =>
      { server with clients := server.clients.filter (fun cl =>
          !decide (cl.info.name = client)) }
    | _ => server
  else { server with clients := server.clients ++ [⟨⟨client⟩, server.now, 0⟩] }

/-- Modelled from the spec: the handling of one message: the client records are
updated and the message is dispatched to its callback, if it has one. -/
def server_handle_msg {U : Type} (server : bgpwatcher_server_t U) (client : String)
    (msg : bgpwatcher_msg_t) : bgpwatcher_server_t U :=
  match server_dispatch server client msg with
  | none => server_bookkeep server client msg
  | some call => server_signal (server_bookkeep server client msg) call

/-- Modelled from the spec: the elapse of one heartbeat interval: every client
has missed one more beat. -/
def server_tick {U : Type} (server : bgpwatcher_server_t U) : bgpwatcher_server_t U :=
  { server with
    now := server.now + 1,
    heartbeat_next := server.heartbeat_next + server.heartbeat_interval,
    clients := server.clients.map (fun cl => { cl with missed_beats := cl.missed_beats + 1 }) }

/-- The missed beats have reached the number of beats the liveness tolerates. -/
def liveness_reached (liveness : Int) (missed : Nat) : Bool :=
  decide (liveness ≤ Int.ofNat missed)

/-- The client has missed as many beats as the liveness tolerates. -/
def server_client_dead {U : Type} (server : bgpwatcher_server_t U)
    (cl : bgpwatcher_server_client_t) : Bool :=
  liveness_reached server.heartbeat_liveness cl.missed_beats

/-- The disconnect of each client of a list is signalled, one after the other. -/
def server_signal_disconnects {U : Type} :
    List bgpwatcher_server_client_t → bgpwatcher_server_t U → bgpwatcher_server_t U
  | [], server => server
  | cl :: rest, server =>
    server_signal_disconnects rest (server_signal server (.client_disconnect cl.info))

/-- Modelled from the spec: the liveness check of the server loop: the records
of the dead clients are removed and their disconnects are signalled. -/
def server_purge {U : Type} (server : bgpwatcher_server_t U) : bgpwatcher_server_t U :=
  server_signal_disconnects (server.clients.filter (server_client_dead server))
    { server with clients := server.clients.filter (fun cl => !server_client_dead server cl) }

/-- Modelled from the spec: one iteration of the server loop: the event is
handled, then the liveness of the clients is checked. The stop signal sets the
shutdown flag and records INTERRUPT. -/
def server_step {U : Type} (server : bgpwatcher_server_t U) :
    server_event_t → bgpwatcher_server_t U
  | .RECV client msg => server_purge (server_handle_msg server client msg)
  | .TICK => server_purge (server_tick server)
  | .STOP =>
    { bgpwatcher_server_stop server with
      err := ⟨bgpwatcher_server_err_code_t.BGPWATCHER_SERVER_ERR_INTERRUPT.toInt⟩ }

/-- Modelled from the spec: the server loop of `bgpwatcher_server_start` over
the events that arrive: it runs until the shutdown flag is set. -/
def server_run {U : Type} :
    bgpwatcher_server_t U → List server_event_t → bgpwatcher_server_t U
  | server, [] => server
  | server, ev :: rest =>
    if server.shutdown ≠ 0 then server else server_run (server_step server ev) rest

/-- The server after `k` heartbeat intervals in which no message arrives. -/
def server_ticks {U : Type} : Nat → bgpwatcher_server_t U → bgpwatcher_server_t U
  | 0, server => server
  | k + 1, server => server_ticks k (server_step server .TICK)

/-- The number of times the disconnect of the client was signalled. -/
def server_disconnects {U : Type} (server : bgpwatcher_server_t U) (client : String) : Nat :=
  server.trace.countP (fun x => decide (x.1 = server_call_t.client_disconnect ⟨client⟩))

/-- The client has a record: the server holds it for connected. -/
def server_connected {U : Type} (server : bgpwatcher_server_t U) (client : String) : Prop :=
  ∃ cl ∈ server.clients, cl.info.name = client

/-- The missed beats of the records of a client name. -/
def server_missed {U : Type} (server : bgpwatcher_server_t U) (client : String) : List Nat :=
  (server.clients.filter (fun cl => decide (cl.info.name = client))).map
    (fun cl => cl.missed_beats)

/-- The server after a handshake of the client, the liveness being `n` beats,
and `k` heartbeat intervals in which no message arrives. -/
def server_after_handshake {U : Type} (server : bgpwatcher_server_t U) (n : Nat)
    (client : String) (k : Nat) : bgpwatcher_server_t U :=
  server_ticks k
    (server_step (bgpwatcher_server_set_heartbeat_liveness server (n : Int))
      (.RECV client .HANDSHAKE))

/-- A server whose `client_connect` and `client_disconnect` succeed and whose
record and table callbacks fail; liveness 3. -/
def server_example : bgpwatcher_server_t Nat :=
  bgpwatcher_server_init
    { client_connect := fun _ u => (0, u + 1),
      client_disconnect := fun _ u => (0, u + 1),
      recv_pfx_record := fun _ _ u => (-1, u),
      recv_peer_record := fun _ _ u => (-1, u),
      table_end := fun _ _ u => (-1, u),
      user := 0 }
    "inproc-clients" 2000 3

/-- The example server after the handshake of the client rrc00. -/
def server_example_connected : bgpwatcher_server_t Nat :=
  server_step server_example (.RECV "rrc00" .HANDSHAKE)

/-! ## Section 7: the BMP format (`formats/bs_format_bmp.c`) -/

namespace Bmp

/-- The kinds of message parsebgp decodes (`parsebgp_msg_type_t`, declared
outside the sources at hand). -/
inductive parsebgp_msg_type_t where
  | PARSEBGP_MSG_TYPE_BGP
  | PARSEBGP_MSG_TYPE_BMP
  | PARSEBGP_MSG_TYPE_MRT
  deriving DecidableEq, Repr

/-- The BMP message types (`parsebgp_bmp_msg_type_t`, declared outside the
sources at hand). -/
inductive parsebgp_bmp_msg_type_t where
  | PARSEBGP_BMP_TYPE_ROUTE_MON
  | PARSEBGP_BMP_TYPE_STATS_REPORT
  | PARSEBGP_BMP_TYPE_PEER_DOWN
  | PARSEBGP_BMP_TYPE_PEER_UP
  | PARSEBGP_BMP_TYPE_INIT_MSG
  | PARSEBGP_BMP_TYPE_TERM_MSG
  | PARSEBGP_BMP_TYPE_ROUTE_MIRROR_MSG
  deriving DecidableEq, Repr

/-- The BGP message types (`parsebgp_bgp_msg_type_t`, declared outside the
sources at hand). -/
inductive parsebgp_bgp_msg_type_t where
  | PARSEBGP_BGP_TYPE_OPEN
  | PARSEBGP_BGP_TYPE_UPDATE
  | PARSEBGP_BGP_TYPE_NOTIFICATION
  | PARSEBGP_BGP_TYPE_KEEPALIVE
  | PARSEBGP_BGP_TYPE_ROUTE_REFRESH
  deriving DecidableEq, Repr

/-- A BGP message (`parsebgp_bgp_msg_t`): its type; the body is a number this
file does not look into. -/
structure parsebgp_bgp_msg_t where
  type : parsebgp_bgp_msg_type_t
  body : Nat
  deriving DecidableEq, Repr

/-- The BMP per-peer header (`parsebgp_bmp_peer_hdr_t`): the fields the format
reads. -/
structure parsebgp_bmp_peer_hdr_t where
  afi : Nat
  addr : Nat
  asn : Nat
  ts_sec : Nat
  ts_usec : Nat
  deriving DecidableEq, Repr

/-- A BMP message (`parsebgp_bmp_msg_t`): type, peer header, and the BGP
message of a ROUTE_MON (`types.route_mon`). -/
structure parsebgp_bmp_msg_t where
  type : parsebgp_bmp_msg_type_t
  peer_hdr : parsebgp_bmp_peer_hdr_t
  route_mon : parsebgp_bgp_msg_t
  deriving DecidableEq, Repr

/-- A decoded message (`parsebgp_msg_t`): its kind and `types.bmp`. -/
structure parsebgp_msg_t where
  type : parsebgp_msg_type_t
  bmp : parsebgp_bmp_msg_t
  deriving DecidableEq, Repr

/-- The elem types (`bgpstream_elem_type_t`, declared outside the sources at
hand). -/
inductive bgpstream_elem_type_t where
  | BGPSTREAM_ELEM_TYPE_UNKNOWN
  | BGPSTREAM_ELEM_TYPE_RIB
  | BGPSTREAM_ELEM_TYPE_ANNOUNCEMENT
  | BGPSTREAM_ELEM_TYPE_WITHDRAWAL
  | BGPSTREAM_ELEM_TYPE_PEERSTATE
  deriving DecidableEq, Repr

/-- The peer states (`bgpstream_elem_peerstate_t`, declared outside the sources
at hand). -/
inductive bgpstream_elem_peerstate_t where
  | BGPSTREAM_ELEM_PEERSTATE_UNKNOWN
  | BGPSTREAM_ELEM_PEERSTATE_IDLE
  | BGPSTREAM_ELEM_PEERSTATE_CONNECT
  | BGPSTREAM_ELEM_PEERSTATE_ACTIVE
  | BGPSTREAM_ELEM_PEERSTATE_OPENSENT
  | BGPSTREAM_ELEM_PEERSTATE_OPENCONFIRM
  | BGPSTREAM_ELEM_PEERSTATE_ESTABLISHED
  deriving DecidableEq, Repr

/-- An IP address as bgpstream stores it (`bgpstream_addr_storage_t`): version
and address bits. -/
structure bgpstream_addr_storage_t where
  version : Nat
  addr : Nat
  deriving DecidableEq, Repr

/-- An elem (`bgpstream_elem_t`): the fields the format writes; `other` stands
for all the fields it leaves to the update extraction. -/
structure bgpstream_elem_t where
  type : bgpstream_elem_type_t
  timestamp : Nat
  timestamp_usec : Nat
  peer_address : bgpstream_addr_storage_t
  peer_asnumber : Nat
  old_state : bgpstream_elem_peerstate_t
  new_state : bgpstream_elem_peerstate_t
  other : Nat
  deriving DecidableEq, Repr

/-- The state of the format (`state_t`). The decoder state and the state of the
UPDATE elem extraction are numbers this file does not look into. -/
structure state_t where
  decoder : Nat
  elem : bgpstream_elem_t
  end_of_elems : Int
  peer_hdr_done : Int
  upd_state : Nat
  deriving DecidableEq, Repr

/-- A time interval of the filter manager (`bgpstream_interval_filter_t`). -/
structure bgpstream_interval_filter_t where
  begin_time : Nat
  end_time : Nat
  deriving DecidableEq, Repr

/-- The filter manager (`bgpstream_filter_mgr_t`): its list of time intervals;
the empty list is the NULL pointer. -/
structure bgpstream_filter_mgr_t where
  time_intervals : List bgpstream_interval_filter_t
  deriving DecidableEq, Repr

/-- A record (`bgpstream_record_t`): the decoded message attached to it
(`BGPSTREAM_PARSEBGP_FDATA`), `none` for NULL. -/
structure bgpstream_record_t where
  fdata : Option parsebgp_msg_t
  deriving DecidableEq, Repr

/-- The format (`bgpstream_format_t`): its state and its filter manager. -/
structure bgpstream_format_t where
  state : state_t
  filter_mgr : bgpstream_filter_mgr_t
  deriving DecidableEq, Repr

/-- The verdict of a record filter (`bgpstream_parsebgp_check_filter_rc_t`). -/
inductive bgpstream_parsebgp_check_filter_rc_t where
  | BGPSTREAM_PARSEBGP_FILTER_OUT
  | BGPSTREAM_PARSEBGP_KEEP
  deriving DecidableEq, Repr

/-- What `bs_format_bmp.c` takes from headers and helpers that are not among
the sources at hand: the macro `COPY_IP` (`none`: the address family is
unknown and the macro runs its last argument), the constant
`BGPSTREAM_FOREVER`, and the helpers that clear an elem, reset the update
state, extract the next elem of an UPDATE, and read the next message into a
record. -/
structure env_t where
  COPY_IP : bgpstream_addr_storage_t → Nat → Nat → Option bgpstream_addr_storage_t
  BGPSTREAM_FOREVER : Nat
  bgpstream_elem_clear : bgpstream_elem_t → bgpstream_elem_t
  bgpstream_parsebgp_upd_state_reset : Nat → Nat
  bgpstream_parsebgp_process_update :
    Nat → bgpstream_elem_t → parsebgp_bgp_msg_t → Int × Nat × bgpstream_elem_t
  bgpstream_parsebgp_populate_record :
    Nat → bgpstream_record_t →
      (parsebgp_msg_t → Nat → Option (bgpstream_parsebgp_check_filter_rc_t × Nat)) →
      Nat × Nat × bgpstream_record_t

/-- The function `handle_update`: the next elem of an UPDATE; a return of 0
marks the end of the elems. -/
def handle_update (env : env_t) (st : state_t) (bgp : parsebgp_bgp_msg_t) : Int × state_t :=
  let r := env.bgpstream_parsebgp_process_update st.upd_state st.elem bgp
  let st1 := { st with upd_state := r.2.1, elem := r.2.2 }
  if r.1 < 0 then (r.1, st1)
  else if r.1 = 0 then (r.1, { st1 with end_of_elems := 1 })
  else (r.1, st1)

/-- The function `handle_peer_up_down`. -/
def handle_peer_up_down (st : state_t) (peer_up : Int) : Int × state_t :=
  let el := { st.elem with
    type := bgpstream_elem_type_t.BGPSTREAM_ELEM_TYPE_PEERSTATE,
    old_state := bgpstream_elem_peerstate_t.BGPSTREAM_ELEM_PEERSTATE_UNKNOWN,
    new_state :=
      if peer_up ≠ 0 then bgpstream_elem_peerstate_t.BGPSTREAM_ELEM_PEERSTATE_ACTIVE
      else bgpstream_elem_peerstate_t.BGPSTREAM_ELEM_PEERSTATE_IDLE }
  (1, { st with elem := el, end_of_elems := 1 })

/-- The function `handle_peer_hdr`: timestamps, peer address and peer ASN of
the elem are taken from the peer header; -1 when `COPY_IP` does not know the
address family, the timestamps being written by then. -/
def handle_peer_hdr (env : env_t) (el : bgpstream_elem_t) (bmp : parsebgp_bmp_msg_t) :
    Int × bgpstream_elem_t :=
  let hdr := bmp.peer_hdr
  let el1 := { el with timestamp := hdr.ts_sec, timestamp_usec := hdr.ts_usec }
  match env.COPY_IP el1.peer_address hdr.afi hdr.addr with
  | none => (-1, el1)
  | some a => (0, { el1 with peer_address := a, peer_asnumber := hdr.asn })

/-- The function `reset_generator`. -/
def reset_generator (env : env_t) (st : state_t) : state_t :=
  { st with
    elem := env.bgpstream_elem_clear st.elem,
    end_of_elems := 0,
    peer_hdr_done := 0,
    upd_state := env.bgpstream_parsebgp_upd_state_reset st.upd_state }

/-- The loop of `is_wanted_time` over the linked list of intervals. -/
def is_wanted_time_scan (forever : Nat) (record_time : Nat) :
    List bgpstream_interval_filter_t → Int
  | [] => 0
  | tif :: next =>
    if tif.begin_time ≤ record_time ∧
        (tif.end_time = forever ∨ record_time ≤ tif.end_time) then 1
    else is_wanted_time_scan forever record_time next

/-- The function `is_wanted_time`. -/
def is_wanted_time (env : env_t) (record_time : Nat) (filter_mgr : bgpstream_filter_mgr_t) :
    Int :=
  match filter_mgr.time_intervals with
  | [] => 1
  | tif :: next => is_wanted_time_scan env.BGPSTREAM_FOREVER record_time (tif :: next)

/-- The function `populate_filter_cb`: the verdict and the value of `*ts_sec`
after the call; `none` when the assertion on the message kind fails. -/
def populate_filter_cb (env : env_t) (format : bgpstream_format_t) (msg : parsebgp_msg_t)
    (ts_sec : Nat) : Option (bgpstream_parsebgp_check_filter_rc_t × Nat) :=
  let bmp := msg.bmp
  if msg.type ≠ parsebgp_msg_type_t.PARSEBGP_MSG_TYPE_BMP then none
  else if bmp.type ≠ parsebgp_bmp_msg_type_t.PARSEBGP_BMP_TYPE_ROUTE_MON ∧
      bmp.type ≠ parsebgp_bmp_msg_type_t.PARSEBGP_BMP_TYPE_PEER_DOWN ∧
      bmp.type ≠ parsebgp_bmp_msg_type_t.PARSEBGP_BMP_TYPE_PEER_UP then
    some (.BGPSTREAM_PARSEBGP_FILTER_OUT, ts_sec)
  else if bmp.type = parsebgp_bmp_msg_type_t.PARSEBGP_BMP_TYPE_ROUTE_MON ∧
      bmp.route_mon.type ≠ parsebgp_bgp_msg_type_t.PARSEBGP_BGP_TYPE_UPDATE then
    some (.BGPSTREAM_PARSEBGP_FILTER_OUT, ts_sec)
  else if is_wanted_time env bmp.peer_hdr.ts_sec format.filter_mgr ≠ 0 then
    some (.BGPSTREAM_PARSEBGP_KEEP, bmp.peer_hdr.ts_sec)
  else some (.BGPSTREAM_PARSEBGP_FILTER_OUT, ts_sec)

/-- The function `bs_format_bmp_populate_record`: the generator is reset, then
the next message is read into the record; the reader is handed the decoder
state and the filter callback. Returns the status, the format and the record. -/
def bs_format_bmp_populate_record (env : env_t) (format : bgpstream_format_t)
    (record : bgpstream_record_t) : Nat × bgpstream_format_t × bgpstream_record_t :=
  let st := reset_generator env format.state
  let format1 := { format with state := st }
  let r := env.bgpstream_parsebgp_populate_record st.decoder record
    (populate_filter_cb env format1)
  (r.1, { format1 with state := { st with decoder := r.2.1 } }, r.2.2)

/-- The function `bs_format_bmp_get_next_elem`: the return value, the state
after the call and the out-parameter `*elem` (`none` for NULL, otherwise the
borrowed elem of the state). -/
def bs_format_bmp_get_next_elem (env : env_t) (st : state_t) (record : bgpstream_record_t) :
    Int × state_t × Option bgpstream_elem_t :=
  match record.fdata with
  | none => (0, st, none)
  | some msg =>
    if st.end_of_elems ≠ 0 then (0, st, none)
    else
      let bmp := msg.bmp
      let h := if st.peer_hdr_done = 0 then handle_peer_hdr env st.elem bmp else (0, st.elem)
      if st.peer_hdr_done = 0 ∧ h.1 ≠ 0 then (-1, { st with elem := h.2 }, none)
      else
        let st1 := { st with elem := h.2, peer_hdr_done := 1 }
        let r : Option (Int × state_t) :=
          match bmp.type with
          | .PARSEBGP_BMP_TYPE_ROUTE_MON => some (handle_update env st1 bmp.route_mon)
          | .PARSEBGP_BMP_TYPE_PEER_DOWN => some (handle_peer_up_down st1 0)
          | .PARSEBGP_BMP_TYPE_PEER_UP => some (handle_peer_up_down st1 1)
          | _ => none
        match r with
        | none => (0, st1, none)
        | some (rc, st2) =>
          if rc ≤ 0 then (rc, st2, none)
          else (1, st2, some st2.elem)

/-- The state after `k` calls of `bs_format_bmp_get_next_elem` on a record. -/
def get_next_elem_calls (env : env_t) (record : bgpstream_record_t) : Nat → state_t → state_t
  | 0, st => st
  | k + 1, st => get_next_elem_calls env record k (bs_format_bmp_get_next_elem env st record).2.1

end Bmp

namespace Bmp

/-- The message is a PEER_UP or a PEER_DOWN. -/
def is_peer_up_down (bmp : parsebgp_bmp_msg_t) : Prop :=
  bmp.type = parsebgp_bmp_msg_type_t.PARSEBGP_BMP_TYPE_PEER_UP ∨
  bmp.type = parsebgp_bmp_msg_type_t.PARSEBGP_BMP_TYPE_PEER_DOWN

/-- The interval matches the time: both bounds inclusive, the end open when it
is `BGPSTREAM_FOREVER`. -/
def interval_matches (env : env_t) (record_time : Nat) (tif : bgpstream_interval_filter_t) :
    Prop :=
  tif.begin_time ≤ record_time ∧
    (tif.end_time = env.BGPSTREAM_FOREVER ∨ record_time ≤ tif.end_time)

/-- The message is of a type the format keeps: PEER_UP, PEER_DOWN, or ROUTE_MON
carrying an UPDATE. -/
def is_kept_type (bmp : parsebgp_bmp_msg_t) : Prop :=
  bmp.type = parsebgp_bmp_msg_type_t.PARSEBGP_BMP_TYPE_PEER_UP ∨
  bmp.type = parsebgp_bmp_msg_type_t.PARSEBGP_BMP_TYPE_PEER_DOWN ∨
  (bmp.type = parsebgp_bmp_msg_type_t.PARSEBGP_BMP_TYPE_ROUTE_MON ∧
    bmp.route_mon.type = parsebgp_bgp_msg_type_t.PARSEBGP_BGP_TYPE_UPDATE)

/-- An environment for examples: `COPY_IP` knows the address families 1 (IPv4)
and 2 (IPv6), `BGPSTREAM_FOREVER` is 0, an UPDATE yields no elem. -/
def env_example : env_t :=
  { COPY_IP := fun _ afi addr =>
      if afi = 1 then some ⟨4, addr⟩ else if afi = 2 then some ⟨6, addr⟩ else none,
    BGPSTREAM_FOREVER := 0,
    bgpstream_elem_clear := fun _ =>
      ⟨.BGPSTREAM_ELEM_TYPE_UNKNOWN, 0, 0, ⟨0, 0⟩, 0,
        .BGPSTREAM_ELEM_PEERSTATE_UNKNOWN, .BGPSTREAM_ELEM_PEERSTATE_UNKNOWN, 0⟩,
    bgpstream_parsebgp_upd_state_reset := fun _ => 0,
    bgpstream_parsebgp_process_update := fun u el _ => (0, u, el),
    bgpstream_parsebgp_populate_record := fun d rec _ => (0, d, rec) }

/-- A PEER_UP message of the peer 10.0.0.1, AS 65000, at time 1500000000. -/
def msg_peer_up : parsebgp_msg_t :=
  ⟨.PARSEBGP_MSG_TYPE_BMP,
    ⟨.PARSEBGP_BMP_TYPE_PEER_UP, ⟨1, 167772161, 65000, 1500000000, 250⟩,
      ⟨.PARSEBGP_BGP_TYPE_OPEN, 0⟩⟩⟩

/-- A PEER_DOWN message of the same peer. -/
def msg_peer_down : parsebgp_msg_t :=
  ⟨.PARSEBGP_MSG_TYPE_BMP,
    ⟨.PARSEBGP_BMP_TYPE_PEER_DOWN, ⟨1, 167772161, 65000, 1500000060, 0⟩,
      ⟨.PARSEBGP_BGP_TYPE_OPEN, 0⟩⟩⟩

/-- A format whose elem holds data of an earlier message. -/
def format_example : bgpstream_format_t :=
  ⟨⟨7, ⟨.BGPSTREAM_ELEM_TYPE_ANNOUNCEMENT, 1400000000, 5, ⟨6, 99⟩, 64512,
      .BGPSTREAM_ELEM_PEERSTATE_ESTABLISHED, .BGPSTREAM_ELEM_PEERSTATE_IDLE, 3⟩, 1, 1, 9⟩,
    ⟨[⟨1400000000, 0⟩]⟩⟩

end Bmp

namespace Bmp

/-- The call number `k + 1` of `bs_format_bmp_get_next_elem` on the record that
`bs_format_bmp_populate_record` has just populated. -/
def get_next_elem_after_populate (env : env_t) (format : bgpstream_format_t)
    (record : bgpstream_record_t) (k : Nat) : Int × state_t × Option bgpstream_elem_t :=
  bs_format_bmp_get_next_elem env
    (get_next_elem_calls env (bs_format_bmp_populate_record env format record).2.2 k
      (bs_format_bmp_populate_record env format record).2.1.state)
    (bs_format_bmp_populate_record env format record).2.2

end Bmp

/-! ## Section 8: the bgpstats plugin (`plugins/bgpcorsaro_bgpstats.c`) -/

namespace Bgpstats

/-- The number of output file pointers (`OUTFILE_POINTERS`). -/
def OUTFILE_POINTERS : Nat := 2

/-- The metric prefix (`METRIC_PREFIX`). -/
def METRIC_PREFIX : String := "bgp"

/-- The NUL character that ends a C string. -/
def NUL : Char := Char.ofNat 0

/-- The string a character buffer holds: the characters before the first NUL
(the end of the list counts as one). This is also what `strdup` copies. -/
def c_str (buf : List Char) : List Char :=
  buf.takeWhile (fun c => decide (c ≠ NUL))

/-- An array of `uint64_t` counters indexed by an enumeration value; the bounds
of the arrays (`BGPSTREAM_RECORD_TYPE_MAX`, `BGPSTREAM_ELEM_TYPE_MAX`) are
declared outside the sources at hand and indices are taken to lie within
them. -/
abbrev counters_t := Nat → Nat

/-- The statement `counters[i]++` on `uint64_t` counters. -/
def counters_incr (counters : counters_t) (i : Nat) : counters_t :=
  Function.update counters i ((counters i + 1) % 2 ^ 64)

/-- The per-collector data (`collectordata_t`). -/
structure collectordata_t where
  dump_project : List Char
  dump_collector : List Char
  num_records : counters_t
  num_elem : counters_t

/-- What one iteration of the loop of `graphite_safe` does to the character
under the pointer: the two `if` statements, one after the other. -/
def graphite_safe_char (c : Char) : Char :=
  let c1 := if c = '.' then '_' else c
  if c1 = '*' then '-' else c1

/-- The loop of `graphite_safe` over the buffer the pointer designates, up to
the first NUL. -/
def graphite_safe_loop : List Char → List Char
  | [] => []
  | c :: rest =>
    if c = NUL then c :: rest
    else graphite_safe_char c :: graphite_safe_loop rest

/-- The function `graphite_safe`: the buffer under the pointer after the call;
`none` is the NULL pointer. -/
def graphite_safe (p : Option (List Char)) : Option (List Char) :=
  match p with
  | none => none
  | some buf => some (graphite_safe_loop buf)

/-- The rewriting the claim describes: '.' becomes '_', '*' becomes '-', every
other character stays. -/
def graphite_char_spec (c : Char) : Char :=
  if c = '.' then '_' else if c = '*' then '-' else c

/-- Which of the allocations of a call succeed: the `malloc_zero` of the
collector data, the `strdup` of the project, of the collector, and of the key
of the table. -/
structure alloc_t where
  collector_data : Bool
  dump_project : Bool
  dump_collector : Bool
  name_cpy : Bool
  deriving DecidableEq, Repr

/-- The outcome of `collectordata_create`: the buffers of the caller after the
call and the collector data (`none` for NULL). -/
structure collectordata_create_t where
  project : List Char
  collector : List Char
  collector_data : Option collectordata_t

/-- The function `collectordata_create`: the two names are copied with
`strdup` and the copies are made graphite-safe; the buffers of the caller are
only read. -/
def collectordata_create (alloc : alloc_t) (project collector : List Char) :
    collectordata_create_t :=
  if !alloc.collector_data then ⟨project, collector, none⟩
  else if !alloc.dump_project then ⟨project, collector, none⟩
  else if !alloc.dump_collector then ⟨project, collector, none⟩
  else
    let dump_project := c_str project
    let dump_collector := c_str collector
    let dump_project := (graphite_safe (some dump_project)).getD dump_project
    let dump_collector := (graphite_safe (some dump_collector)).getD dump_collector
    ⟨project, collector, some ⟨dump_project, dump_collector, fun _ => 0, fun _ => 0⟩⟩

/-- An elem of the elem queue of a record (`bgpstream_elem_t`): its type; the
`next` pointer is the tail of the list. -/
structure bgpstream_elem_t where
  type : Nat
  deriving DecidableEq, Repr

/-- The attributes of a record the plugin reads. -/
structure bgpstream_record_attributes_t where
  dump_project : List Char
  dump_collector : List Char
  deriving DecidableEq, Repr

/-- A record (`bgpstream_record_t`): status, attributes, and the data the elem
queue is extracted from, a number this file does not look into. -/
structure bgpstream_record_t where
  status : Nat
  attributes : bgpstream_record_attributes_t
  data : Nat
  deriving DecidableEq, Repr

/-- The state of a bgpcorsaro record (`record->state`). -/
structure bgpcorsaro_record_state_t where
  flags : Nat
  deriving DecidableEq, Repr

/-- A bgpcorsaro record (`bgpcorsaro_record_t`): its state and the bgpstream
record `BS_REC` gives. -/
structure bgpcorsaro_record_t where
  state : bgpcorsaro_record_state_t
  bsrecord : bgpstream_record_t
  deriving DecidableEq, Repr

/-- The end of an interval (`bgpcorsaro_interval_t`). -/
structure bgpcorsaro_interval_t where
  number : Nat
  time : Nat
  deriving DecidableEq, Repr

/-- What the plugin takes from headers and helpers that are not among the
sources at hand: the enumeration values it names, the IGNORE flag, and the
helper that extracts the elem queue of a record. -/
structure env_t where
  VALID_RECORD : Nat
  BST_RIB : Nat
  BST_ANNOUNCEMENT : Nat
  BST_WITHDRAWAL : Nat
  BGPCORSARO_RECORD_STATE_FLAG_IGNORE : Nat
  bgpstream_get_elem_queue : bgpstream_record_t → List bgpstream_elem_t

/-- The loop of `collectordata_update` over the elem queue. -/
def count_elems : List bgpstream_elem_t → counters_t → counters_t
  | [], num_elem => num_elem
  | bs_iterator :: next, num_elem => count_elems next (counters_incr num_elem bs_iterator.type)

/-- The function `collectordata_update`, the collector data being non-NULL. -/
def collectordata_update (env : env_t) (record : bgpcorsaro_record_t)
    (collector_data : collectordata_t) : collectordata_t :=
  let bs_record := record.bsrecord
  let cd1 := { collector_data with
    num_records := counters_incr collector_data.num_records bs_record.status }
  if bs_record.status = env.VALID_RECORD then
    { cd1 with num_elem := count_elems (env.bgpstream_get_elem_queue bs_record) cd1.num_elem }
  else cd1

/-- The function `collectordata_reset`. -/
def collectordata_reset (collector_data : collectordata_t) : collectordata_t :=
  { collector_data with num_records := fun _ => 0, num_elem := fun _ => 0 }

/-- The state of an instance of the plugin (`struct
bgpcorsaro_bgpstats_state_t`). File handles are numbers, `none` is NULL; the
table maps a collector name to its data, in the order the table is walked. -/
structure bgpcorsaro_bgpstats_state_t where
  outfile : Option Nat
  outfile_p : Nat → Option Nat
  outfile_n : Int
  num_records : Nat → Int
  collectors_table : List (List Char × collectordata_t)

/-- The lookup `kh_get` of a collector name. -/
def collectors_get (table : List (List Char × collectordata_t)) (name : List Char) :
    Option collectordata_t :=
  (table.find? (fun kv => decide (kv.1 = name))).map (fun kv => kv.2)

/-- The function `stats_update`; `none` when the assertion of
`collectordata_update` fails on a NULL collector data. -/
def stats_update (env : env_t) (alloc : alloc_t) (state : bgpcorsaro_bgpstats_state_t)
    (record : bgpcorsaro_record_t) : Option (Int × bgpcorsaro_bgpstats_state_t) :=
  let bs_record := record.bsrecord
  let state1 := { state with
    num_records := Function.update state.num_records bs_record.status
      (state.num_records bs_record.status + 1) }
  let name := c_str bs_record.attributes.dump_collector
  match collectors_get state1.collectors_table name with
  | none =>
    let created := collectordata_create alloc bs_record.attributes.dump_project
      bs_record.attributes.dump_collector
    if !alloc.name_cpy then some (-1, state1)
    else
      match created.collector_data with
      | none => none
      | some collector_data =>
        some (0, { state1 with collectors_table :=
          state1.collectors_table ++ [(name, collectordata_update env record collector_data)] })
  | some _ =>
    some (0, { state1 with collectors_table :=
      state1.collectors_table.map (fun kv =>
        if kv.1 = name then (kv.1, collectordata_update env record kv.2) else kv) })

/-- One line `stats_dump` prints: prefix, project, collector, metric name,
value, time. -/
structure metric_line_t where
  metric_prefix : String
  project : List Char
  collector : List Char
  metric : String
  value : Nat
  time : Nat
  deriving DecidableEq, Repr

/-- The four lines `stats_dump` prints for one collector. -/
def stats_lines (env : env_t) (collector_data : collectordata_t) (time : Nat) :
    List metric_line_t :=
  [ ⟨METRIC_PREFIX, collector_data.dump_project, collector_data.dump_collector,
      "valid_record_cnt", collector_data.num_records env.VALID_RECORD, time⟩,
    ⟨METRIC_PREFIX, collector_data.dump_project, collector_data.dump_collector,
      "rib_entry_cnt", collector_data.num_elem env.BST_RIB, time⟩,
    ⟨METRIC_PREFIX, collector_data.dump_project, collector_data.dump_collector,
      "announcement_cnt", collector_data.num_elem env.BST_ANNOUNCEMENT, time⟩,
    ⟨METRIC_PREFIX, collector_data.dump_project, collector_data.dump_collector,
      "withdrawal_cnt", collector_data.num_elem env.BST_WITHDRAWAL, time⟩ ]

/-- The function `stats_dump`: the state after the call and the lines
printed. -/
def stats_dump (env : env_t) (state : bgpcorsaro_bgpstats_state_t)
    (int_end : bgpcorsaro_interval_t) : bgpcorsaro_bgpstats_state_t × List metric_line_t :=
  ({ state with
      collectors_table := state.collectors_table.map (fun kv => (kv.1, collectordata_reset kv.2)),
      num_records := fun _ => 0 },
   state.collectors_table.flatMap (fun kv => stats_lines env kv.2 int_end.time))

/-- The function `bgpcorsaro_bgpstats_process_record`: the return value and the
plugin state after the call; `none` when an assertion fails. -/
def bgpcorsaro_bgpstats_process_record (env : env_t) (alloc : alloc_t)
    (state : bgpcorsaro_bgpstats_state_t) (record : bgpcorsaro_record_t) :
    Option (Int × bgpcorsaro_bgpstats_state_t) :=
  if record.state.flags &&& env.BGPCORSARO_RECORD_STATE_FLAG_IGNORE ≠ 0 then some (0, state)
  else stats_update env alloc state record

end Bgpstats

namespace Bgpstats

/-- Every allocation succeeds. -/
def alloc_ok : alloc_t := ⟨true, true, true, true⟩

end Bgpstats

namespace Bgpstats

/-- The number of elems of a type in an elem queue. -/
def elems_of_type (t : Nat) (queue : List bgpstream_elem_t) : Nat :=
  queue.countP (fun e => decide (e.type = t))

/-- An environment for examples: VALID_RECORD is 0, the elem types RIB,
ANNOUNCEMENT and WITHDRAWAL are 0, 1 and 2, the IGNORE flag is bit 0, and the
data of a record is the number of its elems, whose types go 0, 1, 2, 0, 1 and
so on. -/
def env_example : env_t :=
  { VALID_RECORD := 0,
    BST_RIB := 0,
    BST_ANNOUNCEMENT := 1,
    BST_WITHDRAWAL := 2,
    BGPCORSARO_RECORD_STATE_FLAG_IGNORE := 1,
    bgpstream_get_elem_queue := fun r =>
      (List.range r.data).map (fun i => ⟨i % 3⟩) }

/-- A valid record of the collector "rrc00" of the project "ris" with five
elems: two RIB entries, two announcements and one withdrawal; the flags are a
parameter. -/
def record_example (flags : Nat) : bgpcorsaro_record_t :=
  ⟨⟨flags⟩, ⟨0, ⟨"ris".toList, "rrc00".toList⟩, 5⟩⟩

/-- Collector data with counts from earlier records. -/
def collectordata_example : collectordata_t :=
  ⟨"ris".toList, "rrc00".toList, fun i => if i = 0 then 5 else 0,
    fun t => if t = 1 then 7 else 0⟩

/-- A plugin state that knows the collector "rrc00". -/
def state_example : bgpcorsaro_bgpstats_state_t :=
  ⟨some 3, fun i => if i = 0 then some 3 else none, 0, fun i => if i = 0 then 5 else 0,
    [("rrc00".toList, collectordata_example)]⟩

end Bgpstats

namespace Bgpstats

/-- The largest value of a C `int`. -/
def INT_MAX : Int := 2 ^ 31 - 1

/-- What a call of `bgpcorsaro_bgpstats_start_interval` or
`bgpcorsaro_bgpstats_end_interval` does besides changing the plugin state: the
lines `stats_dump` prints, the file handed to
`bgpcorsaro_io_write_interval_start` or `bgpcorsaro_io_write_interval_end`
(`none` for NULL), and the files handed to `wandio_wdestroy`. -/
structure interval_effects_t where
  lines : List metric_line_t
  interval_file : Option Nat
  destroyed : List Nat
  deriving DecidableEq, Repr

/-- The function `bgpcorsaro_bgpstats_start_interval` on the plugin state: the
return value, the state after the call and the effects. The result of
`bgpcorsaro_io_prepare_file`, which is not among the sources at hand, is a
parameter (it answers `none` for NULL) and what it returns is stored in the
current slot before it is tested. `none` when `outfile_n` is not an index of the array `outfile_p`. -/
def bgpcorsaro_bgpstats_start_interval
    (bgpcorsaro_io_prepare_file : bgpcorsaro_interval_t → Option Nat)
    (state : bgpcorsaro_bgpstats_state_t) (int_start : bgpcorsaro_interval_t) :
    Option (Int × bgpcorsaro_bgpstats_state_t × interval_effects_t) :=
  if state.outfile = none then
    if state.outfile_n < 0 ∨ (OUTFILE_POINTERS : Int) ≤ state.outfile_n then none
    else
      let state1 := { state with
        outfile_p := Function.update state.outfile_p state.outfile_n.toNat
          (bgpcorsaro_io_prepare_file int_start) }
      if state1.outfile_p state1.outfile_n.toNat = none then
        some (-1, state1, ⟨[], none, []⟩)
      else
        let state2 := { state1 with outfile := state1.outfile_p state1.outfile_n.toNat }
        some (0, state2, ⟨[], state2.outfile, []⟩)
  else some (0, state, ⟨[], state.outfile, []⟩)

/-- The function `bgpcorsaro_bgpstats_end_interval` on the plugin state: the
return value, the state after the call and the effects. The answer of
`bgpcorsaro_is_rotate_interval`, which is not among the sources at hand, is a
parameter; the logging and the interval writer do not reach the plugin state.
`none` when the assertion on `outfile` fails, when `outfile_n + 1` overflows an
`int`, or when the new `outfile_n` is not an index of the array `outfile_p`
(the remainder of C takes the sign of the dividend). -/
def bgpcorsaro_bgpstats_end_interval (env : env_t) (bgpcorsaro_is_rotate_interval : Int)
    (state : bgpcorsaro_bgpstats_state_t) (int_end : bgpcorsaro_interval_t) :
    Option (Int × bgpcorsaro_bgpstats_state_t × interval_effects_t) :=
  let dumped := stats_dump env state int_end
  let state1 := dumped.1
  let written := state1.outfile
  if bgpcorsaro_is_rotate_interval ≠ 0 then
    if state1.outfile = none then none
    else if INT_MAX ≤ state1.outfile_n then none
    else
      let n := Int.tmod (state1.outfile_n + 1) (OUTFILE_POINTERS : Int)
      if n < 0 then none
      else
        let state2 := { state1 with outfile_n := n }
        match state2.outfile_p state2.outfile_n.toNat with
        | some f =>
          some (0,
            { state2 with
              outfile_p := Function.update state2.outfile_p state2.outfile_n.toNat none,
              outfile := none },
            ⟨dumped.2, written, [f]⟩)
        | none => some (0, { state2 with outfile := none }, ⟨dumped.2, written, []⟩)
  else some (0, state1, ⟨dumped.2, written, []⟩)

/-- The slots of `outfile_p` as a list, for examples. -/
def outfile_slots (state : bgpcorsaro_bgpstats_state_t) : List (Option Nat) :=
  (List.range OUTFILE_POINTERS).map state.outfile_p

/-- A plugin state in its second interval after a rotation: file 8 is current
in slot 1, file 7 of the interval before is still draining in slot 0. -/
def state_rotated : bgpcorsaro_bgpstats_state_t :=
  ⟨some 8, fun i => if i = 0 then some 7 else if i = 1 then some 8 else none, 1,
    fun i => if i = 0 then 5 else 0, [("rrc00".toList, collectordata_example)]⟩

end Bgpstats

/-! ## Theorems -/

/-- C10: every value of `bgpwatcher_server_err_code_t` is `<= 0`; `ERR_NONE` is
`0`, the six error causes are strictly negative, and no two codes share a
value. -/
theorem err_code_nonpos_distinct :
    (∀ c : bgpwatcher_server_err_code_t, c.toInt ≤ 0) ∧
    bgpwatcher_server_err_code_t.BGPWATCHER_SERVER_ERR_NONE.toInt = 0 ∧
    (∀ c : bgpwatcher_server_err_code_t,
      c ≠ .BGPWATCHER_SERVER_ERR_NONE → c.toInt < 0) ∧
    (∀ c d : bgpwatcher_server_err_code_t, c.toInt = d.toInt → c = d) := by
  refine ⟨?_, rfl, ?_, ?_⟩
  · intro c; cases c <;> decide
  · intro c hc; cases c <;> first | exact absurd rfl hc | decide
  · intro c d h; cases c <;> cases d <;> first | rfl | exact absurd h (by decide)

/-! ### The peer-signature table -/

theorem intern_sigs (t : bl_peersign_map_t) (s : bl_peer_signature_t) :
    (t.intern s).2.sigs = if s ∈ t.sigs then t.sigs else t.sigs ++ [s] := by
  unfold bl_peersign_map_t.intern
  split <;> rfl

theorem intern_mem (t : bl_peersign_map_t) (s : bl_peer_signature_t) :
    s ∈ (t.intern s).2.sigs := by
  rw [intern_sigs]
  split <;> simp_all

theorem intern_extends (t : bl_peersign_map_t) (s : bl_peer_signature_t) :
    ∃ ext, (t.intern s).2.sigs = t.sigs ++ ext := by
  rw [intern_sigs]
  split
  · exact ⟨[], by simp⟩
  · exact ⟨[s], rfl⟩

theorem internAll_extends (l : List bl_peer_signature_t) :
    ∀ t : bl_peersign_map_t, ∃ ext, (t.internAll l).sigs = t.sigs ++ ext := by
  induction l with
  | nil => intro t; exact ⟨[], by simp [bl_peersign_map_t.internAll]⟩
  | cons s rest ih =>
    intro t
    obtain ⟨e1, h1⟩ := intern_extends t s
    obtain ⟨e2, h2⟩ := ih (t.intern s).2
    exact ⟨e1 ++ e2, by simp [bl_peersign_map_t.internAll, h2, h1]⟩

/-- The identifier handed out for `s` is one more than the position of `s` in
the table after the call. -/
theorem intern_id_eq (t : bl_peersign_map_t) (s : bl_peer_signature_t) :
    (t.intern s).1 = (t.intern s).2.sigs.indexOf s + 1 := by
  unfold bl_peersign_map_t.intern
  split
  · rfl
  · next h => simp [List.indexOf_append_of_not_mem h]

/-- Once `s` is in the table, every later table hands out the same identifier. -/
theorem intern_id_stable (t : bl_peersign_map_t) (s : bl_peer_signature_t)
    (ext : List bl_peer_signature_t) (h : s ∈ t.sigs) :
    ((⟨t.sigs ++ ext⟩ : bl_peersign_map_t).intern s).1 = t.sigs.indexOf s + 1 := by
  have h2 : s ∈ t.sigs ++ ext := List.mem_append_left _ h
  simp [bl_peersign_map_t.intern, h2, List.indexOf_append_of_mem h]

theorem lookup_intern (t : bl_peersign_map_t) (s : bl_peer_signature_t) :
    (t.intern s).2.lookup (t.intern s).1 = some s := by
  rw [intern_id_eq]
  have hlt := List.indexOf_lt_length.2 (intern_mem t s)
  simp [bl_peersign_map_t.lookup, List.getElem?_eq_getElem hlt, List.getElem_indexOf]

/-- C1: interning a signature again, whatever was interned in between, returns
the identifier of the first call; the identifier is never the reserved `0`; a
different signature interned later never receives that identifier; and a view
created with `bgpwatcher_view_create_shared` interns in the table it was given. -/
theorem intern_idempotent_no_collision (t : bl_peersign_map_t)
    (s s2 : bl_peer_signature_t) (between : List bl_peer_signature_t)
    (pfx : bl_pfx_storage_t) (attrs : Nat) :
    (((t.intern s).2.internAll between).intern s).1 = (t.intern s).1 ∧
    (t.intern s).1 ≠ 0 ∧
    (s ≠ s2 → (((t.intern s).2.internAll between).intern s2).1 ≠ (t.intern s).1) ∧
    (bgpwatcher_view_insert (bgpwatcher_view_create_shared t) pfx s attrs).1 =
      (t.intern s).1 ∧
    (bgpwatcher_view_insert (bgpwatcher_view_create_shared t) pfx s attrs).2.peersigs =
      (t.intern s).2 := by
  obtain ⟨ext, hext⟩ := internAll_extends between (t.intern s).2
  have hm := intern_mem t s
  have htab : (t.intern s).2.internAll between = ⟨(t.intern s).2.sigs ++ ext⟩ := by
    cases h : (t.intern s).2.internAll between
    simp_all
  have hstable := intern_id_stable (t.intern s).2 s ext hm
  have hview : (bgpwatcher_view_insert (bgpwatcher_view_create_shared t) pfx s attrs).2.peersigs =
      (t.intern s).2 := by
    cases pfx <;> rfl
  refine ⟨?_, ?_, ?_, rfl, hview⟩
  · rw [htab, hstable, intern_id_eq]
  · rw [intern_id_eq]; exact Nat.succ_ne_zero _
  · intro hne heq
    rw [intern_id_eq t s, intern_id_eq _ s2] at heq
    have hidx := Nat.succ_injective heq
    set u := (t.intern s).2.internAll between with hu
    have hs2 : s2 ∈ (u.intern s2).2.sigs := intern_mem u s2
    obtain ⟨e2, he2⟩ := intern_extends u s2
    have hu_sigs : u.sigs = (t.intern s).2.sigs ++ ext := by rw [htab]
    have hs : s ∈ (u.intern s2).2.sigs := by
      rw [he2, hu_sigs]; simp [hm]
    have hidx2 : List.indexOf s (u.intern s2).2.sigs = List.indexOf s (t.intern s).2.sigs := by
      rw [he2, hu_sigs, List.append_assoc, List.indexOf_append_of_mem hm]
    rw [← hidx2] at hidx
    exact hne ((List.indexOf_inj hs hs2).1 hidx.symm)

/-- Witness for C1 on the empty table, one signature interned in between. -/
theorem intern_idempotent_no_collision_witness :
    (⟨"rrc00", .v4 16909060, 65000⟩ : bl_peer_signature_t) ≠ ⟨"rrc01", .v4 16909060, 65000⟩ ∧
    ((((bl_peersign_map_t.create.intern ⟨"rrc00", .v4 16909060, 65000⟩).2.internAll
        [⟨"rv2", .v6 1, 7⟩]).intern ⟨"rrc01", .v4 16909060, 65000⟩).1 ≠
      (bl_peersign_map_t.create.intern ⟨"rrc00", .v4 16909060, 65000⟩).1) :=
  ⟨by decide, (intern_idempotent_no_collision bl_peersign_map_t.create
    ⟨"rrc00", .v4 16909060, 65000⟩ ⟨"rrc01", .v4 16909060, 65000⟩ [⟨"rv2", .v6 1, 7⟩]
    (.v4 ⟨167772160, 8⟩) 0).2.2.1 (by decide)⟩

/-! ### Seeking the next ACTIVE slot -/

theorem seek_active_none (d : List Bool) :
    ∀ i, seek_active d i = none → ∀ k, i ≤ k → d[k]? ≠ some true := by
  induction d with
  | nil => intro i _ k _; simp
  | cons b rest ih =>
    intro i h k hk
    cases i with
    | zero =>
      cases b with
      | true => simp [seek_active] at h
      | false =>
        simp only [seek_active, Bool.false_eq_true, if_false, Option.map_eq_none'] at h
        cases k with
        | zero => simp
        | succ k => simpa using ih 0 h k (Nat.zero_le _)
    | succ i =>
      simp only [seek_active, Option.map_eq_none'] at h
      cases k with
      | zero => omega
      | succ k => simpa using ih i h k (by omega)

theorem seek_active_some (d : List Bool) :
    ∀ i j, seek_active d i = some j →
      i ≤ j ∧ d[j]? = some true ∧ ∀ k, i ≤ k → k < j → d[k]? ≠ some true := by
  induction d with
  | nil => intro i j h; simp [seek_active] at h
  | cons b rest ih =>
    intro i j h
    cases i with
    | zero =>
      cases b with
      | true =>
        simp only [seek_active, if_true, Option.some.injEq] at h
        subst h
        exact ⟨Nat.le_refl _, by simp, fun k _ hk => by omega⟩
      | false =>
        simp only [seek_active, Bool.false_eq_true, if_false, Option.map_eq_some'] at h
        obtain ⟨j2, hj2, rfl⟩ := h
        obtain ⟨_, h2, h3⟩ := ih 0 j2 hj2
        refine ⟨Nat.zero_le _, by simpa using h2, ?_⟩
        intro k _ hk
        cases k with
        | zero => simp
        | succ k => simpa using h3 k (Nat.zero_le _) (by omega)
    | succ i =>
      simp only [seek_active, Option.map_eq_some'] at h
      obtain ⟨j2, hj2, rfl⟩ := h
      obtain ⟨h1, h2, h3⟩ := ih i j2 hj2
      refine ⟨by omega, by simpa using h2, ?_⟩
      intro k hik hk
      cases k with
      | zero => omega
      | succ k => simpa using h3 k (by omega) (by omega)

/-- Seeking succeeds exactly when an ACTIVE slot lies at or after the start. -/
theorem seek_active_isSome (d : List Bool) (i k : Nat) (hik : i ≤ k)
    (hk : d[k]? = some true) : ∃ j, seek_active d i = some j := by
  cases h : seek_active d i with
  | none => exact absurd hk (seek_active_none d i h k hik)
  | some j => exact ⟨j, rfl⟩

/-! ### Cursors -/

theorem iter_cursor_set_same (iter : bgpwatcher_view_iter_t)
    (f : bgpwatcher_view_iter_field_t) (c : iter_cursor_t) :
    iter_cursor (iter_set_cursor iter f c) f = c := by
  cases f <;> rfl

theorem iter_cursor_set_other (iter : bgpwatcher_view_iter_t)
    (f g : bgpwatcher_view_iter_field_t) (c : iter_cursor_t) (h : g ≠ f) :
    iter_cursor (iter_set_cursor iter f c) g = iter_cursor iter g := by
  cases f <;> cases g <;> first | rfl | exact absurd rfl h

theorem iter_view_set (iter : bgpwatcher_view_iter_t)
    (f : bgpwatcher_view_iter_field_t) (c : iter_cursor_t) :
    (iter_set_cursor iter f c).view = iter.view := by
  cases f <;> rfl

theorem iter_domain_set_same (iter : bgpwatcher_view_iter_t)
    (f : bgpwatcher_view_iter_field_t) (c : iter_cursor_t) :
    iter_domain (iter_set_cursor iter f c) f = iter_domain iter f := by
  cases f <;> rfl

theorem iter_is_end_iff (iter : bgpwatcher_view_iter_t) (f : bgpwatcher_view_iter_field_t) :
    bgpwatcher_view_iter_is_end iter f ≠ 0 ↔ iter_cursor iter f = .AT_END := by
  unfold bgpwatcher_view_iter_is_end
  split <;> simp_all

/-! ### The loop rule -/

/-- An invariant insensitive to DIRTY slots is carried over a run of them. -/
theorem inv_skip {σ : Type} (d : List Bool) (Inv : Nat → σ → Prop)
    (hskip : ∀ k st, d[k]? = some false → Inv k st → Inv (k + 1) st)
    (st : σ) (i : Nat) :
    ∀ n j, j = i + n → j ≤ d.length → (∀ k, i ≤ k → k < j → d[k]? ≠ some true) →
      Inv i st → Inv j st := by
  intro n
  induction n with
  | zero => intro j hj _ _ h; simpa [hj] using h
  | succ n ih =>
    intro j hj hlen hd h
    have h1 : Inv (i + n) st := ih (i + n) rfl (by omega) (fun k h1 h2 => hd k h1 (by omega)) h
    have hlt : i + n < d.length := by omega
    have h2 : d[i + n]? = some false := by
      have h3 := hd (i + n) (by omega) (by omega)
      rw [List.getElem?_eq_getElem hlt] at h3 ⊢
      cases hb : d[i + n] with
      | true => simp [hb] at h3
      | false => rfl
    have := hskip (i + n) st h2 h1
    simpa [hj, Nat.add_assoc] using this

/-- The rule for `iter_for_each`: with an invariant `Inv k` ("every slot below
`k` has been dealt with") that the body re-establishes at each ACTIVE slot and
that DIRTY slots do not disturb, the loop returns, given fuel above the number
of slots, a state satisfying `Inv` at the end of the domain, with the cursor
AT_END. -/
theorem iter_for_each_spec {β : Type} (f : bgpwatcher_view_iter_field_t)
    (body : bgpwatcher_view_iter_t × β → Option (bgpwatcher_view_iter_t × β))
    (d : List Bool) (Inv : Nat → bgpwatcher_view_iter_t × β → Prop)
    (hdom : ∀ k st, Inv k st → iter_domain st.1 f = d)
    (hset : ∀ k st c, Inv k st → Inv k (iter_set_cursor st.1 f c, st.2))
    (hskip : ∀ k st, d[k]? = some false → Inv k st → Inv (k + 1) st)
    (hbody : ∀ k st, d[k]? = some true → Inv k st → iter_cursor st.1 f = .POSITIONED k →
      ∃ st2, body st = some st2 ∧ iter_cursor st2.1 f = .POSITIONED k ∧ Inv (k + 1) st2) :
    ∀ fuel i st, Inv i st → i ≤ d.length →
      iter_cursor st.1 f = .ofSeek (seek_active d i) → d.length - i < fuel →
      ∃ st2, iter_for_each f body fuel st = some st2 ∧ Inv d.length st2 ∧
        iter_cursor st2.1 f = .AT_END := by
  intro fuel
  induction fuel with
  | zero => intro i st _ _ _ h; omega
  | succ fuel ih =>
    intro i st hinv hi hcur hfuel
    cases hseek : seek_active d i with
    | none =>
      rw [hseek] at hcur
      have hend : bgpwatcher_view_iter_is_end st.1 f ≠ 0 := (iter_is_end_iff _ _).2 hcur
      refine ⟨st, by simp [iter_for_each, hend], ?_, hcur⟩
      exact inv_skip d Inv hskip st i (d.length - i) d.length (by omega) (Nat.le_refl _)
        (fun k h1 _ => seek_active_none d i hseek k h1) hinv
    | some j =>
      rw [hseek] at hcur
      obtain ⟨hij, hj, hbelow⟩ := seek_active_some d i j hseek
      have hjlt : j < d.length := by
        by_contra hc
        rw [List.getElem?_eq_none (by omega)] at hj
        exact absurd hj (by simp)
      have hinvj : Inv j st :=
        inv_skip d Inv hskip st i (j - i) j (by omega) (by omega) hbelow hinv
      obtain ⟨st2, hb, hcur2, hinv2⟩ := hbody j st hj hinvj hcur
      have hnend : ¬ bgpwatcher_view_iter_is_end st.1 f ≠ 0 := by
        rw [iter_is_end_iff, hcur]; simp [iter_cursor_t.ofSeek]
      have hnext : bgpwatcher_view_iter_next st2.1 f =
          iter_set_cursor st2.1 f (.ofSeek (seek_active d (j + 1))) := by
        unfold bgpwatcher_view_iter_next
        rw [hcur2, hdom _ _ hinv2]
      have hinv3 := hset (j + 1) st2 (.ofSeek (seek_active d (j + 1))) hinv2
      obtain ⟨st3, h3, hinv4, hcur4⟩ := ih (j + 1)
        (iter_set_cursor st2.1 f (.ofSeek (seek_active d (j + 1))), st2.2) hinv3 (by omega)
        (iter_cursor_set_same _ _ _) (by omega)
      refine ⟨st3, ?_, hinv4, hcur4⟩
      simp only [iter_for_each, hnend, if_false, hb, hnext]
      exact h3

/-! ### The nested v4 iteration -/

theorem take_succ_filter_false {α : Type} (l : List α) (p : α → Bool) (k : Nat)
    (h : (l.map p)[k]? = some false) :
    (l.take (k + 1)).filter p = (l.take k).filter p := by
  rw [List.getElem?_map] at h
  cases hx : l[k]? with
  | none => simp [hx] at h
  | some x =>
    simp only [hx, Option.map_some', Option.some.injEq] at h
    simp [List.take_succ, hx, h]

theorem take_succ_filter_true {α : Type} (l : List α) (p : α → Bool) (k : Nat)
    (h : (l.map p)[k]? = some true) :
    ∃ x, l[k]? = some x ∧ p x = true ∧
      (l.take (k + 1)).filter p = (l.take k).filter p ++ [x] := by
  rw [List.getElem?_map] at h
  cases hx : l[k]? with
  | none => simp [hx] at h
  | some x =>
    simp only [hx, Option.map_some', Option.some.injEq] at h
    exact ⟨x, rfl, h, by simp [List.take_succ, hx, h]⟩

/-- The pairs the inner loop records for one prefix slot. -/
theorem visit_v4pfx_spec (v : bgpwatcher_view_t) (i : Nat) (e : pfx_slot_t bl_ipv4_pfx_t)
    (he : v.v4_table.slots[i]? = some e) (fuel : Nat) (hfuel : e.peers.length < fuel)
    (st : bgpwatcher_view_iter_t × List (Option bl_ipv4_pfx_t × bl_peerid_t))
    (hv : st.1.view = v) (hc : st.1.v4pfx_it = .POSITIONED i) :
    ∃ st2, visit_v4pfx fuel st = some st2 ∧ st2.1.view = v ∧
      st2.1.v4pfx_it = .POSITIONED i ∧
      st2.2 = st.2 ++ (e.peers.filter peer_slot_t.isActive).map
        (fun s => (some e.pfx, s.peer_id)) := by
  have hcur : ∀ it : bgpwatcher_view_iter_t, it.view = v → it.v4pfx_it = .POSITIONED i →
      iter_cur_v4pfx it = some e := by
    intro it h1 h2
    simp [iter_cur_v4pfx, h1, h2, iter_cursor_t.slot, he]
  have key := iter_for_each_spec .BGPWATCHER_VIEW_ITER_FIELD_V4PFX_PEER visit_v4pfx_peer
    (e.peers.map peer_slot_t.isActive)
    (fun k s => s.1.view = v ∧ s.1.v4pfx_it = .POSITIONED i ∧
      s.2 = st.2 ++ ((e.peers.take k).filter peer_slot_t.isActive).map
        (fun s => (some e.pfx, s.peer_id)))
    (by
      rintro k s ⟨h1, h2, _⟩
      simp [iter_domain, hcur s.1 h1 h2])
    (by
      rintro k s c ⟨h1, h2, h3⟩
      exact ⟨h1, h2, h3⟩)
    (by
      rintro k s hk ⟨h1, h2, h3⟩
      refine ⟨h1, h2, ?_⟩
      rw [take_succ_filter_false _ _ _ hk]; exact h3)
    (by
      rintro k s hk ⟨h1, h2, h3⟩ hpos
      obtain ⟨x, hx, _, hfil⟩ := take_succ_filter_true _ _ _ hk
      refine ⟨_, rfl, hpos, h1, h2, ?_⟩
      have hpos2 : s.1.v4pfx_peer_it = .POSITIONED k := hpos
      have hg1 : bgpwatcher_view_iter_get_v4pfx s.1 = some e.pfx := by
        simp [bgpwatcher_view_iter_get_v4pfx, hcur s.1 h1 h2]
      have hg2 : bgpwatcher_view_iter_get_v4pfx_peerid s.1 = x.peer_id := by
        simp [bgpwatcher_view_iter_get_v4pfx_peerid, iter_cur_v4pfx_peer, hcur s.1 h1 h2,
          hpos2, iter_cursor_t.slot, hx]
      simp [hfil, h3, hg1, hg2])
    fuel 0 (bgpwatcher_view_iter_first st.1 .BGPWATCHER_VIEW_ITER_FIELD_V4PFX_PEER, st.2)
    ⟨hv, hc, by simp⟩ (Nat.zero_le _)
    (by
      have hd : iter_domain st.1 .BGPWATCHER_VIEW_ITER_FIELD_V4PFX_PEER =
          e.peers.map peer_slot_t.isActive := by
        simp [iter_domain, hcur st.1 hv hc]
      simp only [bgpwatcher_view_iter_first, iter_cursor_set_same, hd])
    (by simpa using hfuel)
  obtain ⟨st2, h1, ⟨h2, h3, h4⟩, _⟩ := key
  refine ⟨st2, h1, h2, h3, ?_⟩
  simpa using h4

/-- The nested v4 iteration returns, given fuel above the number of slots of
every list it walks, exactly the ACTIVE (prefix, peer) pairs of the v4 table,
in storage order. -/
theorem iter_visit_v4_spec (iter : bgpwatcher_view_iter_t) (fuel : Nat)
    (h1 : iter.view.v4_table.slots.length < fuel)
    (h2 : ∀ e ∈ iter.view.v4_table.slots, e.peers.length < fuel) :
    iter_visit_v4 fuel iter =
      some (iter.view.v4_table.activePairs.map (fun x => (some x.1, x.2))) := by
  have key := iter_for_each_spec .BGPWATCHER_VIEW_ITER_FIELD_V4PFX (visit_v4pfx fuel)
    (iter.view.v4_table.slots.map pfx_slot_t.isActive)
    (fun k s => s.1.view = iter.view ∧
      s.2 = ((iter.view.v4_table.slots.take k).filter pfx_slot_t.isActive).flatMap
        (fun e => (e.peers.filter peer_slot_t.isActive).map
          (fun s => (some e.pfx, s.peer_id))))
    (by
      rintro k s ⟨h, _⟩
      simp [iter_domain, h])
    (by
      rintro k s c ⟨h, h3⟩
      exact ⟨by simp [iter_view_set, h], h3⟩)
    (by
      rintro k s hk ⟨h, h3⟩
      refine ⟨h, ?_⟩
      rw [take_succ_filter_false _ _ _ hk]; exact h3)
    (by
      rintro k s hk ⟨h, h3⟩ hpos
      obtain ⟨x, hx, _, hfil⟩ := take_succ_filter_true _ _ _ hk
      have hmem : x ∈ iter.view.v4_table.slots := List.getElem?_mem hx
      obtain ⟨s2, hs2, hv2, hc2, hacc⟩ :=
        visit_v4pfx_spec iter.view k x hx fuel (h2 x hmem) s h hpos
      refine ⟨s2, hs2, hc2, hv2, ?_⟩
      rw [hacc, hfil, h3]
      simp)
    fuel 0 (bgpwatcher_view_iter_first iter .BGPWATCHER_VIEW_ITER_FIELD_V4PFX, [])
    ⟨by simp [bgpwatcher_view_iter_first, iter_view_set], by simp⟩ (Nat.zero_le _)
    (by simp only [bgpwatcher_view_iter_first, iter_cursor_set_same, iter_domain])
    (by simpa using h1)
  obtain ⟨st2, h3, ⟨_, h4⟩, _⟩ := key
  simp only [iter_visit_v4, h3, Option.map_some', h4, List.length_map, List.take_length,
    PrefixPeerTable.activePairs, List.map_flatMap, List.map_map]
  rfl

/-- The pairs the inner loop records for one prefix slot. -/
theorem visit_v6pfx_spec (v : bgpwatcher_view_t) (i : Nat) (e : pfx_slot_t bl_ipv6_pfx_t)
    (he : v.v6_table.slots[i]? = some e) (fuel : Nat) (hfuel : e.peers.length < fuel)
    (st : bgpwatcher_view_iter_t × List (Option bl_ipv6_pfx_t × bl_peerid_t))
    (hv : st.1.view = v) (hc : st.1.v6pfx_it = .POSITIONED i) :
    ∃ st2, visit_v6pfx fuel st = some st2 ∧ st2.1.view = v ∧
      st2.1.v6pfx_it = .POSITIONED i ∧
      st2.2 = st.2 ++ (e.peers.filter peer_slot_t.isActive).map
        (fun s => (some e.pfx, s.peer_id)) := by
  have hcur : ∀ it : bgpwatcher_view_iter_t, it.view = v → it.v6pfx_it = .POSITIONED i →
      iter_cur_v6pfx it = some e := by
    intro it h1 h2
    simp [iter_cur_v6pfx, h1, h2, iter_cursor_t.slot, he]
  have key := iter_for_each_spec .BGPWATCHER_VIEW_ITER_FIELD_V6PFX_PEER visit_v6pfx_peer
    (e.peers.map peer_slot_t.isActive)
    (fun k s => s.1.view = v ∧ s.1.v6pfx_it = .POSITIONED i ∧
      s.2 = st.2 ++ ((e.peers.take k).filter peer_slot_t.isActive).map
        (fun s => (some e.pfx, s.peer_id)))
    (by
      rintro k s ⟨h1, h2, _⟩
      simp [iter_domain, hcur s.1 h1 h2])
    (by
      rintro k s c ⟨h1, h2, h3⟩
      exact ⟨h1, h2, h3⟩)
    (by
      rintro k s hk ⟨h1, h2, h3⟩
      refine ⟨h1, h2, ?_⟩
      rw [take_succ_filter_false _ _ _ hk]; exact h3)
    (by
      rintro k s hk ⟨h1, h2, h3⟩ hpos
      obtain ⟨x, hx, _, hfil⟩ := take_succ_filter_true _ _ _ hk
      refine ⟨_, rfl, hpos, h1, h2, ?_⟩
      have hpos2 : s.1.v6pfx_peer_it = .POSITIONED k := hpos
      have hg1 : bgpwatcher_view_iter_get_v6pfx s.1 = some e.pfx := by
        simp [bgpwatcher_view_iter_get_v6pfx, hcur s.1 h1 h2]
      have hg2 : bgpwatcher_view_iter_get_v6pfx_peerid s.1 = x.peer_id := by
        simp [bgpwatcher_view_iter_get_v6pfx_peerid, iter_cur_v6pfx_peer, hcur s.1 h1 h2,
          hpos2, iter_cursor_t.slot, hx]
      simp [hfil, h3, hg1, hg2])
    fuel 0 (bgpwatcher_view_iter_first st.1 .BGPWATCHER_VIEW_ITER_FIELD_V6PFX_PEER, st.2)
    ⟨hv, hc, by simp⟩ (Nat.zero_le _)
    (by
      have hd : iter_domain st.1 .BGPWATCHER_VIEW_ITER_FIELD_V6PFX_PEER =
          e.peers.map peer_slot_t.isActive := by
        simp [iter_domain, hcur st.1 hv hc]
      simp only [bgpwatcher_view_iter_first, iter_cursor_set_same, hd])
    (by simpa using hfuel)
  obtain ⟨st2, h1, ⟨h2, h3, h4⟩, _⟩ := key
  refine ⟨st2, h1, h2, h3, ?_⟩
  simpa using h4

/-- The nested v6 iteration returns, given fuel above the number of slots of
every list it walks, exactly the ACTIVE (prefix, peer) pairs of the v6 table,
in storage order. -/
theorem iter_visit_v6_spec (iter : bgpwatcher_view_iter_t) (fuel : Nat)
    (h1 : iter.view.v6_table.slots.length < fuel)
    (h2 : ∀ e ∈ iter.view.v6_table.slots, e.peers.length < fuel) :
    iter_visit_v6 fuel iter =
      some (iter.view.v6_table.activePairs.map (fun x => (some x.1, x.2))) := by
  have key := iter_for_each_spec .BGPWATCHER_VIEW_ITER_FIELD_V6PFX (visit_v6pfx fuel)
    (iter.view.v6_table.slots.map pfx_slot_t.isActive)
    (fun k s => s.1.view = iter.view ∧
      s.2 = ((iter.view.v6_table.slots.take k).filter pfx_slot_t.isActive).flatMap
        (fun e => (e.peers.filter peer_slot_t.isActive).map
          (fun s => (some e.pfx, s.peer_id))))
    (by
      rintro k s ⟨h, _⟩
      simp [iter_domain, h])
    (by
      rintro k s c ⟨h, h3⟩
      exact ⟨by simp [iter_view_set, h], h3⟩)
    (by
      rintro k s hk ⟨h, h3⟩
      refine ⟨h, ?_⟩
      rw [take_succ_filter_false _ _ _ hk]; exact h3)
    (by
      rintro k s hk ⟨h, h3⟩ hpos
      obtain ⟨x, hx, _, hfil⟩ := take_succ_filter_true _ _ _ hk
      have hmem : x ∈ iter.view.v6_table.slots := List.getElem?_mem hx
      obtain ⟨s2, hs2, hv2, hc2, hacc⟩ :=
        visit_v6pfx_spec iter.view k x hx fuel (h2 x hmem) s h hpos
      refine ⟨s2, hs2, hc2, hv2, ?_⟩
      rw [hacc, hfil, h3]
      simp)
    fuel 0 (bgpwatcher_view_iter_first iter .BGPWATCHER_VIEW_ITER_FIELD_V6PFX, [])
    ⟨by simp [bgpwatcher_view_iter_first, iter_view_set], by simp⟩ (Nat.zero_le _)
    (by simp only [bgpwatcher_view_iter_first, iter_cursor_set_same, iter_domain])
    (by simpa using h1)
  obtain ⟨st2, h3, ⟨_, h4⟩, _⟩ := key
  simp only [iter_visit_v6, h3, Option.map_some', h4, List.length_map, List.take_length,
    PrefixPeerTable.activePairs, List.map_flatMap, List.map_map]
  rfl

/-- The outer v4 iteration returns, given fuel above the number of prefix slots,
exactly the ACTIVE prefixes of the v4 table, in storage order. -/
theorem iter_visit_v4pfxs_spec (iter : bgpwatcher_view_iter_t) (fuel : Nat)
    (h1 : iter.view.v4_table.slots.length < fuel) :
    iter_visit_v4pfxs fuel iter =
      some ((iter.view.v4_table.slots.filter pfx_slot_t.isActive).map
        (fun e => some e.pfx)) := by
  have key := iter_for_each_spec .BGPWATCHER_VIEW_ITER_FIELD_V4PFX
    (fun st : bgpwatcher_view_iter_t × List (Option bl_ipv4_pfx_t) =>
      some (st.1, st.2 ++ [bgpwatcher_view_iter_get_v4pfx st.1]))
    (iter.view.v4_table.slots.map pfx_slot_t.isActive)
    (fun k s => s.1.view = iter.view ∧
      s.2 = ((iter.view.v4_table.slots.take k).filter pfx_slot_t.isActive).map
        (fun e => some e.pfx))
    (by
      rintro k s ⟨h, _⟩
      simp [iter_domain, h])
    (by
      rintro k s c ⟨h, h3⟩
      exact ⟨by simp [iter_view_set, h], h3⟩)
    (by
      rintro k s hk ⟨h, h3⟩
      refine ⟨h, ?_⟩
      rw [take_succ_filter_false _ _ _ hk]; exact h3)
    (by
      rintro k s hk ⟨h, h3⟩ hpos
      obtain ⟨x, hx, _, hfil⟩ := take_succ_filter_true _ _ _ hk
      have hpos2 : s.1.v4pfx_it = .POSITIONED k := hpos
      have hg : bgpwatcher_view_iter_get_v4pfx s.1 = some x.pfx := by
        simp [bgpwatcher_view_iter_get_v4pfx, iter_cur_v4pfx, hpos2, iter_cursor_t.slot, h, hx]
      refine ⟨_, rfl, hpos, h, ?_⟩
      simp [hfil, h3, hg])
    fuel 0 (bgpwatcher_view_iter_first iter .BGPWATCHER_VIEW_ITER_FIELD_V4PFX, [])
    ⟨by simp [bgpwatcher_view_iter_first, iter_view_set], by simp⟩ (Nat.zero_le _)
    (by simp only [bgpwatcher_view_iter_first, iter_cursor_set_same, iter_domain])
    (by simpa using h1)
  obtain ⟨st2, h3, ⟨_, h4⟩, _⟩ := key
  simp [iter_visit_v4pfxs, h3, h4]

theorem le_sum_map_of_mem {α : Type} (f : α → Nat) (l : List α) (a : α) (h : a ∈ l) :
    f a ≤ (l.map f).sum := by
  induction l with
  | nil => simp at h
  | cons b rest ih =>
    rcases List.mem_cons.1 h with h | h
    · subst h; simp
    · have := ih h
      simp only [List.map_cons, List.sum_cons]
      omega

theorem iter_fuel_suffices (view : bgpwatcher_view_t) (extra : Nat) :
    view.v4_table.slots.length < iter_fuel view + extra ∧
    ∀ e ∈ view.v4_table.slots, e.peers.length < iter_fuel view + extra := by
  unfold iter_fuel
  refine ⟨by omega, fun e he => ?_⟩
  have h : e.peers.length ≤ (view.v4_table.slots.map (fun e => e.peers.length)).sum :=
    le_sum_map_of_mem (fun e : pfx_slot_t bl_ipv4_pfx_t => e.peers.length) _ e he
  omega

theorem iter_fuel_suffices_v6 (view : bgpwatcher_view_t) (extra : Nat) :
    view.v6_table.slots.length < iter_fuel view + extra ∧
    ∀ e ∈ view.v6_table.slots, e.peers.length < iter_fuel view + extra := by
  unfold iter_fuel
  refine ⟨by omega, fun e he => ?_⟩
  have h : e.peers.length ≤ (view.v6_table.slots.map (fun e => e.peers.length)).sum :=
    le_sum_map_of_mem (fun e : pfx_slot_t bl_ipv6_pfx_t => e.peers.length) _ e he
  omega

theorem activePairs_length {κ : Type} (t : PrefixPeerTable κ) :
    t.activePairs.length =
      ((t.slots.filter pfx_slot_t.isActive).map
        (fun e => e.peers.countP peer_slot_t.isActive)).sum := by
  unfold PrefixPeerTable.activePairs
  induction t.slots.filter pfx_slot_t.isActive with
  | nil => rfl
  | cons e rest ih =>
    simp only [List.flatMap_cons, List.length_append, List.length_map, List.map_cons,
      List.sum_cons, ih, List.countP_eq_length_filter]

theorem size_le_active_peer_total {κ : Type} (l : List (pfx_slot_t κ)) :
    l.countP pfx_slot_t.isActive ≤
      ((l.filter pfx_slot_t.isActive).map (fun e => e.peers.countP peer_slot_t.isActive)).sum := by
  induction l with
  | nil => simp
  | cons e rest ih =>
    by_cases h : e.isActive = true
    · have hpos : 0 < e.peers.countP peer_slot_t.isActive := by
        rw [List.countP_pos_iff]
        have h2 := h
        simp only [pfx_slot_t.isActive, Bool.and_eq_true, List.any_eq_true] at h2
        exact h2.2
      simp only [List.countP_cons, h, if_true, List.filter_cons, List.map_cons, List.sum_cons]
      omega
    · simp only [List.countP_cons, h, List.filter_cons]
      simpa using ih

theorem count_true_map {α : Type} (p : α → Bool) (l : List α) :
    (l.map p).count true = (l.filter p).length := by
  induction l with
  | nil => rfl
  | cons a rest ih =>
    cases h : p a <;> simp [List.count_cons, List.filter_cons, h, ih]

/-- C4, as stated, fails: on the view with one prefix observed by two peers the
nested iteration visits two pairs while the size of the v4pfx field is 1. -/
theorem iter_pairs_vs_size_counterexample :
    (iter_visit_v4 (iter_fuel view_one_pfx_two_peers)
        (bgpwatcher_view_iter_create view_one_pfx_two_peers)).map List.length = some 2 ∧
    v4_active_peer_total view_one_pfx_two_peers = 2 ∧
    bgpwatcher_view_iter_size (bgpwatcher_view_iter_create view_one_pfx_two_peers)
      .BGPWATCHER_VIEW_ITER_FIELD_V4PFX = 1 := by
  decide

/-- C4, amended: for every iterator the nested v4pfx -> v4pfx_peer iteration
returns, and the number of (prefix, peer) pairs it visits equals the sum over
the ACTIVE v4 prefixes of their ACTIVE peer counts; the size of the v4pfx field
reported before the iteration equals the number of prefixes the outer iteration
visits (as a `uint64_t`) and is at most the number of pairs. -/
theorem iter_visit_v4_complete (iter : bgpwatcher_view_iter_t) (extra : Nat) :
    ∃ visited pfxs,
      iter_visit_v4 (iter_fuel iter.view + extra) iter = some visited ∧
      iter_visit_v4pfxs (iter_fuel iter.view + extra) iter = some pfxs ∧
      visited.length = v4_active_peer_total iter.view ∧
      bgpwatcher_view_iter_size iter .BGPWATCHER_VIEW_ITER_FIELD_V4PFX =
        pfxs.length % 2 ^ 64 ∧
      bgpwatcher_view_iter_size iter .BGPWATCHER_VIEW_ITER_FIELD_V4PFX ≤ visited.length := by
  obtain ⟨h1, h2⟩ := iter_fuel_suffices iter.view extra
  refine ⟨_, _, iter_visit_v4_spec iter _ h1 h2, iter_visit_v4pfxs_spec iter _ h1, ?_, ?_, ?_⟩
  · rw [List.length_map, activePairs_length]; rfl
  · simp only [bgpwatcher_view_iter_size, iter_domain, count_true_map, List.length_map]
  · rw [List.length_map, activePairs_length]
    have h3 := size_le_active_peer_total iter.view.v4_table.slots
    have h4 : bgpwatcher_view_iter_size iter .BGPWATCHER_VIEW_ITER_FIELD_V4PFX ≤
        iter.view.v4_table.slots.countP pfx_slot_t.isActive := by
      simp only [bgpwatcher_view_iter_size, iter_domain, count_true_map,
        List.countP_eq_length_filter]
      exact Nat.mod_le _ _
    omega

/-! ### The iterator state machine -/

/-- C7: when `is_end(field)` is non-zero, `next(field)` leaves the iterator as
it is (every cursor and the view) and `is_end(field)` stays non-zero; otherwise
`next(field)` changes the cursor of that field only, and moves it to the next
ACTIVE entry (the least ACTIVE index from the start index on) or, when no ACTIVE
entry remains, to AT_END. -/
theorem iter_next_spec (iter : bgpwatcher_view_iter_t)
    (field : bgpwatcher_view_iter_field_t) :
    (bgpwatcher_view_iter_is_end iter field ≠ 0 →
      bgpwatcher_view_iter_next iter field = iter ∧
      bgpwatcher_view_iter_is_end (bgpwatcher_view_iter_next iter field) field ≠ 0) ∧
    (bgpwatcher_view_iter_is_end iter field = 0 →
      (bgpwatcher_view_iter_next iter field).view = iter.view ∧
      (∀ g, g ≠ field →
        iter_cursor (bgpwatcher_view_iter_next iter field) g = iter_cursor iter g) ∧
      ((∃ j, iter_cursor (bgpwatcher_view_iter_next iter field) field = .POSITIONED j ∧
          iter_next_start iter field ≤ j ∧
          (iter_domain iter field)[j]? = some true ∧
          ∀ k, iter_next_start iter field ≤ k → k < j →
            (iter_domain iter field)[k]? ≠ some true) ∨
       (iter_cursor (bgpwatcher_view_iter_next iter field) field = .AT_END ∧
          ∀ k, iter_next_start iter field ≤ k →
            (iter_domain iter field)[k]? ≠ some true))) := by
  constructor
  · intro h
    have hc := (iter_is_end_iff iter field).1 h
    have hn : bgpwatcher_view_iter_next iter field = iter := by
      unfold bgpwatcher_view_iter_next
      rw [hc]
    exact ⟨hn, by rw [hn]; exact h⟩
  · intro h
    have hc : iter_cursor iter field ≠ .AT_END := by
      intro hc
      exact ((iter_is_end_iff iter field).2 hc) h
    have hn : bgpwatcher_view_iter_next iter field =
        iter_set_cursor iter field
          (.ofSeek (seek_active (iter_domain iter field) (iter_next_start iter field))) := by
      unfold bgpwatcher_view_iter_next iter_next_start
      cases hcur : iter_cursor iter field with
      | AT_END => exact absurd hcur hc
      | POSITIONED i => rfl
      | BEFORE_FIRST => rfl
    rw [hn]
    refine ⟨iter_view_set _ _ _, fun g hg => iter_cursor_set_other _ _ _ _ hg, ?_⟩
    rw [iter_cursor_set_same]
    cases hs : seek_active (iter_domain iter field) (iter_next_start iter field) with
    | none => exact Or.inr ⟨rfl, seek_active_none _ _ hs⟩
    | some j =>
      obtain ⟨h1, h2, h3⟩ := seek_active_some _ _ _ hs
      exact Or.inl ⟨j, rfl, h1, h2, h3⟩

/-- Witness for C7: at the end of the v4 prefixes `next` changes nothing; before
the first v4 prefix of a view whose first slot is DIRTY, `next` skips that slot
and stops at the second. -/
theorem iter_next_spec_witness :
    (bgpwatcher_view_iter_is_end
        (bgpwatcher_view_iter_first (bgpwatcher_view_iter_create bgpwatcher_view_create)
          .BGPWATCHER_VIEW_ITER_FIELD_V4PFX) .BGPWATCHER_VIEW_ITER_FIELD_V4PFX ≠ 0 ∧
      bgpwatcher_view_iter_next
        (bgpwatcher_view_iter_first (bgpwatcher_view_iter_create bgpwatcher_view_create)
          .BGPWATCHER_VIEW_ITER_FIELD_V4PFX) .BGPWATCHER_VIEW_ITER_FIELD_V4PFX =
        bgpwatcher_view_iter_first (bgpwatcher_view_iter_create bgpwatcher_view_create)
          .BGPWATCHER_VIEW_ITER_FIELD_V4PFX) ∧
    (bgpwatcher_view_iter_is_end (bgpwatcher_view_iter_create view_dirty_then_active)
        .BGPWATCHER_VIEW_ITER_FIELD_V4PFX = 0 ∧
      (bgpwatcher_view_iter_next (bgpwatcher_view_iter_create view_dirty_then_active)
        .BGPWATCHER_VIEW_ITER_FIELD_V4PFX).view = view_dirty_then_active ∧
      iter_cursor (bgpwatcher_view_iter_next (bgpwatcher_view_iter_create view_dirty_then_active)
        .BGPWATCHER_VIEW_ITER_FIELD_V4PFX) .BGPWATCHER_VIEW_ITER_FIELD_V4PFX =
        .POSITIONED 1) :=
  ⟨⟨by decide, ((iter_next_spec _ _).1 (by decide)).1⟩,
   ⟨by decide, ((iter_next_spec (bgpwatcher_view_iter_create view_dirty_then_active)
      .BGPWATCHER_VIEW_ITER_FIELD_V4PFX).2 (by decide)).1, by decide⟩⟩

theorem slot_of_not_positioned {α : Type} (iter : bgpwatcher_view_iter_t)
    (f : bgpwatcher_view_iter_field_t) (h : iter_not_positioned iter f) (l : List α) :
    (iter_cursor iter f).slot l = none := by
  rcases h with h | h
  · rw [h]; rfl
  · rw [(iter_is_end_iff iter f).1 h]; rfl

/-- C8: while the relevant field is not positioned (never initialised with
`first`, or at the end) each getter returns its "no current element" sentinel:
the prefix, user-pointer, peer-signature and pfx-info getters return NULL and
the per-peer v4/v6 prefix-count getters return -1. The getters of a nested
field also return NULL while the prefix field above it is not positioned. -/
theorem iter_getters_sentinel (iter : bgpwatcher_view_iter_t) :
    (iter_not_positioned iter .BGPWATCHER_VIEW_ITER_FIELD_V4PFX →
      bgpwatcher_view_iter_get_v4pfx iter = none ∧
      bgpwatcher_view_iter_get_v4pfx_user iter = none ∧
      bgpwatcher_view_iter_get_v4pfx_peersig iter = none ∧
      bgpwatcher_view_iter_get_v4pfx_pfxinfo iter = none) ∧
    (iter_not_positioned iter .BGPWATCHER_VIEW_ITER_FIELD_V6PFX →
      bgpwatcher_view_iter_get_v6pfx iter = none ∧
      bgpwatcher_view_iter_get_v6pfx_user iter = none ∧
      bgpwatcher_view_iter_get_v6pfx_peersig iter = none ∧
      bgpwatcher_view_iter_get_v6pfx_pfxinfo iter = none) ∧
    (iter_not_positioned iter .BGPWATCHER_VIEW_ITER_FIELD_PEER →
      bgpwatcher_view_iter_get_peersig iter = none ∧
      bgpwatcher_view_iter_get_peer_v4pfx_cnt iter = -1 ∧
      bgpwatcher_view_iter_get_peer_v6pfx_cnt iter = -1) ∧
    (iter_not_positioned iter .BGPWATCHER_VIEW_ITER_FIELD_V4PFX_PEER →
      bgpwatcher_view_iter_get_v4pfx_peersig iter = none ∧
      bgpwatcher_view_iter_get_v4pfx_pfxinfo iter = none) ∧
    (iter_not_positioned iter .BGPWATCHER_VIEW_ITER_FIELD_V6PFX_PEER →
      bgpwatcher_view_iter_get_v6pfx_peersig iter = none ∧
      bgpwatcher_view_iter_get_v6pfx_pfxinfo iter = none) := by
  refine ⟨fun h => ?_, fun h => ?_, fun h => ?_, fun h => ?_, fun h => ?_⟩
  · have hs : iter_cur_v4pfx iter = none :=
      slot_of_not_positioned iter .BGPWATCHER_VIEW_ITER_FIELD_V4PFX h _
    simp [bgpwatcher_view_iter_get_v4pfx, bgpwatcher_view_iter_get_v4pfx_user,
      bgpwatcher_view_iter_get_v4pfx_peersig, bgpwatcher_view_iter_get_v4pfx_pfxinfo,
      iter_cur_v4pfx_peer, hs]
  · have hs : iter_cur_v6pfx iter = none :=
      slot_of_not_positioned iter .BGPWATCHER_VIEW_ITER_FIELD_V6PFX h _
    simp [bgpwatcher_view_iter_get_v6pfx, bgpwatcher_view_iter_get_v6pfx_user,
      bgpwatcher_view_iter_get_v6pfx_peersig, bgpwatcher_view_iter_get_v6pfx_pfxinfo,
      iter_cur_v6pfx_peer, hs]
  · have hs : iter_cur_peer iter = none :=
      slot_of_not_positioned iter .BGPWATCHER_VIEW_ITER_FIELD_PEER h _
    simp [bgpwatcher_view_iter_get_peersig, bgpwatcher_view_iter_get_peer_v4pfx_cnt,
      bgpwatcher_view_iter_get_peer_v6pfx_cnt, hs]
  · have hs : iter_cur_v4pfx_peer iter = none := by
      unfold iter_cur_v4pfx_peer
      split
      · exact slot_of_not_positioned iter .BGPWATCHER_VIEW_ITER_FIELD_V4PFX_PEER h _
      · rfl
    simp [bgpwatcher_view_iter_get_v4pfx_peersig, bgpwatcher_view_iter_get_v4pfx_pfxinfo, hs]
  · have hs : iter_cur_v6pfx_peer iter = none := by
      unfold iter_cur_v6pfx_peer
      split
      · exact slot_of_not_positioned iter .BGPWATCHER_VIEW_ITER_FIELD_V6PFX_PEER h _
      · rfl
    simp [bgpwatcher_view_iter_get_v6pfx_peersig, bgpwatcher_view_iter_get_v6pfx_pfxinfo, hs]

/-- Witness for C8: an iterator that was never initialised, and one that ran to
the end of the peers of a view with two peers. -/
theorem iter_getters_sentinel_witness :
    (iter_not_positioned (bgpwatcher_view_iter_create view_one_pfx_two_peers)
        .BGPWATCHER_VIEW_ITER_FIELD_V4PFX ∧
      bgpwatcher_view_iter_get_v4pfx
        (bgpwatcher_view_iter_create view_one_pfx_two_peers) = none) ∧
    (iter_not_positioned
        (bgpwatcher_view_iter_next (bgpwatcher_view_iter_next
          (bgpwatcher_view_iter_first (bgpwatcher_view_iter_create view_one_pfx_two_peers)
            .BGPWATCHER_VIEW_ITER_FIELD_PEER)
          .BGPWATCHER_VIEW_ITER_FIELD_PEER) .BGPWATCHER_VIEW_ITER_FIELD_PEER)
        .BGPWATCHER_VIEW_ITER_FIELD_PEER ∧
      bgpwatcher_view_iter_get_peer_v4pfx_cnt
        (bgpwatcher_view_iter_next (bgpwatcher_view_iter_next
          (bgpwatcher_view_iter_first (bgpwatcher_view_iter_create view_one_pfx_two_peers)
            .BGPWATCHER_VIEW_ITER_FIELD_PEER)
          .BGPWATCHER_VIEW_ITER_FIELD_PEER) .BGPWATCHER_VIEW_ITER_FIELD_PEER) = -1) :=
  ⟨⟨Or.inl rfl,
    ((iter_getters_sentinel (bgpwatcher_view_iter_create view_one_pfx_two_peers)).1
      (Or.inl rfl)).1⟩,
   ⟨Or.inr (by decide),
    ((iter_getters_sentinel
      (bgpwatcher_view_iter_next (bgpwatcher_view_iter_next
        (bgpwatcher_view_iter_first (bgpwatcher_view_iter_create view_one_pfx_two_peers)
          .BGPWATCHER_VIEW_ITER_FIELD_PEER)
        .BGPWATCHER_VIEW_ITER_FIELD_PEER) .BGPWATCHER_VIEW_ITER_FIELD_PEER)).2.2.1
      (Or.inr (by decide))).2.1⟩⟩

/-! ### The insert / withdraw / clear scenario -/

/-- C5: from an empty view with a fresh signature table, inserting 10.0.0.0/8
observed by {rrc00, 1.2.3.4, 65000} interns the peer as peer_id 1 and gives
v4pfx_size 1 and peer_size 1; withdrawing the same prefix and peer gives
v4pfx_size 0 with peer_size unchanged; the clear that follows gives all sizes 0
while the lookup of peer_id 1 in the signature table still succeeds. -/
theorem scenario_insert_withdraw_clear (attrs : Nat) :
    (scenario_inserted attrs).1 = 1 ∧
    bgpwatcher_view_v4pfx_size (scenario_inserted attrs).2 = 1 ∧
    bgpwatcher_view_peer_size (scenario_inserted attrs).2 = 1 ∧
    bgpwatcher_view_v4pfx_size (scenario_withdrawn attrs) = 0 ∧
    bgpwatcher_view_peer_size (scenario_withdrawn attrs) =
      bgpwatcher_view_peer_size (scenario_inserted attrs).2 ∧
    bgpwatcher_view_v4pfx_size (scenario_cleared attrs) = 0 ∧
    bgpwatcher_view_v6pfx_size (scenario_cleared attrs) = 0 ∧
    bgpwatcher_view_pfx_size (scenario_cleared attrs) = 0 ∧
    bgpwatcher_view_peer_size (scenario_cleared attrs) = 0 ∧
    (scenario_cleared attrs).peersigs.lookup 1 = some scenario_sig :=
  ⟨rfl, rfl, rfl, rfl, rfl, rfl, rfl, rfl, rfl, rfl⟩

/-! ### Prefix tables: upsert, remove, capacity -/

theorem mem_activePairs {κ : Type} (t : PrefixPeerTable κ) (p : κ) (id : bl_peerid_t) :
    (p, id) ∈ t.activePairs ↔
      ∃ e ∈ t.slots, e.isActive = true ∧ e.pfx = p ∧
        ∃ s ∈ e.peers, s.isActive = true ∧ s.peer_id = id := by
  simp only [PrefixPeerTable.activePairs, List.mem_flatMap, List.mem_filter, List.mem_map,
    Prod.mk.injEq]
  constructor
  · rintro ⟨e, ⟨he, hact⟩, s, ⟨hs, hsact⟩, hp, hid⟩
    exact ⟨e, he, hact, hp, s, hs, hsact, hid⟩
  · rintro ⟨e, he, hact, hp, s, hs, hsact, hid⟩
    exact ⟨e, ⟨he, hact⟩, s, ⟨hs, hsact⟩, hp, hid⟩

theorem peers_upsert_has (ps : List peer_slot_t) (id : bl_peerid_t) (attrs : Nat) :
    ∃ s ∈ (peers_upsert ps id attrs).1, s.peer_id = id ∧ s.isActive = true := by
  unfold peers_upsert
  split
  · next h =>
    simp only [List.any_eq_true, decide_eq_true_eq] at h
    obtain ⟨s, hs, hid⟩ := h
    refine ⟨peer_slot_t.fresh id attrs, ?_, rfl, rfl⟩
    simp only [List.mem_map]
    exact ⟨s, hs, by simp [hid]⟩
  · exact ⟨peer_slot_t.fresh id attrs, by simp, rfl, rfl⟩

theorem peers_upsert_length_of_has (ps : List peer_slot_t) (id : bl_peerid_t) (attrs : Nat)
    (h : ∃ s ∈ ps, s.peer_id = id) : (peers_upsert ps id attrs).1.length = ps.length := by
  have h2 : ps.any (fun s => decide (s.peer_id = id)) = true := by
    simpa only [List.any_eq_true, decide_eq_true_eq] using h
  simp [peers_upsert, h2]

theorem peers_remove_length (ps : List peer_slot_t) (id : bl_peerid_t) :
    (peers_remove ps id).length = ps.length := by
  simp [peers_remove]

theorem peers_remove_has (ps : List peer_slot_t) (id : bl_peerid_t)
    (h : ∃ s ∈ ps, s.peer_id = id) : ∃ s ∈ peers_remove ps id, s.peer_id = id := by
  obtain ⟨s, hs, hid⟩ := h
  refine ⟨{ s with info := { s.info with state := slot_state_t.DIRTY } }, ?_, hid⟩
  simp only [peers_remove, List.mem_map]
  exact ⟨s, hs, by simp [hid]⟩

theorem peers_remove_dirty (ps : List peer_slot_t) (id : bl_peerid_t) :
    ∀ s ∈ peers_remove ps id, s.peer_id = id → s.isActive = false := by
  intro s hs hid
  simp only [peers_remove, List.mem_map] at hs
  obtain ⟨s0, _, rfl⟩ := hs
  by_cases h : s0.peer_id = id
  · simp [h, peer_slot_t.isActive]
  · rw [if_neg h] at hid
    exact absurd hid h

/-- After an upsert of (p, id) the table has a prefix slot of `p`, and every
prefix slot of `p` is ACTIVE and has an ACTIVE peer slot of `id`. -/
theorem upsert_has {κ : Type} [DecidableEq κ] (t : PrefixPeerTable κ) (p : κ)
    (id : bl_peerid_t) (attrs : Nat) :
    (∃ e ∈ (t.upsert p id attrs).1.slots, e.pfx = p) ∧
    ∀ e ∈ (t.upsert p id attrs).1.slots, e.pfx = p →
      e.state = slot_state_t.ACTIVE ∧
      ∃ s ∈ e.peers, s.peer_id = id ∧ s.isActive = true := by
  unfold PrefixPeerTable.upsert
  split
  · next h =>
    simp only [List.any_eq_true, decide_eq_true_eq] at h
    obtain ⟨e0, he0, hp0⟩ := h
    constructor
    · refine ⟨{ e0 with state := slot_state_t.ACTIVE,
                        peers := (peers_upsert e0.peers id attrs).1 }, ?_, hp0⟩
      simp only [List.mem_map]
      exact ⟨e0, he0, by simp [hp0]⟩
    · intro e he hp
      simp only [List.mem_map] at he
      obtain ⟨e1, _, rfl⟩ := he
      by_cases h1 : e1.pfx = p
      · rw [if_pos h1]
        exact ⟨rfl, peers_upsert_has e1.peers id attrs⟩
      · rw [if_neg h1] at hp
        exact absurd hp h1
  · next h =>
    simp only [List.any_eq_true, decide_eq_true_eq, not_exists, not_and] at h
    constructor
    · exact ⟨⟨p, slot_state_t.ACTIVE, none, [peer_slot_t.fresh id attrs]⟩, by simp, rfl⟩
    · intro e he hp
      simp only [List.mem_append, List.mem_singleton] at he
      rcases he with he | he
      · exact absurd hp (h e he)
      · subst he
        exact ⟨rfl, peer_slot_t.fresh id attrs, by simp, rfl, rfl⟩

/-- After a remove of (p, id) no prefix slot of `p` has an ACTIVE peer slot of
`id`; slots of the peer that existed before still exist. -/
theorem remove_dirty {κ : Type} [DecidableEq κ] (t : PrefixPeerTable κ) (p : κ)
    (id : bl_peerid_t) :
    (∀ e ∈ (t.remove p id).1.slots, e.pfx = p →
      ∀ s ∈ e.peers, s.peer_id = id → s.isActive = false) ∧
    ((∃ e ∈ t.slots, e.pfx = p) → ∃ e ∈ (t.remove p id).1.slots, e.pfx = p) ∧
    ((∀ e ∈ t.slots, e.pfx = p → ∃ s ∈ e.peers, s.peer_id = id) →
      ∀ e ∈ (t.remove p id).1.slots, e.pfx = p → ∃ s ∈ e.peers, s.peer_id = id) := by
  unfold PrefixPeerTable.remove
  refine ⟨?_, ?_, ?_⟩
  · intro e he hp
    simp only [List.mem_map] at he
    obtain ⟨e1, _, rfl⟩ := he
    by_cases h1 : e1.pfx = p
    · rw [if_pos h1]
      exact peers_remove_dirty e1.peers id
    · rw [if_neg h1] at hp
      exact absurd hp h1
  · rintro ⟨e0, he0, hp0⟩
    refine ⟨{ e0 with peers := peers_remove e0.peers id }, ?_, hp0⟩
    simp only [List.mem_map]
    exact ⟨e0, he0, by simp [hp0]⟩
  · intro hall e he hp
    simp only [List.mem_map] at he
    obtain ⟨e1, he1, rfl⟩ := he
    by_cases h1 : e1.pfx = p
    · rw [if_pos h1]
      exact peers_remove_has e1.peers id (hall e1 he1 h1)
    · rw [if_neg h1] at hp
      exact absurd hp h1

theorem remove_capacity {κ : Type} [DecidableEq κ] (t : PrefixPeerTable κ) (p : κ)
    (id : bl_peerid_t) : (t.remove p id).1.capacity = t.capacity := by
  simp only [PrefixPeerTable.remove, PrefixPeerTable.capacity, List.length_map, List.map_map,
    Prod.mk.injEq, true_and]
  congr 1
  apply List.map_congr_left
  intro e _
  by_cases h : e.pfx = p <;> simp [h, peers_remove_length]

/-- An upsert of a pair whose slots exist allocates nothing. -/
theorem upsert_capacity_of_has {κ : Type} [DecidableEq κ] (t : PrefixPeerTable κ) (p : κ)
    (id : bl_peerid_t) (attrs : Nat) (h1 : ∃ e ∈ t.slots, e.pfx = p)
    (h2 : ∀ e ∈ t.slots, e.pfx = p → ∃ s ∈ e.peers, s.peer_id = id) :
    (t.upsert p id attrs).1.capacity = t.capacity := by
  have h3 : t.slots.any (fun e => decide (e.pfx = p)) = true := by
    simpa only [List.any_eq_true, decide_eq_true_eq] using h1
  simp only [PrefixPeerTable.upsert, h3, if_true, PrefixPeerTable.capacity, List.length_map,
    List.map_map, Prod.mk.injEq, true_and]
  congr 1
  apply List.map_congr_left
  intro e he
  by_cases h : e.pfx = p
  · simp [h, peers_upsert_length_of_has e.peers id attrs (h2 e he h)]
  · simp [h]

theorem view_add_withdraw_v4_table (view : bgpwatcher_view_t) (p : bl_ipv4_pfx_t)
    (peer : bl_peerid_t) (info : Nat) :
    (view_add_withdraw view (.v4 p) peer info).v4_table =
      table_upsert_remove view.v4_table p peer info := rfl

theorem table_upsert_remove_has {κ : Type} [DecidableEq κ] (t : PrefixPeerTable κ) (p : κ)
    (peer : bl_peerid_t) (info : Nat) :
    (∃ e ∈ (table_upsert_remove t p peer info).slots, e.pfx = p) ∧
    ∀ e ∈ (table_upsert_remove t p peer info).slots, e.pfx = p →
      ∃ s ∈ e.peers, s.peer_id = peer := by
  obtain ⟨h1, h2⟩ := upsert_has t p peer info
  obtain ⟨_, h4, h5⟩ := remove_dirty (t.upsert p peer info).1 p peer
  refine ⟨h4 h1, h5 (fun e he hp => ?_)⟩
  obtain ⟨_, s, hs, hid, _⟩ := h2 e he hp
  exact ⟨s, hs, hid⟩

/-- C2: after `upsert(p, peer, info)` followed by `remove(p, peer)` the pair
(p, peer) is not among the ACTIVE pairs of the table, and the nested iteration
over a view holding the table (v4 or v6) returns without ever yielding it; a
following upsert of the same pair changes neither the number of prefix slots
nor the number of peer slots (the retained slot is reused) and makes the pair
ACTIVE again. -/
theorem dirty_skip_and_reuse {κ : Type} [DecidableEq κ] (t : PrefixPeerTable κ) (p : κ)
    (view : bgpwatcher_view_t) (p4 : bl_ipv4_pfx_t) (p6 : bl_ipv6_pfx_t) (peer : bl_peerid_t)
    (info info2 extra : Nat) :
    (p, peer) ∉ (table_upsert_remove t p peer info).activePairs ∧
    (∃ visited,
      iter_visit_v4 (iter_fuel (view_add_withdraw view (.v4 p4) peer info) + extra)
        (bgpwatcher_view_iter_create (view_add_withdraw view (.v4 p4) peer info)) =
        some visited ∧
      (some p4, peer) ∉ visited) ∧
    (∃ visited,
      iter_visit_v6 (iter_fuel (view_add_withdraw view (.v6 p6) peer info) + extra)
        (bgpwatcher_view_iter_create (view_add_withdraw view (.v6 p6) peer info)) =
        some visited ∧
      (some p6, peer) ∉ visited) ∧
    (table_upsert_remove t p peer info).capacity = (t.upsert p peer info).1.capacity ∧
    ((table_upsert_remove t p peer info).upsert p peer info2).1.capacity =
      (table_upsert_remove t p peer info).capacity ∧
    (bgpwatcher_view_add (view_add_withdraw view (.v4 p4) peer info)
        (.v4 p4) peer info2).v4_table.capacity =
      (view_add_withdraw view (.v4 p4) peer info).v4_table.capacity ∧
    (bgpwatcher_view_add (view_add_withdraw view (.v6 p6) peer info)
        (.v6 p6) peer info2).v6_table.capacity =
      (view_add_withdraw view (.v6 p6) peer info).v6_table.capacity ∧
    (p, peer) ∈ ((table_upsert_remove t p peer info).upsert p peer info2).1.activePairs := by
  have hnot : ∀ {κ2 : Type} [DecidableEq κ2] (t2 : PrefixPeerTable κ2) (q : κ2),
      (q, peer) ∉ (table_upsert_remove t2 q peer info).activePairs := by
    intro κ2 _ t2 q hmem
    rw [mem_activePairs] at hmem
    obtain ⟨e, he, _, hp, s, hs, hact, hid⟩ := hmem
    have := (remove_dirty (t2.upsert q peer info).1 q peer).1 e he hp s hs hid
    rw [this] at hact
    exact absurd hact (by simp)
  have hcap : ∀ {κ2 : Type} [DecidableEq κ2] (t2 : PrefixPeerTable κ2) (q : κ2),
      ((table_upsert_remove t2 q peer info).upsert q peer info2).1.capacity =
        (table_upsert_remove t2 q peer info).capacity := by
    intro κ2 _ t2 q
    obtain ⟨h1, h2⟩ := table_upsert_remove_has t2 q peer info
    exact upsert_capacity_of_has _ q peer info2 h1 h2
  refine ⟨hnot t p, ?_, ?_, remove_capacity _ p peer, hcap t p, hcap view.v4_table p4,
    hcap view.v6_table p6, ?_⟩
  · obtain ⟨h1, h2⟩ := iter_fuel_suffices (view_add_withdraw view (.v4 p4) peer info) extra
    refine ⟨_, iter_visit_v4_spec (bgpwatcher_view_iter_create _) _ h1 h2, ?_⟩
    intro hmem
    simp only [List.mem_map] at hmem
    obtain ⟨⟨q, id⟩, hq, heq⟩ := hmem
    simp only [Prod.mk.injEq, Option.some.injEq] at heq
    obtain ⟨rfl, rfl⟩ := heq
    exact hnot view.v4_table q hq
  · obtain ⟨h1, h2⟩ := iter_fuel_suffices_v6 (view_add_withdraw view (.v6 p6) peer info) extra
    refine ⟨_, iter_visit_v6_spec (bgpwatcher_view_iter_create _) _ h1 h2, ?_⟩
    intro hmem
    simp only [List.mem_map] at hmem
    obtain ⟨⟨q, id⟩, hq, heq⟩ := hmem
    simp only [Prod.mk.injEq, Option.some.injEq] at heq
    obtain ⟨rfl, rfl⟩ := heq
    exact hnot view.v6_table q hq
  · obtain ⟨⟨e, he, hp⟩, h2⟩ := upsert_has (table_upsert_remove t p peer info) p peer info2
    obtain ⟨hst, s, hs, hid, hact⟩ := h2 e he hp
    rw [mem_activePairs]
    refine ⟨e, he, ?_, hp, s, hs, hact, hid⟩
    simp only [pfx_slot_t.isActive, hst, decide_True, Bool.true_and, List.any_eq_true]
    exact ⟨s, hs, hact⟩

theorem upsert_keys {κ : Type} [DecidableEq κ] (t : PrefixPeerTable κ) (p : κ)
    (id : bl_peerid_t) (attrs : Nat) :
    (t.upsert p id attrs).1.keys = if p ∈ t.keys then t.keys else t.keys ++ [p] := by
  have hiff : t.slots.any (fun e => decide (e.pfx = p)) = true ↔ p ∈ t.keys := by
    simp only [List.any_eq_true, decide_eq_true_eq, PrefixPeerTable.keys, List.mem_map]
  unfold PrefixPeerTable.upsert
  by_cases h : t.slots.any (fun e => decide (e.pfx = p)) = true
  · rw [if_pos h, if_pos (hiff.1 h)]
    simp only [PrefixPeerTable.keys, List.map_map]
    apply List.map_congr_left
    intro e _
    by_cases h1 : e.pfx = p <;> simp [h1]
  · rw [if_neg h, if_neg (fun hc => h (hiff.2 hc))]
    simp [PrefixPeerTable.keys]

theorem upsert_key_active {κ : Type} [DecidableEq κ] (t : PrefixPeerTable κ) (p k : κ)
    (id : bl_peerid_t) (attrs : Nat) :
    (t.upsert p id attrs).1.key_active k = (decide (k = p) || t.key_active k) := by
  by_cases hk : k = p
  · subst hk
    obtain ⟨⟨e, he, hp⟩, h2⟩ := upsert_has t k id attrs
    obtain ⟨hst, s, hs, _, hact⟩ := h2 e he hp
    have hact2 : e.isActive = true := by
      simp only [pfx_slot_t.isActive, hst, decide_True, Bool.true_and, List.any_eq_true]
      exact ⟨s, hs, hact⟩
    have : (t.upsert k id attrs).1.key_active k = true := by
      simp only [PrefixPeerTable.key_active, List.any_eq_true, Bool.and_eq_true,
        decide_eq_true_eq]
      exact ⟨e, he, hp, hact2⟩
    simp [this]
  · have hkey : ∀ e : pfx_slot_t κ, e.pfx = p → ¬ e.pfx = k := fun e h1 h2 => hk (h2 ▸ h1)
    simp only [hk, decide_False, Bool.false_or]
    unfold PrefixPeerTable.upsert PrefixPeerTable.key_active
    split
    · simp only [List.any_map]
      congr 1
      funext e
      by_cases h1 : e.pfx = p
      · simp [h1, Ne.symm hk]
      · simp [h1]
    · simp [Ne.symm hk]

theorem clear_all_keys {κ : Type} (t : PrefixPeerTable κ) : t.clear_all.keys = t.keys := by
  simp [PrefixPeerTable.clear_all, PrefixPeerTable.keys]

theorem clear_all_key_active {κ : Type} [DecidableEq κ] (t : PrefixPeerTable κ) (k : κ) :
    t.clear_all.key_active k = false := by
  simp [PrefixPeerTable.clear_all, PrefixPeerTable.key_active, pfx_slot_t.isActive]

theorem upsert_all_keys {κ : Type} [DecidableEq κ] (l : List (κ × bl_peerid_t × Nat)) :
    ∀ t : PrefixPeerTable κ, (∀ x ∈ l, x.1 ∈ t.keys) → (t.upsert_all l).keys = t.keys := by
  induction l with
  | nil => intro t _; rfl
  | cons x rest ih =>
    intro t h
    have hx : x.1 ∈ t.keys := h x (List.mem_cons_self _ _)
    have hk : (t.upsert x.1 x.2.1 x.2.2).1.keys = t.keys := by
      rw [upsert_keys, if_pos hx]
    simp only [PrefixPeerTable.upsert_all]
    rw [ih _ (fun y hy => by rw [hk]; exact h y (List.mem_cons_of_mem _ hy)), hk]

theorem upsert_all_key_active {κ : Type} [DecidableEq κ] (l : List (κ × bl_peerid_t × Nat))
    (k : κ) :
    ∀ t : PrefixPeerTable κ,
      (t.upsert_all l).key_active k = (t.key_active k || l.any (fun x => decide (x.1 = k))) := by
  induction l with
  | nil => intro t; simp [PrefixPeerTable.upsert_all]
  | cons x rest ih =>
    intro t
    simp only [PrefixPeerTable.upsert_all, ih, upsert_key_active, List.any_cons]
    by_cases h : x.1 = k
    · simp [h]
    · simp [h, Ne.symm h]

theorem size_eq_countP_keys {κ : Type} [DecidableEq κ] (t : PrefixPeerTable κ)
    (h : t.keys.Nodup) : t.size = t.keys.countP t.key_active := by
  unfold PrefixPeerTable.size PrefixPeerTable.keys
  rw [List.countP_map]
  apply List.countP_congr
  intro e he
  simp only [Function.comp, PrefixPeerTable.key_active, List.any_eq_true, Bool.and_eq_true,
    decide_eq_true_eq]
  constructor
  · intro hact; exact ⟨e, he, rfl, hact⟩
  · rintro ⟨e2, he2, hp, hact⟩
    have := List.inj_on_of_nodup_map h he2 he hp
    rw [← this]; exact hact

theorem key_active_iff {κ : Type} [DecidableEq κ] (t : PrefixPeerTable κ) (k : κ) :
    t.key_active k = true ↔ ∃ id, (k, id) ∈ t.activePairs := by
  simp only [PrefixPeerTable.key_active, List.any_eq_true, Bool.and_eq_true, decide_eq_true_eq,
    mem_activePairs]
  constructor
  · rintro ⟨e, he, hp, hact⟩
    have h2 := hact
    simp only [pfx_slot_t.isActive, Bool.and_eq_true, List.any_eq_true] at h2
    obtain ⟨_, s, hs, hsact⟩ := h2
    exact ⟨s.peer_id, e, he, hact, hp, s, hs, hsact, rfl⟩
  · rintro ⟨_, e, he, hact, hp, _⟩
    exact ⟨e, he, hp, hact⟩

/-- Clearing a table and upserting again exactly its ACTIVE pairs restores its
size. -/
theorem clear_upsert_all_size {κ : Type} [DecidableEq κ] (t : PrefixPeerTable κ)
    (l : List (κ × bl_peerid_t × Nat)) (hnd : t.keys.Nodup)
    (h1 : ∀ x ∈ l, (x.1, x.2.1) ∈ t.activePairs)
    (h2 : ∀ y ∈ t.activePairs, ∃ x ∈ l, (x.1, x.2.1) = y) :
    (t.clear_all.upsert_all l).size = t.size := by
  have hkeys : (t.clear_all.upsert_all l).keys = t.keys := by
    rw [upsert_all_keys, clear_all_keys]
    intro x hx
    rw [clear_all_keys]
    have := (key_active_iff t x.1).2 ⟨x.2.1, h1 x hx⟩
    simp only [PrefixPeerTable.key_active, List.any_eq_true, Bool.and_eq_true,
      decide_eq_true_eq] at this
    obtain ⟨e, he, hp, _⟩ := this
    simp only [PrefixPeerTable.keys, List.mem_map]
    exact ⟨e, he, hp⟩
  rw [size_eq_countP_keys _ (by rw [hkeys]; exact hnd), size_eq_countP_keys t hnd, hkeys]
  apply List.countP_congr
  intro k _
  rw [upsert_all_key_active, clear_all_key_active, Bool.false_or, key_active_iff]
  simp only [List.any_eq_true, decide_eq_true_eq]
  constructor
  · rintro ⟨x, hx, rfl⟩
    exact ⟨x.2.1, h1 x hx⟩
  · rintro ⟨id, hid⟩
    obtain ⟨x, hx, heq⟩ := h2 _ hid
    simp only [Prod.mk.injEq] at heq
    exact ⟨x, hx, heq.1⟩

theorem view_add_all_tables (l : List (bl_pfx_storage_t × bl_peerid_t × Nat)) :
    ∀ view : bgpwatcher_view_t,
      (bgpwatcher_view_add_all view l).v4_table = view.v4_table.upsert_all (pairs_v4 l) ∧
      (bgpwatcher_view_add_all view l).v6_table = view.v6_table.upsert_all (pairs_v6 l) ∧
      (bgpwatcher_view_add_all view l).peersigs = view.peersigs := by
  induction l with
  | nil => intro view; exact ⟨rfl, rfl, rfl⟩
  | cons x rest ih =>
    intro view
    obtain ⟨pfx, id, attrs⟩ := x
    obtain ⟨h4, h6, hs⟩ := ih (bgpwatcher_view_add view pfx id attrs)
    cases pfx with
    | v4 p =>
      refine ⟨?_, ?_, ?_⟩
      · simp only [bgpwatcher_view_add_all, h4]
        simp [pairs_v4, PrefixPeerTable.upsert_all, bgpwatcher_view_add]
      · simp only [bgpwatcher_view_add_all, h6]
        simp [pairs_v6, bgpwatcher_view_add]
      · simp only [bgpwatcher_view_add_all, hs]
        simp [bgpwatcher_view_add]
    | v6 p =>
      refine ⟨?_, ?_, ?_⟩
      · simp only [bgpwatcher_view_add_all, h4]
        simp [pairs_v4, bgpwatcher_view_add]
      · simp only [bgpwatcher_view_add_all, h6]
        simp [pairs_v6, PrefixPeerTable.upsert_all, bgpwatcher_view_add]
      · simp only [bgpwatcher_view_add_all, hs]
        simp [bgpwatcher_view_add]

theorem mem_pairs_v4 (l : List (bl_pfx_storage_t × bl_peerid_t × Nat))
    (x : bl_ipv4_pfx_t × bl_peerid_t × Nat) :
    x ∈ pairs_v4 l ↔ (bl_pfx_storage_t.v4 x.1, x.2) ∈ l := by
  simp only [pairs_v4, List.mem_filterMap]
  constructor
  · rintro ⟨⟨pfx, r⟩, hy, hm⟩
    cases pfx with
    | v4 p => simp only [Option.some.injEq] at hm; subst hm; exact hy
    | v6 p => simp at hm
  · intro h
    exact ⟨_, h, rfl⟩

theorem mem_pairs_v6 (l : List (bl_pfx_storage_t × bl_peerid_t × Nat))
    (x : bl_ipv6_pfx_t × bl_peerid_t × Nat) :
    x ∈ pairs_v6 l ↔ (bl_pfx_storage_t.v6 x.1, x.2) ∈ l := by
  simp only [pairs_v6, List.mem_filterMap]
  constructor
  · rintro ⟨⟨pfx, r⟩, hy, hm⟩
    cases pfx with
    | v4 p => simp at hm
    | v6 p => simp only [Option.some.injEq] at hm; subst hm; exact hy
  · intro h
    exact ⟨_, h, rfl⟩

theorem mem_view_active_pairs_v4 (view : bgpwatcher_view_t) (p : bl_ipv4_pfx_t)
    (id : bl_peerid_t) :
    (bl_pfx_storage_t.v4 p, id) ∈ view_active_pairs view ↔ (p, id) ∈ view.v4_table.activePairs := by
  simp [view_active_pairs]

theorem mem_view_active_pairs_v6 (view : bgpwatcher_view_t) (p : bl_ipv6_pfx_t)
    (id : bl_peerid_t) :
    (bl_pfx_storage_t.v6 p, id) ∈ view_active_pairs view ↔ (p, id) ∈ view.v6_table.activePairs := by
  simp [view_active_pairs]

/-- C3: for every view whose tables are maps, clearing the view and inserting
again exactly its ACTIVE (prefix, peer) pairs (in any order, with any
attributes) gives the v4, v6 and total prefix sizes the view had before the
clear; the clear leaves the referenced peer-signature table as it was, so every
peer_id resolves as before, and so do the inserts. -/
theorem clear_then_reuse (view : bgpwatcher_view_t)
    (pairs : List (bl_pfx_storage_t × bl_peerid_t × Nat)) (hwf : view_wf view)
    (h1 : ∀ x ∈ pairs, (x.1, x.2.1) ∈ view_active_pairs view)
    (h2 : ∀ y ∈ view_active_pairs view, ∃ x ∈ pairs, (x.1, x.2.1) = y) :
    bgpwatcher_view_v4pfx_size (bgpwatcher_view_add_all (bgpwatcher_view_clear view) pairs) =
      bgpwatcher_view_v4pfx_size view ∧
    bgpwatcher_view_v6pfx_size (bgpwatcher_view_add_all (bgpwatcher_view_clear view) pairs) =
      bgpwatcher_view_v6pfx_size view ∧
    bgpwatcher_view_pfx_size (bgpwatcher_view_add_all (bgpwatcher_view_clear view) pairs) =
      bgpwatcher_view_pfx_size view ∧
    (bgpwatcher_view_clear view).peersigs = view.peersigs ∧
    (∀ id, (bgpwatcher_view_clear view).peersigs.lookup id = view.peersigs.lookup id) ∧
    (∀ id, (bgpwatcher_view_add_all (bgpwatcher_view_clear view) pairs).peersigs.lookup id =
      view.peersigs.lookup id) := by
  obtain ⟨h4, h6, hs⟩ := view_add_all_tables pairs (bgpwatcher_view_clear view)
  have e4 : (bgpwatcher_view_add_all (bgpwatcher_view_clear view) pairs).v4_table.size =
      view.v4_table.size := by
    rw [h4]
    apply clear_upsert_all_size view.v4_table (pairs_v4 pairs) hwf.1
    · intro x hx
      exact (mem_view_active_pairs_v4 view x.1 x.2.1).1 (h1 _ ((mem_pairs_v4 pairs x).1 hx))
    · rintro ⟨p, id⟩ hy
      obtain ⟨x, hx, heq⟩ := h2 _ ((mem_view_active_pairs_v4 view p id).2 hy)
      obtain ⟨pfx, id2, attrs⟩ := x
      simp only [Prod.mk.injEq] at heq
      obtain ⟨rfl, rfl⟩ := heq
      exact ⟨(p, id2, attrs), (mem_pairs_v4 pairs _).2 hx, rfl⟩
  have e6 : (bgpwatcher_view_add_all (bgpwatcher_view_clear view) pairs).v6_table.size =
      view.v6_table.size := by
    rw [h6]
    apply clear_upsert_all_size view.v6_table (pairs_v6 pairs) hwf.2
    · intro x hx
      exact (mem_view_active_pairs_v6 view x.1 x.2.1).1 (h1 _ ((mem_pairs_v6 pairs x).1 hx))
    · rintro ⟨p, id⟩ hy
      obtain ⟨x, hx, heq⟩ := h2 _ ((mem_view_active_pairs_v6 view p id).2 hy)
      obtain ⟨pfx, id2, attrs⟩ := x
      simp only [Prod.mk.injEq] at heq
      obtain ⟨rfl, rfl⟩ := heq
      exact ⟨(p, id2, attrs), (mem_pairs_v6 pairs _).2 hx, rfl⟩
  refine ⟨?_, ?_, ?_, rfl, fun _ => rfl, fun id => by rw [hs]; rfl⟩
  · simp only [bgpwatcher_view_v4pfx_size, e4]
  · simp only [bgpwatcher_view_v6pfx_size, e6]
  · simp only [bgpwatcher_view_pfx_size, bgpwatcher_view_v4pfx_size,
      bgpwatcher_view_v6pfx_size, e4, e6]

/-- Witness for C3: the view with one prefix observed by two peers, its two
pairs inserted again in the other order, one of them twice. -/
theorem clear_then_reuse_witness :
    view_wf view_one_pfx_two_peers ∧
    bgpwatcher_view_v4pfx_size view_one_pfx_two_peers = 1 ∧
    bgpwatcher_view_v4pfx_size (bgpwatcher_view_clear view_one_pfx_two_peers) = 0 ∧
    bgpwatcher_view_v4pfx_size
      (bgpwatcher_view_add_all (bgpwatcher_view_clear view_one_pfx_two_peers)
        [(.v4 ⟨167772160, 8⟩, 2, 9), (.v4 ⟨167772160, 8⟩, 1, 3), (.v4 ⟨167772160, 8⟩, 2, 4)]) =
      bgpwatcher_view_v4pfx_size view_one_pfx_two_peers :=
  ⟨⟨by decide, by decide⟩, by decide, by decide,
   (clear_then_reuse view_one_pfx_two_peers
      [(.v4 ⟨167772160, 8⟩, 2, 9), (.v4 ⟨167772160, 8⟩, 1, 3), (.v4 ⟨167772160, 8⟩, 2, 4)]
      ⟨by decide, by decide⟩ (by decide) (by decide)).1⟩

/-! ### The tables of a view stay maps -/

theorem remove_keys {κ : Type} [DecidableEq κ] (t : PrefixPeerTable κ) (p : κ)
    (id : bl_peerid_t) : (t.remove p id).1.keys = t.keys := by
  simp only [PrefixPeerTable.remove, PrefixPeerTable.keys, List.map_map]
  apply List.map_congr_left
  intro e _
  by_cases h : e.pfx = p <;> simp [h]

theorem upsert_keys_nodup {κ : Type} [DecidableEq κ] (t : PrefixPeerTable κ) (p : κ)
    (id : bl_peerid_t) (attrs : Nat) (h : t.keys.Nodup) :
    (t.upsert p id attrs).1.keys.Nodup := by
  rw [upsert_keys]
  split
  · exact h
  · next hp =>
    rw [List.nodup_append]
    exact ⟨h, List.nodup_singleton p, by
      intro a ha hb
      rw [List.mem_singleton] at hb
      exact hp (hb ▸ ha)⟩

theorem view_wf_create_shared (peersigns : bl_peersign_map_t) :
    view_wf (bgpwatcher_view_create_shared peersigns) :=
  ⟨List.nodup_nil, List.nodup_nil⟩

theorem view_wf_add (view : bgpwatcher_view_t) (pfx : bl_pfx_storage_t) (id : bl_peerid_t)
    (attrs : Nat) (h : view_wf view) : view_wf (bgpwatcher_view_add view pfx id attrs) := by
  cases pfx with
  | v4 p => exact ⟨upsert_keys_nodup _ p id attrs h.1, h.2⟩
  | v6 p => exact ⟨h.1, upsert_keys_nodup _ p id attrs h.2⟩

theorem view_wf_insert (view : bgpwatcher_view_t) (pfx : bl_pfx_storage_t)
    (sig : bl_peer_signature_t) (attrs : Nat) (h : view_wf view) :
    view_wf (bgpwatcher_view_insert view pfx sig attrs).2 :=
  view_wf_add _ pfx _ attrs h

theorem view_wf_withdraw (view : bgpwatcher_view_t) (pfx : bl_pfx_storage_t)
    (id : bl_peerid_t) (h : view_wf view) : view_wf (bgpwatcher_view_withdraw view pfx id) := by
  cases pfx with
  | v4 p =>
    refine ⟨?_, h.2⟩
    show (view.v4_table.remove p id).1.keys.Nodup
    rw [remove_keys]; exact h.1
  | v6 p =>
    refine ⟨h.1, ?_⟩
    show (view.v6_table.remove p id).1.keys.Nodup
    rw [remove_keys]; exact h.2

theorem view_wf_clear (view : bgpwatcher_view_t) (h : view_wf view) :
    view_wf (bgpwatcher_view_clear view) := by
  refine ⟨?_, ?_⟩
  · show view.v4_table.clear_all.keys.Nodup
    rw [clear_all_keys]; exact h.1
  · show view.v6_table.clear_all.keys.Nodup
    rw [clear_all_keys]; exact h.2

/-! ### The server: liveness -/

theorem server_connected_iff {U : Type} (server : bgpwatcher_server_t U) (client : String) :
    server_connected server client ↔ server_missed server client ≠ [] := by
  simp only [server_connected, server_missed, ne_eq, List.map_eq_nil_iff,
    List.filter_eq_nil_iff, decide_eq_true_eq, not_forall, not_not]
  constructor
  · rintro ⟨cl, h1, h2⟩; exact ⟨cl, h1, h2⟩
  · rintro ⟨cl, h1, h2⟩; exact ⟨cl, h1, h2⟩

theorem server_signal_frame {U : Type} (server : bgpwatcher_server_t U) (call : server_call_t) :
    (server_signal server call).clients = server.clients ∧
    (server_signal server call).heartbeat_liveness = server.heartbeat_liveness ∧
    (server_signal server call).shutdown = server.shutdown ∧
    (server_signal server call).trace =
      server.trace ++ [(call, (server_invoke server.callbacks call).1)] :=
  ⟨rfl, rfl, rfl, rfl⟩

theorem server_signal_disconnect_count {U : Type} (server : bgpwatcher_server_t U)
    (cl : bgpwatcher_server_client_t) (client : String) :
    server_disconnects (server_signal server (.client_disconnect cl.info)) client =
      server_disconnects server client + if cl.info.name = client then 1 else 0 := by
  have hiff : cl.info = ⟨client⟩ ↔ cl.info.name = client := by
    constructor
    · intro h; rw [h]
    · intro h; cases hc : cl.info; simp_all
  simp only [server_disconnects, server_signal, List.countP_append, List.countP_cons,
    List.countP_nil, server_call_t.client_disconnect.injEq, decide_eq_true_eq, hiff]
  omega

theorem server_signal_disconnects_frame {U : Type} (l : List bgpwatcher_server_client_t) :
    ∀ server : bgpwatcher_server_t U,
      (server_signal_disconnects l server).clients = server.clients ∧
      (server_signal_disconnects l server).heartbeat_liveness = server.heartbeat_liveness ∧
      (server_signal_disconnects l server).shutdown = server.shutdown ∧
      ∀ client, server_disconnects (server_signal_disconnects l server) client =
        server_disconnects server client +
          l.countP (fun cl => decide (cl.info.name = client)) := by
  induction l with
  | nil => intro server; exact ⟨rfl, rfl, rfl, fun _ => rfl⟩
  | cons cl rest ih =>
    intro server
    obtain ⟨h1, h2, h3, h4⟩ := ih (server_signal server (.client_disconnect cl.info))
    refine ⟨h1, h2, h3, fun client => ?_⟩
    simp only [server_signal_disconnects, h4, List.countP_cons,
      server_signal_disconnect_count, decide_eq_true_eq]
    omega

theorem purge_missed_alive (l : List bgpwatcher_server_client_t) (client : String)
    (dead : bgpwatcher_server_client_t → Bool) (reached : Nat → Bool)
    (h : ∀ cl, dead cl = reached cl.missed_beats) :
    ((l.filter (fun cl => !dead cl)).filter (fun cl => decide (cl.info.name = client))).map
        (fun cl => cl.missed_beats) =
      ((l.filter (fun cl => decide (cl.info.name = client))).map
        (fun cl => cl.missed_beats)).filter (fun m => !reached m) := by
  induction l with
  | nil => rfl
  | cons cl rest ih =>
    by_cases h1 : cl.info.name = client <;> by_cases h2 : reached cl.missed_beats = true <;>
      simpa [List.filter_cons, h, h1, h2] using ih

theorem purge_missed_dead (l : List bgpwatcher_server_client_t) (client : String)
    (dead : bgpwatcher_server_client_t → Bool) (reached : Nat → Bool)
    (h : ∀ cl, dead cl = reached cl.missed_beats) :
    (l.filter dead).countP (fun cl => decide (cl.info.name = client)) =
      (((l.filter (fun cl => decide (cl.info.name = client))).map
        (fun cl => cl.missed_beats)).filter reached).length := by
  induction l with
  | nil => rfl
  | cons cl rest ih =>
    by_cases h1 : cl.info.name = client <;> by_cases h2 : reached cl.missed_beats = true <;>
      simpa [List.filter_cons, List.countP_cons, h, h1, h2] using ih

theorem server_purge_frame {U : Type} (server : bgpwatcher_server_t U) :
    (server_purge server).heartbeat_liveness = server.heartbeat_liveness ∧
    (server_purge server).shutdown = server.shutdown ∧
    ∀ client,
      server_missed (server_purge server) client =
        (server_missed server client).filter
          (fun m => !liveness_reached server.heartbeat_liveness m) ∧
      server_disconnects (server_purge server) client =
        server_disconnects server client +
          ((server_missed server client).filter
            (liveness_reached server.heartbeat_liveness)).length := by
  obtain ⟨h1, h2, h3, h4⟩ := server_signal_disconnects_frame
    (server.clients.filter (server_client_dead server))
    { server with clients := server.clients.filter (fun cl => !server_client_dead server cl) }
  refine ⟨h2, h3, fun client => ⟨?_, ?_⟩⟩
  · unfold server_purge server_missed
    rw [h1]
    exact purge_missed_alive server.clients client (server_client_dead server)
      (liveness_reached server.heartbeat_liveness) (fun _ => rfl)
  · unfold server_purge
    rw [h4]
    unfold server_missed
    rw [← purge_missed_dead server.clients client (server_client_dead server)
      (liveness_reached server.heartbeat_liveness) (fun _ => rfl)]
    rfl

theorem server_step_tick {U : Type} (server : bgpwatcher_server_t U) (client : String) :
    (server_step server .TICK).heartbeat_liveness = server.heartbeat_liveness ∧
    server_missed (server_step server .TICK) client =
      ((server_missed server client).map (· + 1)).filter
        (fun m => !liveness_reached server.heartbeat_liveness m) ∧
    server_disconnects (server_step server .TICK) client =
      server_disconnects server client +
        (((server_missed server client).map (· + 1)).filter
          (liveness_reached server.heartbeat_liveness)).length := by
  obtain ⟨h1, _, h3⟩ := server_purge_frame (server_tick server)
  have hm : server_missed (server_tick server) client =
      (server_missed server client).map (· + 1) := by
    simp only [server_missed, server_tick, List.filter_map, List.map_map]
    rfl
  refine ⟨h1, ?_, ?_⟩
  · show server_missed (server_purge (server_tick server)) client = _
    rw [(h3 client).1, hm]; rfl
  · show server_disconnects (server_purge (server_tick server)) client = _
    rw [(h3 client).2, hm]; rfl

theorem server_step_handshake {U : Type} (server : bgpwatcher_server_t U) (client : String)
    (hnew : ¬ server_connected server client) :
    (server_step server (.RECV client .HANDSHAKE)).heartbeat_liveness =
      server.heartbeat_liveness ∧
    server_missed (server_step server (.RECV client .HANDSHAKE)) client =
      [0].filter (fun m => !liveness_reached server.heartbeat_liveness m) ∧
    server_disconnects (server_step server (.RECV client .HANDSHAKE)) client =
      server_disconnects server client +
        ([0].filter (liveness_reached server.heartbeat_liveness)).length := by
  have hk : server_knows server client = false := by
    rw [Bool.eq_false_iff]
    intro h
    simp only [server_knows, List.any_eq_true, decide_eq_true_eq] at h
    exact hnew h
  have hmiss : server_missed server client = [] := by
    by_contra hc
    exact hnew ((server_connected_iff server client).2 hc)
  have hh : server_handle_msg server client .HANDSHAKE =
      server_signal { server with clients := server.clients ++ [⟨⟨client⟩, server.now, 0⟩] }
        (.client_connect ⟨client⟩) := by
    simp [server_handle_msg, server_dispatch, server_bookkeep, hk]
  obtain ⟨h1, _, h3⟩ := server_purge_frame (server_handle_msg server client .HANDSHAKE)
  have hm : server_missed (server_handle_msg server client .HANDSHAKE) client = [0] := by
    rw [hh]
    have : server_missed server client ++ [0] = [0] := by rw [hmiss]; rfl
    rw [← this]
    simp [server_missed, server_signal, List.filter_append]
  have hd : server_disconnects (server_handle_msg server client .HANDSHAKE) client =
      server_disconnects server client := by
    rw [hh]
    simp [server_disconnects, server_signal, List.countP_append]
  have hl : (server_handle_msg server client .HANDSHAKE).heartbeat_liveness =
      server.heartbeat_liveness := by
    rw [hh]; rfl
  refine ⟨by rw [← hl]; exact h1, ?_, ?_⟩
  · show server_missed (server_purge _) client = _
    rw [(h3 client).1, hm, hl]
  · show server_disconnects (server_purge _) client = _
    rw [(h3 client).2, hm, hd, hl]

theorem server_ticks_gone {U : Type} (client : String) :
    ∀ (k : Nat) (server : bgpwatcher_server_t U), server_missed server client = [] →
      server_missed (server_ticks k server) client = [] ∧
      server_disconnects (server_ticks k server) client = server_disconnects server client := by
  intro k
  induction k with
  | zero => intro server h; exact ⟨h, rfl⟩
  | succ k ih =>
    intro server h
    obtain ⟨_, h2, h3⟩ := server_step_tick server client
    rw [h] at h2 h3
    obtain ⟨h4, h5⟩ := ih (server_step server .TICK) (by simpa using h2)
    exact ⟨h4, by rw [server_ticks, h5, h3]; rfl⟩

theorem server_ticks_count {U : Type} (client : String) (n : Nat) :
    ∀ (k m : Nat) (server : bgpwatcher_server_t U),
      server.heartbeat_liveness = (n : Int) → server_missed server client = [m] → m < n →
      (m + k < n →
        server_missed (server_ticks k server) client = [m + k] ∧
        server_disconnects (server_ticks k server) client =
          server_disconnects server client) ∧
      (n ≤ m + k →
        server_missed (server_ticks k server) client = [] ∧
        server_disconnects (server_ticks k server) client =
          server_disconnects server client + 1) := by
  intro k
  induction k with
  | zero =>
    intro m server _ hm hlt
    exact ⟨fun _ => ⟨hm, rfl⟩, fun h => by omega⟩
  | succ k ih =>
    intro m server hl hm hlt
    obtain ⟨h1, h2, h3⟩ := server_step_tick server client
    rw [hm, hl] at h2 h3
    by_cases hnext : m + 1 < n
    · have hr : liveness_reached (n : Int) (m + 1) = false := by
        simp only [liveness_reached, decide_eq_false_iff_not, Int.ofNat_eq_coe]
        omega
      have h2b : server_missed (server_step server .TICK) client = [m + 1] := by
        rw [h2]; simp [hr]
      have h3b : server_disconnects (server_step server .TICK) client =
          server_disconnects server client := by
        rw [h3]; simp [hr]
      obtain ⟨ha, hb⟩ := ih (m + 1) (server_step server .TICK) (by rw [h1, hl]) h2b hnext
      constructor
      · intro h
        obtain ⟨h4, h5⟩ := ha (by omega)
        exact ⟨by rw [server_ticks, h4]; congr 1; omega, by rw [server_ticks, h5, h3b]⟩
      · intro h
        obtain ⟨h4, h5⟩ := hb (by omega)
        exact ⟨by rw [server_ticks, h4], by rw [server_ticks, h5, h3b]⟩
    · have hr : liveness_reached (n : Int) (m + 1) = true := by
        simp only [liveness_reached, decide_eq_true_eq, Int.ofNat_eq_coe]
        omega
      have h2b : server_missed (server_step server .TICK) client = [] := by
        rw [h2]; simp [hr]
      have h3b : server_disconnects (server_step server .TICK) client =
          server_disconnects server client + 1 := by
        rw [h3]; simp [hr]
      obtain ⟨h4, h5⟩ := server_ticks_gone client k (server_step server .TICK) h2b
      constructor
      · intro h; omega
      · intro _
        exact ⟨by rw [server_ticks, h4], by rw [server_ticks, h5, h3b]⟩

/-- C6: a client that was not connected sends a handshake and then nothing
more, the heartbeat liveness being `n`: during the first `n - 1` heartbeat
intervals that elapse it stays connected and its disconnect is not signalled;
from the `n`-th elapsed interval on it is no longer connected and
`client_disconnect` has been invoked for it exactly once. -/
theorem liveness_timeout {U : Type} (server : bgpwatcher_server_t U) (n : Nat)
    (client : String) (k : Nat) (hnew : ¬ server_connected server client) :
    (k < n →
      server_connected (server_after_handshake server n client k) client ∧
      server_disconnects (server_after_handshake server n client k) client =
        server_disconnects server client) ∧
    (n ≤ k →
      ¬ server_connected (server_after_handshake server n client k) client ∧
      server_disconnects (server_after_handshake server n client k) client =
        server_disconnects server client + 1) := by
  obtain ⟨h1, h2, h3⟩ := server_step_handshake
    (bgpwatcher_server_set_heartbeat_liveness server (n : Int)) client hnew
  have hl : (bgpwatcher_server_set_heartbeat_liveness server (n : Int)).heartbeat_liveness =
      (n : Int) := rfl
  have hd0 : server_disconnects (bgpwatcher_server_set_heartbeat_liveness server (n : Int))
      client = server_disconnects server client := rfl
  rw [hl] at h1 h2 h3
  rw [hd0] at h3
  unfold server_after_handshake
  by_cases hn : 0 < n
  · have hr : liveness_reached (n : Int) 0 = false := by
      simp only [liveness_reached, decide_eq_false_iff_not, Int.ofNat_eq_coe]
      omega
    have h2b : server_missed (server_step (bgpwatcher_server_set_heartbeat_liveness server
        (n : Int)) (.RECV client .HANDSHAKE)) client = [0] := by
      rw [h2]; simp [hr]
    have h3b : server_disconnects (server_step (bgpwatcher_server_set_heartbeat_liveness server
        (n : Int)) (.RECV client .HANDSHAKE)) client = server_disconnects server client := by
      rw [h3]; simp [hr]
    obtain ⟨ha, hb⟩ := server_ticks_count client n k 0 _ h1 h2b hn
    constructor
    · intro h
      obtain ⟨h4, h5⟩ := ha (by omega)
      exact ⟨(server_connected_iff _ _).2 (by rw [h4]; simp), by rw [h5, h3b]⟩
    · intro h
      obtain ⟨h4, h5⟩ := hb (by omega)
      exact ⟨fun hc => (server_connected_iff _ _).1 hc h4, by rw [h5, h3b]⟩
  · have hr : liveness_reached (n : Int) 0 = true := by
      simp only [liveness_reached, decide_eq_true_eq, Int.ofNat_eq_coe]
      omega
    have h2b : server_missed (server_step (bgpwatcher_server_set_heartbeat_liveness server
        (n : Int)) (.RECV client .HANDSHAKE)) client = [] := by
      rw [h2]; simp [hr]
    have h3b : server_disconnects (server_step (bgpwatcher_server_set_heartbeat_liveness server
        (n : Int)) (.RECV client .HANDSHAKE)) client = server_disconnects server client + 1 := by
      rw [h3]; simp [hr]
    obtain ⟨h4, h5⟩ := server_ticks_gone client k _ h2b
    constructor
    · intro h; omega
    · intro _
      exact ⟨fun hc => (server_connected_iff _ _).1 hc h4, by rw [h5, h3b]⟩

/-- Witness for C6: liveness 2; after one interval the client is connected and
no disconnect was signalled, after two it is gone and one was. -/
theorem liveness_timeout_witness :
    (server_connected (server_after_handshake server_example 2 "rrc00" 1) "rrc00" ∧
      server_disconnects (server_after_handshake server_example 2 "rrc00" 1) "rrc00" =
        server_disconnects server_example "rrc00") ∧
    (¬ server_connected (server_after_handshake server_example 2 "rrc00" 2) "rrc00" ∧
      server_disconnects (server_after_handshake server_example 2 "rrc00" 2) "rrc00" =
        server_disconnects server_example "rrc00" + 1) ∧
    server_disconnects server_example "rrc00" = 0 :=
  ⟨(liveness_timeout server_example 2 "rrc00" 1
      (by simp [server_connected, server_example, bgpwatcher_server_init])).1 (by decide),
   (liveness_timeout server_example 2 "rrc00" 2
      (by simp [server_connected, server_example, bgpwatcher_server_init])).2 (by decide),
   rfl⟩

/-! ### The server: callback failures -/

theorem server_bookkeep_frame {U : Type} (server : bgpwatcher_server_t U) (client : String)
    (msg : bgpwatcher_msg_t) :
    (server_bookkeep server client msg).shutdown = server.shutdown ∧
    (server_bookkeep server client msg).callbacks = server.callbacks ∧
    (server_bookkeep server client msg).err = server.err ∧
    (server_bookkeep server client msg).trace = server.trace := by
  unfold server_bookkeep
  split
  · cases msg <;> exact ⟨rfl, rfl, rfl, rfl⟩
  · exact ⟨rfl, rfl, rfl, rfl⟩

theorem server_signal_err {U : Type} (server : bgpwatcher_server_t U) (call : server_call_t) :
    ((server_invoke server.callbacks call).1 ≠ 0 ∨ server.err.err_num ≠ 0) →
      (server_signal server call).err.err_num ≠ 0 := by
  intro h
  have herr : (server_signal server call).err =
      if (server_invoke server.callbacks call).1 ≠ 0 then
        ⟨bgpwatcher_server_err_code_t.BGPWATCHER_SERVER_ERR_UNHANDLED.toInt⟩
      else server.err := rfl
  rw [herr]
  by_cases hr : (server_invoke server.callbacks call).1 ≠ 0
  · rw [if_pos hr]
    decide
  · rw [if_neg hr]
    rcases h with h | h
    · exact absurd h hr
    · exact h

theorem server_signal_disconnects_err {U : Type} (l : List bgpwatcher_server_client_t) :
    ∀ server : bgpwatcher_server_t U,
      (server.err.err_num ≠ 0 → (server_signal_disconnects l server).err.err_num ≠ 0) ∧
      ∃ ext, (server_signal_disconnects l server).trace = server.trace ++ ext := by
  induction l with
  | nil => intro server; exact ⟨fun h => h, [], by simp [server_signal_disconnects]⟩
  | cons cl rest ih =>
    intro server
    obtain ⟨h1, ext, h2⟩ := ih (server_signal server (.client_disconnect cl.info))
    refine ⟨fun h => h1 (server_signal_err server _ (Or.inr h)), ?_⟩
    exact ⟨(server_call_t.client_disconnect cl.info,
        (server_invoke server.callbacks (.client_disconnect cl.info)).1) :: ext, by
      rw [server_signal_disconnects, h2, (server_signal_frame server _).2.2.2]
      simp⟩

theorem server_purge_err {U : Type} (server : bgpwatcher_server_t U) :
    (server.err.err_num ≠ 0 → (server_purge server).err.err_num ≠ 0) ∧
    ∃ ext, (server_purge server).trace = server.trace ++ ext :=
  server_signal_disconnects_err (server.clients.filter (server_client_dead server))
    { server with clients := server.clients.filter (fun cl => !server_client_dead server cl) }

/-- C9: when the callback a message is dispatched to (any of client_connect,
client_disconnect, recv_pfx_record, recv_peer_record, table_end) returns a
failure, the server loop is not stopped: the shutdown flag stays clear, the
error status holds an error, the failed message was dispatched exactly once and
is not seen again (the loop goes on with the events after it), and the next
message is dispatched to its callback. -/
theorem callback_failure_nonfatal {U : Type} (server : bgpwatcher_server_t U)
    (client : String) (msg : bgpwatcher_msg_t) (call : server_call_t)
    (rest : List server_event_t) (hrun : server.shutdown = 0)
    (hcall : server_dispatch server client msg = some call)
    (hfail : (server_invoke server.callbacks call).1 ≠ 0) :
    (server_step server (.RECV client msg)).shutdown = 0 ∧
    (server_step server (.RECV client msg)).err.err_num ≠
      bgpwatcher_server_err_code_t.BGPWATCHER_SERVER_ERR_NONE.toInt ∧
    (∃ ext, (server_step server (.RECV client msg)).trace =
      server.trace ++ [(call, (server_invoke server.callbacks call).1)] ++ ext) ∧
    server_run server (.RECV client msg :: rest) =
      server_run (server_step server (.RECV client msg)) rest ∧
    (∀ client2 msg2 call2 rest2, rest = .RECV client2 msg2 :: rest2 →
      server_dispatch (server_step server (.RECV client msg)) client2 msg2 = some call2 →
      server_run server (.RECV client msg :: rest) =
        server_run (server_step (server_step server (.RECV client msg)) (.RECV client2 msg2))
          rest2 ∧
      (call2, (server_invoke (server_step server (.RECV client msg)).callbacks call2).1) ∈
        (server_step (server_step server (.RECV client msg)) (.RECV client2 msg2)).trace) := by
  obtain ⟨hb1, hb2, hb3, hb4⟩ := server_bookkeep_frame server client msg
  have hh : server_handle_msg server client msg =
      server_signal (server_bookkeep server client msg) call := by
    simp only [server_handle_msg, hcall]
  have hinv : server_invoke (server_bookkeep server client msg).callbacks call =
      server_invoke server.callbacks call := by rw [hb2]
  have hshut : (server_step server (.RECV client msg)).shutdown = 0 := by
    show (server_purge (server_handle_msg server client msg)).shutdown = 0
    rw [(server_purge_frame _).2.1, hh, (server_signal_frame _ _).2.2.1, hb1, hrun]
  have hrunstep : server_run server (.RECV client msg :: rest) =
      server_run (server_step server (.RECV client msg)) rest := by
    simp [server_run, hrun]
  refine ⟨hshut, ?_, ?_, hrunstep, ?_⟩
  · show (server_purge (server_handle_msg server client msg)).err.err_num ≠ _
    apply (server_purge_err _).1
    rw [hh]
    exact server_signal_err _ _ (Or.inl (by rw [hinv]; exact hfail))
  · obtain ⟨ext, hext⟩ := (server_purge_err (server_handle_msg server client msg)).2
    refine ⟨ext, ?_⟩
    show (server_purge (server_handle_msg server client msg)).trace = _
    rw [hext, hh, (server_signal_frame _ _).2.2.2, hinv, hb4]
  · intro client2 msg2 call2 rest2 hrest hcall2
    constructor
    · rw [hrunstep, hrest]
      simp [server_run, hshut]
    · obtain ⟨c1, c2, c3, c4⟩ :=
        server_bookkeep_frame (server_step server (.RECV client msg)) client2 msg2
      obtain ⟨ext, hext⟩ := (server_purge_err
        (server_handle_msg (server_step server (.RECV client msg)) client2 msg2)).2
      show _ ∈ (server_purge (server_handle_msg _ client2 msg2)).trace
      rw [hext]
      simp only [server_handle_msg, hcall2, (server_signal_frame _ _).2.2.2, c2]
      simp

/-- Witness for C9: the example server, the client rrc00 being connected, gets a
prefix record; `recv_pfx_record` fails. -/
theorem callback_failure_nonfatal_witness :
    server_example_connected.shutdown = 0 ∧
    server_dispatch server_example_connected "rrc00"
      (.PFX_RECORD 1 ⟨.v4 ⟨167772160, 8⟩, 1, 0⟩) =
      some (.recv_pfx_record 1 ⟨.v4 ⟨167772160, 8⟩, 1, 0⟩) ∧
    (server_invoke server_example_connected.callbacks
      (.recv_pfx_record 1 ⟨.v4 ⟨167772160, 8⟩, 1, 0⟩)).1 ≠ 0 ∧
    (server_step server_example_connected
      (.RECV "rrc00" (.PFX_RECORD 1 ⟨.v4 ⟨167772160, 8⟩, 1, 0⟩))).shutdown = 0 ∧
    (server_step server_example_connected
      (.RECV "rrc00" (.PFX_RECORD 1 ⟨.v4 ⟨167772160, 8⟩, 1, 0⟩))).err.err_num ≠
      bgpwatcher_server_err_code_t.BGPWATCHER_SERVER_ERR_NONE.toInt :=
  ⟨rfl, rfl, by decide,
   (callback_failure_nonfatal server_example_connected "rrc00"
      (.PFX_RECORD 1 ⟨.v4 ⟨167772160, 8⟩, 1, 0⟩)
      (.recv_pfx_record 1 ⟨.v4 ⟨167772160, 8⟩, 1, 0⟩) [] rfl rfl (by decide)).1,
   (callback_failure_nonfatal server_example_connected "rrc00"
      (.PFX_RECORD 1 ⟨.v4 ⟨167772160, 8⟩, 1, 0⟩)
      (.recv_pfx_record 1 ⟨.v4 ⟨167772160, 8⟩, 1, 0⟩) [] rfl rfl (by decide)).2.1⟩

/-! ### The BMP format -/

namespace Bmp

theorem is_wanted_time_scan_eq (forever t : Nat) (l : List bgpstream_interval_filter_t) :
    (is_wanted_time_scan forever t l = 1 ↔
      ∃ tif ∈ l, tif.begin_time ≤ t ∧ (tif.end_time = forever ∨ t ≤ tif.end_time)) ∧
    (is_wanted_time_scan forever t l = 1 ∨ is_wanted_time_scan forever t l = 0) := by
  induction l with
  | nil => simp [is_wanted_time_scan]
  | cons tif next ih =>
    by_cases h : tif.begin_time ≤ t ∧ (tif.end_time = forever ∨ t ≤ tif.end_time)
    · simp only [is_wanted_time_scan, h, and_self, if_true, true_iff, true_or, and_true]
      exact ⟨tif, List.mem_cons_self _ _, h⟩
    · simp only [is_wanted_time_scan, if_neg h, List.mem_cons, exists_eq_or_imp]
      refine ⟨?_, ih.2⟩
      rw [ih.1]
      constructor
      · intro hx; exact Or.inr hx
      · rintro (hx | hx)
        · exact absurd hx h
        · exact hx

/-- C16: `is_wanted_time` returns 1 if and only if the filter manager has no
time intervals or some interval of its list has `begin_time <= t` and
(`end_time = BGPSTREAM_FOREVER` or `t <= end_time`), both bounds inclusive;
otherwise it returns 0. -/
theorem is_wanted_time_spec (env : env_t) (t : Nat) (filter_mgr : bgpstream_filter_mgr_t) :
    (is_wanted_time env t filter_mgr = 1 ↔
      (filter_mgr.time_intervals = [] ∨
        ∃ tif ∈ filter_mgr.time_intervals, interval_matches env t tif)) ∧
    (is_wanted_time env t filter_mgr = 1 ∨ is_wanted_time env t filter_mgr = 0) := by
  unfold is_wanted_time interval_matches
  cases h : filter_mgr.time_intervals with
  | nil => simp
  | cons tif next =>
    have := is_wanted_time_scan_eq env.BGPSTREAM_FOREVER t (tif :: next)
    simp only [reduceCtorEq, false_or]
    exact this

end Bmp

namespace Bmp

/-- C15: on a BMP message `populate_filter_cb` returns KEEP if and only if the
BMP type is PEER_UP or PEER_DOWN, or ROUTE_MON carrying an UPDATE, and
`is_wanted_time` accepts the `ts_sec` of the peer header; for every other
message it returns FILTER_OUT. With KEEP, `*ts_sec` is the `ts_sec` of the peer
header; with FILTER_OUT it is left as it was. -/
theorem populate_filter_cb_spec (env : env_t) (format : bgpstream_format_t)
    (msg : parsebgp_msg_t) (ts_sec : Nat)
    (hbmp : msg.type = parsebgp_msg_type_t.PARSEBGP_MSG_TYPE_BMP) :
    ∃ rc ts, populate_filter_cb env format msg ts_sec = some (rc, ts) ∧
      (rc = .BGPSTREAM_PARSEBGP_KEEP ↔
        (is_kept_type msg.bmp ∧
          is_wanted_time env msg.bmp.peer_hdr.ts_sec format.filter_mgr = 1)) ∧
      (rc = .BGPSTREAM_PARSEBGP_KEEP ∨ rc = .BGPSTREAM_PARSEBGP_FILTER_OUT) ∧
      (rc = .BGPSTREAM_PARSEBGP_KEEP → ts = msg.bmp.peer_hdr.ts_sec) ∧
      (rc = .BGPSTREAM_PARSEBGP_FILTER_OUT → ts = ts_sec) := by
  have hw := (is_wanted_time_spec env msg.bmp.peer_hdr.ts_sec format.filter_mgr).2
  have hw1 : is_wanted_time env msg.bmp.peer_hdr.ts_sec format.filter_mgr ≠ 0 ↔
      is_wanted_time env msg.bmp.peer_hdr.ts_sec format.filter_mgr = 1 := by
    rcases hw with h | h <;> simp [h]
  unfold populate_filter_cb is_kept_type
  simp only [hbmp, ne_eq, not_true_eq_false, if_false]
  by_cases h1 : ¬msg.bmp.type = parsebgp_bmp_msg_type_t.PARSEBGP_BMP_TYPE_ROUTE_MON ∧
      ¬msg.bmp.type = parsebgp_bmp_msg_type_t.PARSEBGP_BMP_TYPE_PEER_DOWN ∧
      ¬msg.bmp.type = parsebgp_bmp_msg_type_t.PARSEBGP_BMP_TYPE_PEER_UP
  · rw [if_pos h1]
    refine ⟨_, _, rfl, ?_, Or.inr rfl, ?_, fun _ => rfl⟩
    · simp [h1.1, h1.2.1, h1.2.2]
    · intro h; exact absurd h (by decide)
  · rw [if_neg h1]
    by_cases h2 : msg.bmp.type = parsebgp_bmp_msg_type_t.PARSEBGP_BMP_TYPE_ROUTE_MON ∧
        ¬msg.bmp.route_mon.type = parsebgp_bgp_msg_type_t.PARSEBGP_BGP_TYPE_UPDATE
    · rw [if_pos h2]
      refine ⟨_, _, rfl, ?_, Or.inr rfl, ?_, fun _ => rfl⟩
      · simp [h2.1, h2.2]
      · intro h; exact absurd h (by decide)
    · rw [if_neg h2]
      have hk : msg.bmp.type = parsebgp_bmp_msg_type_t.PARSEBGP_BMP_TYPE_PEER_UP ∨
          msg.bmp.type = parsebgp_bmp_msg_type_t.PARSEBGP_BMP_TYPE_PEER_DOWN ∨
          (msg.bmp.type = parsebgp_bmp_msg_type_t.PARSEBGP_BMP_TYPE_ROUTE_MON ∧
            msg.bmp.route_mon.type = parsebgp_bgp_msg_type_t.PARSEBGP_BGP_TYPE_UPDATE) := by
        by_cases ha : msg.bmp.type = parsebgp_bmp_msg_type_t.PARSEBGP_BMP_TYPE_PEER_UP
        · exact Or.inl ha
        · by_cases hb : msg.bmp.type = parsebgp_bmp_msg_type_t.PARSEBGP_BMP_TYPE_PEER_DOWN
          · exact Or.inr (Or.inl hb)
          · by_cases hc : msg.bmp.type = parsebgp_bmp_msg_type_t.PARSEBGP_BMP_TYPE_ROUTE_MON
            · refine Or.inr (Or.inr ⟨hc, ?_⟩)
              by_contra hd
              exact h2 ⟨hc, hd⟩
            · exact absurd ⟨hc, hb, ha⟩ h1
      by_cases h3 : is_wanted_time env msg.bmp.peer_hdr.ts_sec format.filter_mgr = 0
      · rw [if_neg (by simpa using h3)]
        refine ⟨_, _, rfl, ?_, Or.inr rfl, ?_, fun _ => rfl⟩
        · simp [h3]
        · intro h; exact absurd h (by decide)
      · rw [if_pos h3]
        refine ⟨_, _, rfl, ?_, Or.inl rfl, fun _ => rfl, ?_⟩
        · simp only [true_iff]
          exact ⟨hk, hw1.1 h3⟩
        · intro h; exact absurd h (by decide)

/-- Witness for C15: the PEER_UP example is kept by a filter whose interval
starts before it and never ends. -/
theorem populate_filter_cb_spec_witness :
    msg_peer_up.type = parsebgp_msg_type_t.PARSEBGP_MSG_TYPE_BMP ∧
    populate_filter_cb env_example format_example msg_peer_up 0 =
      some (.BGPSTREAM_PARSEBGP_KEEP, 1500000000) ∧
    ∃ rc ts, populate_filter_cb env_example format_example msg_peer_up 0 = some (rc, ts) ∧
      (rc = .BGPSTREAM_PARSEBGP_KEEP ↔
        (is_kept_type msg_peer_up.bmp ∧
          is_wanted_time env_example msg_peer_up.bmp.peer_hdr.ts_sec
            format_example.filter_mgr = 1)) :=
  ⟨rfl, by decide,
    (populate_filter_cb_spec env_example format_example msg_peer_up 0 rfl).imp
      (fun _ h => h.imp (fun _ h2 => ⟨h2.1, h2.2.1⟩))⟩

end Bmp

namespace Bmp

/-- On a PEER_UP or PEER_DOWN message, with elems still to come, the call
processes the peer header if it has not been done and then synthesizes the
peer-state elem. -/
theorem get_next_elem_peer_up_down (env : env_t) (st : state_t) (record : bgpstream_record_t)
    (msg : parsebgp_msg_t) (hf : record.fdata = some msg) (ht : is_peer_up_down msg.bmp)
    (he : st.end_of_elems = 0) :
    bs_format_bmp_get_next_elem env st record =
      if st.peer_hdr_done = 0 ∧ (handle_peer_hdr env st.elem msg.bmp).1 ≠ 0 then
        (-1, { st with elem := (handle_peer_hdr env st.elem msg.bmp).2 }, none)
      else
        (1,
         (handle_peer_up_down
            { st with
              elem := (if st.peer_hdr_done = 0 then handle_peer_hdr env st.elem msg.bmp
                else (0, st.elem)).2,
              peer_hdr_done := 1 }
            (if msg.bmp.type = .PARSEBGP_BMP_TYPE_PEER_UP then 1 else 0)).2,
         some (handle_peer_up_down
            { st with
              elem := (if st.peer_hdr_done = 0 then handle_peer_hdr env st.elem msg.bmp
                else (0, st.elem)).2,
              peer_hdr_done := 1 }
            (if msg.bmp.type = .PARSEBGP_BMP_TYPE_PEER_UP then 1 else 0)).2.elem) := by
  unfold bs_format_bmp_get_next_elem
  simp only [hf, he, ne_eq, not_true_eq_false, if_false]
  by_cases hd : st.peer_hdr_done = 0
  · by_cases hh : (handle_peer_hdr env st.elem msg.bmp).1 = 0
    · rcases ht with ht | ht <;> simp [hd, hh, ht, handle_peer_up_down]
    · simp [hd, hh]
  · rcases ht with ht | ht <;> simp [hd, ht, handle_peer_up_down]

/-- C11: whatever the format state and the elem held before,
`handle_peer_up_down` returns 1 and leaves a PEERSTATE elem whose old_state is
UNKNOWN and whose new_state is ACTIVE when `peer_up` is non-zero and IDLE when
it is zero; type and states of the elem are the same from any two prior states;
and the elem `bs_format_bmp_get_next_elem` hands out carries ACTIVE for a
PEER_UP and IDLE for a PEER_DOWN. -/
theorem handle_peer_up_down_spec (env : env_t) (st st2 : state_t) (peer_up : Int)
    (record : bgpstream_record_t) (msg : parsebgp_msg_t) :
    (handle_peer_up_down st peer_up).1 = 1 ∧
    (handle_peer_up_down st peer_up).2.elem.type = .BGPSTREAM_ELEM_TYPE_PEERSTATE ∧
    (handle_peer_up_down st peer_up).2.elem.old_state = .BGPSTREAM_ELEM_PEERSTATE_UNKNOWN ∧
    (peer_up ≠ 0 →
      (handle_peer_up_down st peer_up).2.elem.new_state = .BGPSTREAM_ELEM_PEERSTATE_ACTIVE) ∧
    (peer_up = 0 →
      (handle_peer_up_down st peer_up).2.elem.new_state = .BGPSTREAM_ELEM_PEERSTATE_IDLE) ∧
    (handle_peer_up_down st peer_up).2.end_of_elems = 1 ∧
    ((handle_peer_up_down st peer_up).2.elem.type =
        (handle_peer_up_down st2 peer_up).2.elem.type ∧
      (handle_peer_up_down st peer_up).2.elem.old_state =
        (handle_peer_up_down st2 peer_up).2.elem.old_state ∧
      (handle_peer_up_down st peer_up).2.elem.new_state =
        (handle_peer_up_down st2 peer_up).2.elem.new_state) ∧
    (record.fdata = some msg → is_peer_up_down msg.bmp →
      (bs_format_bmp_get_next_elem env st record).1 = 1 →
      ∃ el, (bs_format_bmp_get_next_elem env st record).2.2 = some el ∧
        el.type = .BGPSTREAM_ELEM_TYPE_PEERSTATE ∧
        el.old_state = .BGPSTREAM_ELEM_PEERSTATE_UNKNOWN ∧
        (msg.bmp.type = .PARSEBGP_BMP_TYPE_PEER_UP →
          el.new_state = .BGPSTREAM_ELEM_PEERSTATE_ACTIVE) ∧
        (msg.bmp.type = .PARSEBGP_BMP_TYPE_PEER_DOWN →
          el.new_state = .BGPSTREAM_ELEM_PEERSTATE_IDLE)) := by
  refine ⟨rfl, rfl, rfl, ?_, ?_, rfl, ⟨rfl, rfl, rfl⟩, ?_⟩
  · intro h; simp [handle_peer_up_down, h]
  · intro h; simp [handle_peer_up_down, h]
  · intro hf ht hrc
    have he : st.end_of_elems = 0 := by
      by_contra hne
      simp [bs_format_bmp_get_next_elem, hf, hne] at hrc
    rw [get_next_elem_peer_up_down env st record msg hf ht he] at hrc ⊢
    split at hrc
    · simp at hrc
    · rename_i hcond
      rw [if_neg hcond]
      refine ⟨_, rfl, rfl, rfl, ?_, ?_⟩
      · intro hup; simp [handle_peer_up_down, hup]
      · intro hdown; simp [handle_peer_up_down, hdown]

/-- Witness for C11: the PEER_UP example, read with a state that still holds an
ESTABLISHED -> IDLE transition of an earlier message. -/
theorem handle_peer_up_down_spec_witness :
    (1 : Int) ≠ 0 ∧
    (handle_peer_up_down format_example.state 1).2.elem.new_state =
      .BGPSTREAM_ELEM_PEERSTATE_ACTIVE ∧
    (handle_peer_up_down format_example.state 0).2.elem.new_state =
      .BGPSTREAM_ELEM_PEERSTATE_IDLE ∧
    format_example.state.elem.old_state = .BGPSTREAM_ELEM_PEERSTATE_ESTABLISHED :=
  ⟨by decide,
   (handle_peer_up_down_spec env_example format_example.state format_example.state 1
      ⟨some msg_peer_up⟩ msg_peer_up).2.2.2.1 (by decide),
   (handle_peer_up_down_spec env_example format_example.state format_example.state 0
      ⟨some msg_peer_up⟩ msg_peer_up).2.2.2.2.1 rfl,
   rfl⟩

end Bmp

namespace Bmp
theorem get_next_elem_shape (env : env_t) (st : state_t) (record : bgpstream_record_t) :
    ∃ rc st2, (bs_format_bmp_get_next_elem env st record = (rc, st2, none) ∧ rc ≤ 0) ∨
      bs_format_bmp_get_next_elem env st record = (1, st2, some st2.elem) := by
  unfold bs_format_bmp_get_next_elem
  cases hf : record.fdata with
  | none => exact ⟨0, st, Or.inl ⟨rfl, le_refl _⟩⟩
  | some msg =>
    simp only
    by_cases he : st.end_of_elems ≠ 0
    · rw [if_pos he]; exact ⟨0, st, Or.inl ⟨rfl, le_refl _⟩⟩
    · rw [if_neg he]
      by_cases hc : st.peer_hdr_done = 0 ∧
          (if st.peer_hdr_done = 0 then handle_peer_hdr env st.elem msg.bmp
            else (0, st.elem)).1 ≠ 0
      · rw [if_pos hc]; exact ⟨-1, _, Or.inl ⟨rfl, by decide⟩⟩
      · rw [if_neg hc]
        cases hty : msg.bmp.type with
        | PARSEBGP_BMP_TYPE_ROUTE_MON =>
          simp only
          rcases hu : handle_update env { st with
              elem := (if st.peer_hdr_done = 0 then handle_peer_hdr env st.elem msg.bmp
                else (0, st.elem)).2, peer_hdr_done := 1 } msg.bmp.route_mon with ⟨rc, st2⟩
          simp only
          by_cases hrc : rc ≤ 0
          · rw [if_pos hrc]; exact ⟨rc, st2, Or.inl ⟨rfl, hrc⟩⟩
          · rw [if_neg hrc]; exact ⟨rc, st2, Or.inr rfl⟩
        | PARSEBGP_BMP_TYPE_PEER_DOWN => exact ⟨0, _, Or.inr rfl⟩
        | PARSEBGP_BMP_TYPE_PEER_UP => exact ⟨0, _, Or.inr rfl⟩
        | PARSEBGP_BMP_TYPE_STATS_REPORT => exact ⟨0, _, Or.inl ⟨rfl, le_refl _⟩⟩
        | PARSEBGP_BMP_TYPE_INIT_MSG => exact ⟨0, _, Or.inl ⟨rfl, le_refl _⟩⟩
        | PARSEBGP_BMP_TYPE_TERM_MSG => exact ⟨0, _, Or.inl ⟨rfl, le_refl _⟩⟩
        | PARSEBGP_BMP_TYPE_ROUTE_MIRROR_MSG => exact ⟨0, _, Or.inl ⟨rfl, le_refl _⟩⟩

/-- C13: after every call of `bs_format_bmp_get_next_elem` the out-parameter
`*elem` is non-NULL if and only if the return value is 1, and it is then the
elem of the format state (a borrowed pointer); the return value is 1, 0 or
negative, and with 0 or a negative value `*elem` is NULL. -/
theorem get_next_elem_out_param (env : env_t) (st : state_t) (record : bgpstream_record_t) :
    ((bs_format_bmp_get_next_elem env st record).2.2 ≠ none ↔
      (bs_format_bmp_get_next_elem env st record).1 = 1) ∧
    ((bs_format_bmp_get_next_elem env st record).1 = 1 ∨
      (bs_format_bmp_get_next_elem env st record).1 ≤ 0) ∧
    ((bs_format_bmp_get_next_elem env st record).1 = 1 →
      (bs_format_bmp_get_next_elem env st record).2.2 =
        some (bs_format_bmp_get_next_elem env st record).2.1.elem) ∧
    ((bs_format_bmp_get_next_elem env st record).1 ≤ 0 →
      (bs_format_bmp_get_next_elem env st record).2.2 = none) := by
  obtain ⟨rc, st2, h | h⟩ := get_next_elem_shape env st record
  · rw [h.1]
    refine ⟨?_, Or.inr h.2, ?_, fun _ => rfl⟩
    · simp only [ne_eq, not_true_eq_false, false_iff]
      have := h.2
      omega
    · intro h1
      have := h.2
      simp only at h1
      omega
  · rw [h]
    refine ⟨by simp, Or.inl rfl, fun _ => rfl, ?_⟩
    intro h1
    simp only at h1
    omega

/-- Witness for C13: the PEER_UP example after a reset hands out the elem of
the state; a second call hands out nothing. -/
theorem get_next_elem_out_param_witness :
    (bs_format_bmp_get_next_elem env_example (reset_generator env_example format_example.state)
      ⟨some msg_peer_up⟩).1 = 1 ∧
    (bs_format_bmp_get_next_elem env_example (reset_generator env_example format_example.state)
      ⟨some msg_peer_up⟩).2.2 =
      some (bs_format_bmp_get_next_elem env_example
        (reset_generator env_example format_example.state) ⟨some msg_peer_up⟩).2.1.elem ∧
    (bs_format_bmp_get_next_elem env_example format_example.state ⟨some msg_peer_up⟩).1 ≤ 0 ∧
    (bs_format_bmp_get_next_elem env_example format_example.state ⟨some msg_peer_up⟩).2.2 =
      none :=
  ⟨by decide,
   (get_next_elem_out_param env_example (reset_generator env_example format_example.state)
      ⟨some msg_peer_up⟩).2.2.1 (by decide),
   by decide,
   (get_next_elem_out_param env_example format_example.state ⟨some msg_peer_up⟩).2.2.2
      (by decide)⟩

end Bmp

namespace Bmp

theorem populate_record_state (env : env_t) (format : bgpstream_format_t)
    (record : bgpstream_record_t) :
    (bs_format_bmp_populate_record env format record).2.1.state.end_of_elems = 0 ∧
    (bs_format_bmp_populate_record env format record).2.1.state.peer_hdr_done = 0 ∧
    (bs_format_bmp_populate_record env format record).2.1.state.elem =
      env.bgpstream_elem_clear format.state.elem :=
  ⟨rfl, rfl, rfl⟩

/-- Once the end of the elems is reached, a call returns 0, hands out nothing
and leaves the state as it is. -/
theorem get_next_elem_at_end (env : env_t) (st : state_t) (record : bgpstream_record_t)
    (he : st.end_of_elems ≠ 0) :
    bs_format_bmp_get_next_elem env st record = (0, st, none) := by
  unfold bs_format_bmp_get_next_elem
  cases record.fdata with
  | none => rfl
  | some msg => simp [he]

theorem get_next_elem_calls_at_end (env : env_t) (record : bgpstream_record_t)
    (k : Nat) (st : state_t) (he : st.end_of_elems ≠ 0) :
    get_next_elem_calls env record k st = st := by
  induction k with
  | zero => rfl
  | succ k ih =>
    rw [get_next_elem_calls, get_next_elem_at_end env st record he]
    exact ih

/-- The first call after a reset on a PEER_UP or PEER_DOWN message whose
address family `COPY_IP` knows. -/
theorem get_next_elem_first (env : env_t) (st : state_t) (record : bgpstream_record_t)
    (msg : parsebgp_msg_t) (a : bgpstream_addr_storage_t)
    (hf : record.fdata = some msg) (ht : is_peer_up_down msg.bmp)
    (he : st.end_of_elems = 0) (hd : st.peer_hdr_done = 0)
    (hip : env.COPY_IP st.elem.peer_address msg.bmp.peer_hdr.afi msg.bmp.peer_hdr.addr =
      some a) :
    (bs_format_bmp_get_next_elem env st record).1 = 1 ∧
    (bs_format_bmp_get_next_elem env st record).2.1.end_of_elems = 1 ∧
    ∃ el, (bs_format_bmp_get_next_elem env st record).2.2 = some el ∧
      el.type = .BGPSTREAM_ELEM_TYPE_PEERSTATE ∧
      el.timestamp = msg.bmp.peer_hdr.ts_sec ∧
      el.timestamp_usec = msg.bmp.peer_hdr.ts_usec ∧
      el.peer_asnumber = msg.bmp.peer_hdr.asn ∧
      el.peer_address = a := by
  have hh : handle_peer_hdr env st.elem msg.bmp =
      (0, { st.elem with
        timestamp := msg.bmp.peer_hdr.ts_sec,
        timestamp_usec := msg.bmp.peer_hdr.ts_usec,
        peer_address := a,
        peer_asnumber := msg.bmp.peer_hdr.asn }) := by
    simp [handle_peer_hdr, hip]
  rw [get_next_elem_peer_up_down env st record msg hf ht he]
  simp [hd, hh, handle_peer_up_down]

/-- While `COPY_IP` does not know the address family of the peer header, every
call fails with -1 and the generator stays where the reset left it. -/
theorem get_next_elem_calls_unknown_afi (env : env_t) (record : bgpstream_record_t)
    (msg : parsebgp_msg_t) (addr0 : bgpstream_addr_storage_t)
    (hf : record.fdata = some msg) (ht : is_peer_up_down msg.bmp)
    (hip : env.COPY_IP addr0 msg.bmp.peer_hdr.afi msg.bmp.peer_hdr.addr = none) :
    ∀ (k : Nat) (st : state_t), st.end_of_elems = 0 → st.peer_hdr_done = 0 →
      st.elem.peer_address = addr0 →
      (bs_format_bmp_get_next_elem env (get_next_elem_calls env record k st) record).1 =
        -1 := by
  have step : ∀ st : state_t, st.end_of_elems = 0 → st.peer_hdr_done = 0 →
      st.elem.peer_address = addr0 →
      (bs_format_bmp_get_next_elem env st record).1 = -1 ∧
      (bs_format_bmp_get_next_elem env st record).2.1.end_of_elems = 0 ∧
      (bs_format_bmp_get_next_elem env st record).2.1.peer_hdr_done = 0 ∧
      (bs_format_bmp_get_next_elem env st record).2.1.elem.peer_address = addr0 := by
    intro st he hd ha
    have hh : handle_peer_hdr env st.elem msg.bmp =
        (-1, { st.elem with
          timestamp := msg.bmp.peer_hdr.ts_sec,
          timestamp_usec := msg.bmp.peer_hdr.ts_usec }) := by
      simp [handle_peer_hdr, ha, hip]
    rw [get_next_elem_peer_up_down env st record msg hf ht he]
    simp only [hd, hh, ne_eq, true_and]
    rw [if_pos (by decide)]
    exact ⟨rfl, he, rfl, ha⟩
  intro k
  induction k with
  | zero => intro st he hd ha; exact (step st he hd ha).1
  | succ k ih =>
    intro st he hd ha
    obtain ⟨_, h2, h3, h4⟩ := step st he hd ha
    exact ih _ h2 h3 h4

end Bmp

namespace Bmp

/-- C12: every elem that `bs_format_bmp_get_next_elem` hands out (return value
1) for the PEER_UP or PEER_DOWN message of a populated record is tagged from
the BMP peer header of the message: timestamp is `ts_sec`, timestamp_usec is
`ts_usec`, peer_asnumber is `asn`, and peer_address is what `COPY_IP` makes of
the header's address for the header's address family. -/
theorem elem_tagged_from_peer_hdr (env : env_t) (format : bgpstream_format_t)
    (record : bgpstream_record_t) (msg : parsebgp_msg_t) (k : Nat)
    (hf : (bs_format_bmp_populate_record env format record).2.2.fdata = some msg)
    (ht : is_peer_up_down msg.bmp)
    (hrc : (get_next_elem_after_populate env format record k).1 = 1) :
    ∃ el, (get_next_elem_after_populate env format record k).2.2 = some el ∧
      el.timestamp = msg.bmp.peer_hdr.ts_sec ∧
      el.timestamp_usec = msg.bmp.peer_hdr.ts_usec ∧
      el.peer_asnumber = msg.bmp.peer_hdr.asn ∧
      env.COPY_IP (env.bgpstream_elem_clear format.state.elem).peer_address
        msg.bmp.peer_hdr.afi msg.bmp.peer_hdr.addr = some el.peer_address := by
  obtain ⟨he, hd, hel⟩ := populate_record_state env format record
  have hadd : (bs_format_bmp_populate_record env format record).2.1.state.elem.peer_address =
      (env.bgpstream_elem_clear format.state.elem).peer_address := by rw [hel]
  unfold get_next_elem_after_populate at hrc ⊢
  cases hip : env.COPY_IP (env.bgpstream_elem_clear format.state.elem).peer_address
      msg.bmp.peer_hdr.afi msg.bmp.peer_hdr.addr with
  | none =>
    have := get_next_elem_calls_unknown_afi env _ msg _ hf ht hip k _ he hd hadd
    rw [this] at hrc
    exact absurd hrc (by decide)
  | some a =>
    obtain ⟨h1, h2, el, h3, _, h5, h6, h7, h8⟩ :=
      get_next_elem_first env _ _ msg a hf ht he hd (by rw [hadd]; exact hip)
    cases k with
    | zero =>
      exact ⟨el, h3, h5, h6, h7, by rw [h8]⟩
    | succ k =>
      have hne : (bs_format_bmp_get_next_elem env
          (bs_format_bmp_populate_record env format record).2.1.state
          (bs_format_bmp_populate_record env format record).2.2).2.1.end_of_elems ≠ 0 := by
        rw [h2]; decide
      rw [get_next_elem_calls, get_next_elem_calls_at_end env _ k _ hne,
        get_next_elem_at_end env _ _ hne] at hrc
      simp at hrc

/-- Witness for C12: the PEER_UP example, populated into a format whose elem
held other data. -/
theorem elem_tagged_from_peer_hdr_witness :
    (bs_format_bmp_populate_record env_example format_example ⟨some msg_peer_up⟩).2.2.fdata =
      some msg_peer_up ∧
    is_peer_up_down msg_peer_up.bmp ∧
    (get_next_elem_after_populate env_example format_example ⟨some msg_peer_up⟩ 0).1 = 1 ∧
    ∃ el, (get_next_elem_after_populate env_example format_example ⟨some msg_peer_up⟩ 0).2.2 =
        some el ∧
      el.timestamp = 1500000000 ∧ el.timestamp_usec = 250 ∧ el.peer_asnumber = 65000 ∧
      env_example.COPY_IP
        (env_example.bgpstream_elem_clear format_example.state.elem).peer_address
        1 167772161 = some el.peer_address :=
  ⟨rfl, Or.inl rfl, by decide,
   elem_tagged_from_peer_hdr env_example format_example ⟨some msg_peer_up⟩ msg_peer_up 0 rfl
     (Or.inl rfl) (by decide)⟩

/-- C17: exactly one elem per peer up/down message: on a record populated with
a PEER_UP or PEER_DOWN message whose peer-header address `COPY_IP` copies, the
first call of `bs_format_bmp_get_next_elem` after
`bs_format_bmp_populate_record` returns 1 with a PEERSTATE elem, and every
later call returns 0 with `*elem` NULL. -/
theorem one_elem_per_peer_up_down (env : env_t) (format : bgpstream_format_t)
    (record : bgpstream_record_t) (msg : parsebgp_msg_t) (a : bgpstream_addr_storage_t)
    (hf : (bs_format_bmp_populate_record env format record).2.2.fdata = some msg)
    (ht : is_peer_up_down msg.bmp)
    (hip : env.COPY_IP (env.bgpstream_elem_clear format.state.elem).peer_address
      msg.bmp.peer_hdr.afi msg.bmp.peer_hdr.addr = some a) :
    (get_next_elem_after_populate env format record 0).1 = 1 ∧
    (∃ el, (get_next_elem_after_populate env format record 0).2.2 = some el ∧
      el.type = .BGPSTREAM_ELEM_TYPE_PEERSTATE) ∧
    ∀ k, 1 ≤ k →
      (get_next_elem_after_populate env format record k).1 = 0 ∧
      (get_next_elem_after_populate env format record k).2.2 = none := by
  obtain ⟨he, hd, hel⟩ := populate_record_state env format record
  have hadd : (bs_format_bmp_populate_record env format record).2.1.state.elem.peer_address =
      (env.bgpstream_elem_clear format.state.elem).peer_address := by rw [hel]
  obtain ⟨h1, h2, el, h3, h4, _⟩ :=
    get_next_elem_first env _ _ msg a hf ht he hd (by rw [hadd]; exact hip)
  refine ⟨h1, ⟨el, h3, h4⟩, ?_⟩
  intro k hk
  have hne : (bs_format_bmp_get_next_elem env
      (bs_format_bmp_populate_record env format record).2.1.state
      (bs_format_bmp_populate_record env format record).2.2).2.1.end_of_elems ≠ 0 := by
    rw [h2]; decide
  obtain ⟨j, rfl⟩ : ∃ j, k = j + 1 := ⟨k - 1, by omega⟩
  unfold get_next_elem_after_populate
  rw [get_next_elem_calls, get_next_elem_calls_at_end env _ j _ hne,
    get_next_elem_at_end env _ _ hne]
  exact ⟨rfl, rfl⟩

/-- Witness for C17: the PEER_DOWN example: one PEERSTATE elem, then none. -/
theorem one_elem_per_peer_up_down_witness :
    (get_next_elem_after_populate env_example format_example ⟨some msg_peer_down⟩ 0).1 = 1 ∧
    (get_next_elem_after_populate env_example format_example ⟨some msg_peer_down⟩ 1).1 = 0 ∧
    (get_next_elem_after_populate env_example format_example ⟨some msg_peer_down⟩ 4).2.2 =
      none :=
  ⟨(one_elem_per_peer_up_down env_example format_example ⟨some msg_peer_down⟩ msg_peer_down
      ⟨4, 167772161⟩ rfl (Or.inr rfl) rfl).1,
   ((one_elem_per_peer_up_down env_example format_example ⟨some msg_peer_down⟩ msg_peer_down
      ⟨4, 167772161⟩ rfl (Or.inr rfl) rfl).2.2 1 (by decide)).1,
   ((one_elem_per_peer_up_down env_example format_example ⟨some msg_peer_down⟩ msg_peer_down
      ⟨4, 167772161⟩ rfl (Or.inr rfl) rfl).2.2 4 (by decide)).2⟩

end Bmp

/-! ### The bgpstats plugin -/

namespace Bgpstats

theorem graphite_safe_char_eq (c : Char) : graphite_safe_char c = graphite_char_spec c := by
  unfold graphite_safe_char graphite_char_spec
  by_cases h : c = '.'
  · subst h; decide
  · simp only [h, if_false]

theorem graphite_char_spec_clean (c : Char) :
    graphite_char_spec c ≠ '.' ∧ graphite_char_spec c ≠ '*' ∧
    (c ≠ NUL → graphite_char_spec c ≠ NUL) := by
  unfold graphite_char_spec
  by_cases h : c = '.'
  · subst h; decide
  · by_cases h2 : c = '*'
    · subst h2; decide
    · simp only [h, h2, if_false]
      exact ⟨h, h2, fun h3 => h3⟩

theorem graphite_safe_loop_length (buf : List Char) :
    (graphite_safe_loop buf).length = buf.length := by
  induction buf with
  | nil => rfl
  | cons c rest ih =>
    unfold graphite_safe_loop
    split
    · rfl
    · simp [ih]

theorem graphite_safe_loop_c_str (buf : List Char) :
    c_str (graphite_safe_loop buf) = (c_str buf).map graphite_char_spec ∧
    (graphite_safe_loop buf).drop (c_str buf).length = buf.drop (c_str buf).length := by
  induction buf with
  | nil => exact ⟨rfl, rfl⟩
  | cons c rest ih =>
    unfold graphite_safe_loop
    by_cases h : c = NUL
    · rw [if_pos h]
      simp [c_str, List.takeWhile_cons, h]
    · rw [if_neg h]
      have h2 := (graphite_char_spec_clean c).2.2 h
      have e1 : c_str (c :: rest) = c :: c_str rest := by
        simp [c_str, List.takeWhile_cons, h]
      have e2 : c_str (graphite_safe_char c :: graphite_safe_loop rest) =
          graphite_safe_char c :: c_str (graphite_safe_loop rest) := by
        simp [c_str, List.takeWhile_cons, graphite_safe_char_eq, h2]
      rw [e1, e2, ih.1]
      exact ⟨by simp [graphite_safe_char_eq], by simpa using ih.2⟩

theorem c_str_no_nul (buf : List Char) : c_str (c_str buf) = c_str buf := by
  unfold c_str
  exact List.takeWhile_idem

theorem graphite_safe_loop_of_c_str (buf : List Char) :
    graphite_safe_loop (c_str buf) = (c_str buf).map graphite_char_spec := by
  have h1 := (graphite_safe_loop_c_str (c_str buf)).1
  have h2 := (graphite_safe_loop_c_str (c_str buf)).2
  rw [c_str_no_nul] at h1 h2
  have h3 : (graphite_safe_loop (c_str buf)).length = (c_str buf).length :=
    graphite_safe_loop_length _
  have h4 : c_str (graphite_safe_loop (c_str buf)) = graphite_safe_loop (c_str buf) := by
    have := List.takeWhile_append_dropWhile (fun c => decide (c ≠ NUL))
      (graphite_safe_loop (c_str buf))
    have hl : (c_str (graphite_safe_loop (c_str buf))).length =
        (graphite_safe_loop (c_str buf)).length := by
      rw [h1, List.length_map, h3]
    exact List.IsPrefix.eq_of_length (List.takeWhile_prefix _) hl
  rw [← h4, h1]

/-- C18: for every buffer, `graphite_safe` leaves a buffer of the same length
whose string is the string before with every '.' replaced by '_', every '*' by
'-' and every other character unchanged, so the string contains no '.' and no
'*'; what follows the string in the buffer is untouched; `graphite_safe(NULL)`
does nothing. When its allocations succeed, `collectordata_create` stores
exactly these rewritten copies of the project and collector names, with all
counters zero, and the buffers of the caller are as before. -/
theorem graphite_safe_spec (buf project collector : List Char) (alloc : alloc_t) :
    (∃ out, graphite_safe (some buf) = some out ∧
      out.length = buf.length ∧
      c_str out = (c_str buf).map graphite_char_spec ∧
      out.drop (c_str buf).length = buf.drop (c_str buf).length ∧
      '.' ∉ c_str out ∧ '*' ∉ c_str out) ∧
    graphite_safe none = none ∧
    (collectordata_create alloc project collector).project = project ∧
    (collectordata_create alloc project collector).collector = collector ∧
    (alloc.collector_data = true → alloc.dump_project = true → alloc.dump_collector = true →
      ∃ cd, (collectordata_create alloc project collector).collector_data = some cd ∧
        cd.dump_project = (c_str project).map graphite_char_spec ∧
        cd.dump_collector = (c_str collector).map graphite_char_spec ∧
        ∀ i, cd.num_records i = 0 ∧ cd.num_elem i = 0) := by
  refine ⟨⟨graphite_safe_loop buf, rfl, graphite_safe_loop_length buf,
    (graphite_safe_loop_c_str buf).1, (graphite_safe_loop_c_str buf).2, ?_, ?_⟩, rfl, ?_, ?_, ?_⟩
  · rw [(graphite_safe_loop_c_str buf).1]
    intro h
    obtain ⟨c, _, hc⟩ := List.mem_map.1 h
    exact (graphite_char_spec_clean c).1 hc
  · rw [(graphite_safe_loop_c_str buf).1]
    intro h
    obtain ⟨c, _, hc⟩ := List.mem_map.1 h
    exact (graphite_char_spec_clean c).2.1 hc
  · unfold collectordata_create
    split
    · rfl
    · split
      · rfl
      · split <;> rfl
  · unfold collectordata_create
    split
    · rfl
    · split
      · rfl
      · split <;> rfl
  · intro h1 h2 h3
    refine ⟨⟨(c_str project).map graphite_char_spec, (c_str collector).map graphite_char_spec,
      fun _ => 0, fun _ => 0⟩, ?_, rfl, rfl, fun _ => ⟨rfl, rfl⟩⟩
    simp [collectordata_create, h1, h2, h3, graphite_safe, graphite_safe_loop_of_c_str]

/-- Witness for C18: the project name "ris.v2" and the collector name
"route-views.*". -/
theorem graphite_safe_spec_witness :
    alloc_ok.collector_data = true ∧ alloc_ok.dump_project = true ∧
    alloc_ok.dump_collector = true ∧
    graphite_safe (some "ris.v2".toList) = some "ris_v2".toList ∧
    ∃ cd, (collectordata_create alloc_ok "ris.v2".toList
        "route-views.*".toList).collector_data = some cd ∧
      cd.dump_project = (c_str "ris.v2".toList).map graphite_char_spec ∧
      cd.dump_collector = (c_str "route-views.*".toList).map graphite_char_spec :=
  ⟨rfl, rfl, rfl, by decide,
   ((graphite_safe_spec [] "ris.v2".toList "route-views.*".toList alloc_ok).2.2.2.2
      rfl rfl rfl).imp (fun _ h => ⟨h.1, h.2.1, h.2.2.1⟩)⟩

end Bgpstats

namespace Bgpstats

theorem counters_incr_same (counters : counters_t) (i : Nat) :
    counters_incr counters i i = (counters i + 1) % 2 ^ 64 := by
  simp [counters_incr]

theorem counters_incr_other (counters : counters_t) (i j : Nat) (h : j ≠ i) :
    counters_incr counters i j = counters j := by
  simp [counters_incr, Function.update, h]

/-- The loop over the elem queue adds to each counter, in `uint64_t` arithmetic,
the number of elems of its type. -/
theorem count_elems_spec (t : Nat) (queue : List bgpstream_elem_t) :
    ∀ num_elem : counters_t,
      count_elems queue num_elem t =
        if elems_of_type t queue = 0 then num_elem t
        else (num_elem t + elems_of_type t queue) % 2 ^ 64 := by
  induction queue with
  | nil => intro num_elem; simp [count_elems, elems_of_type]
  | cons e next ih =>
    intro num_elem
    rw [count_elems, ih]
    by_cases h : e.type = t
    · subst h
      have hc : elems_of_type e.type (e :: next) = elems_of_type e.type next + 1 := by
        simp [elems_of_type]
      rw [hc, counters_incr_same]
      by_cases h0 : elems_of_type e.type next = 0
      · simp [h0]
      · simp only [h0, if_false, Nat.add_one_ne_zero]
        rw [Nat.add_mod, Nat.mod_mod, ← Nat.add_mod]
        congr 1
        omega
    · have hc : elems_of_type t (e :: next) = elems_of_type t next := by
        simp [elems_of_type, h]
      rw [hc, counters_incr_other _ _ _ (Ne.symm h)]

/-- C19: `collectordata_update` increases `num_records[status]` by one (in
`uint64_t` arithmetic, so exactly one unless the counter wraps) and changes no
other slot of `num_records`; when the status is VALID_RECORD it adds to
`num_elem[t]`, for each elem type `t`, the number of elems of type `t` in the
elem queue of the record; otherwise it leaves `num_elem` as it is. The names
are not touched. -/
theorem collectordata_update_spec (env : env_t) (record : bgpcorsaro_record_t)
    (cd : collectordata_t) :
    (collectordata_update env record cd).num_records record.bsrecord.status =
      (cd.num_records record.bsrecord.status + 1) % 2 ^ 64 ∧
    (cd.num_records record.bsrecord.status + 1 < 2 ^ 64 →
      (collectordata_update env record cd).num_records record.bsrecord.status =
        cd.num_records record.bsrecord.status + 1) ∧
    (∀ j, j ≠ record.bsrecord.status →
      (collectordata_update env record cd).num_records j = cd.num_records j) ∧
    (record.bsrecord.status = env.VALID_RECORD → ∀ t,
      (collectordata_update env record cd).num_elem t =
        (if elems_of_type t (env.bgpstream_get_elem_queue record.bsrecord) = 0 then
          cd.num_elem t
        else (cd.num_elem t +
          elems_of_type t (env.bgpstream_get_elem_queue record.bsrecord)) % 2 ^ 64) ∧
      (cd.num_elem t + elems_of_type t (env.bgpstream_get_elem_queue record.bsrecord) <
          2 ^ 64 →
        (collectordata_update env record cd).num_elem t =
          cd.num_elem t + elems_of_type t (env.bgpstream_get_elem_queue record.bsrecord))) ∧
    (record.bsrecord.status ≠ env.VALID_RECORD →
      (collectordata_update env record cd).num_elem = cd.num_elem) ∧
    (collectordata_update env record cd).dump_project = cd.dump_project ∧
    (collectordata_update env record cd).dump_collector = cd.dump_collector := by
  have hrec : (collectordata_update env record cd).num_records =
      counters_incr cd.num_records record.bsrecord.status := by
    by_cases hv : record.bsrecord.status = env.VALID_RECORD <;>
      simp [collectordata_update, hv]
  refine ⟨?_, ?_, ?_, ?_, ?_, ?_, ?_⟩
  · rw [hrec, counters_incr_same]
  · intro h
    rw [hrec, counters_incr_same, Nat.mod_eq_of_lt h]
  · intro j hj
    rw [hrec, counters_incr_other _ _ _ hj]
  · intro hv t
    have he : (collectordata_update env record cd).num_elem t =
        count_elems (env.bgpstream_get_elem_queue record.bsrecord) cd.num_elem t := by
      simp [collectordata_update, hv]
    rw [he, count_elems_spec]
    refine ⟨rfl, fun hlt => ?_⟩
    split
    · rename_i h0; rw [h0]; rfl
    · exact Nat.mod_eq_of_lt hlt
  · intro hv
    simp [collectordata_update, hv]
  · by_cases hv : record.bsrecord.status = env.VALID_RECORD <;>
      simp [collectordata_update, hv]
  · by_cases hv : record.bsrecord.status = env.VALID_RECORD <;>
      simp [collectordata_update, hv]

/-- Witness for C19: a valid record with two announcements among its elems, on
collector data that counted 5 valid records and 7 announcements. -/
theorem collectordata_update_spec_witness :
    (record_example 0).bsrecord.status = env_example.VALID_RECORD ∧
    (collectordata_update env_example (record_example 0) collectordata_example).num_records 0 =
      6 ∧
    (collectordata_update env_example (record_example 0) collectordata_example).num_elem 1 =
      collectordata_example.num_elem 1 +
        elems_of_type 1 (env_example.bgpstream_get_elem_queue (record_example 0).bsrecord) ∧
    elems_of_type 1 (env_example.bgpstream_get_elem_queue (record_example 0).bsrecord) = 2 :=
  ⟨rfl,
   (collectordata_update_spec env_example (record_example 0) collectordata_example).2.1
     (by decide),
   ((collectordata_update_spec env_example (record_example 0) collectordata_example).2.2.2.1
     rfl 1).2 (by decide),
   by decide⟩

end Bgpstats

namespace Bgpstats

/-- C20: after `stats_dump` every collector of the table has all of its
`num_records` and `num_elem` counters at zero and every slot of the global
`num_records` of the plugin is zero, while the table holds the same collectors,
in the same order, under the same keys and with the same stored project and
collector names; the output files are not touched. -/
theorem stats_dump_resets (env : env_t) (state : bgpcorsaro_bgpstats_state_t)
    (int_end : bgpcorsaro_interval_t) :
    (∀ kv ∈ (stats_dump env state int_end).1.collectors_table,
      ∀ i, kv.2.num_records i = 0 ∧ kv.2.num_elem i = 0) ∧
    (∀ i, (stats_dump env state int_end).1.num_records i = 0) ∧
    (stats_dump env state int_end).1.collectors_table.map
        (fun kv => (kv.1, kv.2.dump_project, kv.2.dump_collector)) =
      state.collectors_table.map (fun kv => (kv.1, kv.2.dump_project, kv.2.dump_collector)) ∧
    (stats_dump env state int_end).1.outfile = state.outfile ∧
    (stats_dump env state int_end).1.outfile_p = state.outfile_p ∧
    (stats_dump env state int_end).1.outfile_n = state.outfile_n := by
  refine ⟨?_, fun _ => rfl, ?_, rfl, rfl, rfl⟩
  · intro kv hkv i
    simp only [stats_dump, List.mem_map] at hkv
    obtain ⟨kv0, _, rfl⟩ := hkv
    exact ⟨rfl, rfl⟩
  · simp only [stats_dump, List.map_map]
    rfl

/-- Witness for C20: the example state, whose collector counted 5 valid records
and 7 announcements, prints them and starts the next interval at zero. -/
theorem stats_dump_resets_witness :
    ((stats_dump env_example state_example ⟨1, 1500000000⟩).2.map (fun l => l.value)) =
      [5, 0, 7, 0] ∧
    ∀ kv ∈ (stats_dump env_example state_example ⟨1, 1500000000⟩).1.collectors_table,
      ∀ i, kv.2.num_records i = 0 ∧ kv.2.num_elem i = 0 :=
  ⟨by decide, (stats_dump_resets env_example state_example ⟨1, 1500000000⟩).1⟩

/-- C14: for a record whose state flags contain
`BGPCORSARO_RECORD_STATE_FLAG_IGNORE`, `bgpcorsaro_bgpstats_process_record`
returns 0 and the plugin state is the state before the call: no global counter,
no per-collector counter and no entry of the collector table is created or
modified, whatever the allocator would do. -/
theorem process_record_ignored (env : env_t) (alloc : alloc_t)
    (state : bgpcorsaro_bgpstats_state_t) (record : bgpcorsaro_record_t)
    (hflag : record.state.flags &&& env.BGPCORSARO_RECORD_STATE_FLAG_IGNORE ≠ 0) :
    bgpcorsaro_bgpstats_process_record env alloc state record = some (0, state) := by
  unfold bgpcorsaro_bgpstats_process_record
  rw [if_pos hflag]

/-- Witness for C14: the example record with the flags 3, which contain the
IGNORE bit; without the bit the record is counted. -/
theorem process_record_ignored_witness :
    (record_example 3).state.flags &&& env_example.BGPCORSARO_RECORD_STATE_FLAG_IGNORE ≠ 0 ∧
    (bgpcorsaro_bgpstats_process_record env_example alloc_ok state_example
      (record_example 3)).map (fun r => (r.1, r.2.num_records 0)) = some (0, 5) ∧
    (bgpcorsaro_bgpstats_process_record env_example alloc_ok state_example
      (record_example 2)).map (fun r => (r.1, r.2.num_records 0)) = some (0, 6) :=
  ⟨by decide,
   by rw [process_record_ignored env_example alloc_ok state_example (record_example 3)
     (by decide)]; rfl,
   by decide⟩

end Bgpstats

namespace Bgpstats

/-- The number of output file pointers as an `int`. -/
theorem OUTFILE_POINTERS_int : (OUTFILE_POINTERS : Int) = 2 := rfl

/-- After a call of `bgpcorsaro_bgpstats_start_interval` that returns 0 the
plugin has a current output file, it is the one in the current slot whenever a
file was opened by this call, and `outfile_n` is as before; the call returns
whenever `outfile_n` is an index of `outfile_p`. -/
theorem start_interval_outfile (prepare : bgpcorsaro_interval_t → Option Nat)
    (state : bgpcorsaro_bgpstats_state_t) (int_start : bgpcorsaro_interval_t)
    (hn : 0 ≤ state.outfile_n ∧ state.outfile_n < (OUTFILE_POINTERS : Int)) :
    ∃ rc state1 effects,
      bgpcorsaro_bgpstats_start_interval prepare state int_start = some (rc, state1, effects) ∧
      state1.outfile_n = state.outfile_n ∧
      (rc = 0 ∨ rc = -1) ∧
      (rc = 0 → state1.outfile ≠ none ∧
        (state.outfile = none → state1.outfile = state1.outfile_p state1.outfile_n.toNat)) := by
  unfold bgpcorsaro_bgpstats_start_interval
  by_cases ho : state.outfile = none
  · rw [if_pos ho, if_neg (by omega)]
    simp only [Function.update_same]
    by_cases hp : prepare int_start = none
    · rw [if_pos hp]
      exact ⟨-1, _, _, rfl, rfl, Or.inr rfl, fun h => absurd h (by decide)⟩
    · rw [if_neg hp]
      exact ⟨0, _, _, rfl, rfl, Or.inl rfl, fun _ => ⟨hp, fun _ => by simp⟩⟩
  · rw [if_neg ho]
    exact ⟨0, state, _, rfl, rfl, Or.inl rfl, fun _ => ⟨ho, fun h => absurd h ho⟩⟩

/-- The result of `bgpcorsaro_bgpstats_end_interval` on a rotate interval, for a
state with a current file and `outfile_n` an index of `outfile_p`. -/
theorem end_interval_rotate_eq (env : env_t) (rotate : Int)
    (state : bgpcorsaro_bgpstats_state_t) (int_end : bgpcorsaro_interval_t)
    (hn : 0 ≤ state.outfile_n ∧ state.outfile_n < (OUTFILE_POINTERS : Int))
    (hr : rotate ≠ 0) (hout : state.outfile ≠ none) :
    bgpcorsaro_bgpstats_end_interval env rotate state int_end =
      some (0,
        { (stats_dump env state int_end).1 with
          outfile_n := (state.outfile_n + 1) % (OUTFILE_POINTERS : Int),
          outfile_p := Function.update state.outfile_p
            ((state.outfile_n + 1) % (OUTFILE_POINTERS : Int)).toNat none,
          outfile := none },
        ⟨(stats_dump env state int_end).2, state.outfile,
          (state.outfile_p ((state.outfile_n + 1) % (OUTFILE_POINTERS : Int)).toNat).toList⟩) := by
  rw [OUTFILE_POINTERS_int] at hn
  have hmax : ¬ INT_MAX ≤ state.outfile_n := by
    have : INT_MAX = 2147483647 := rfl
    omega
  have ht : Int.tmod (state.outfile_n + 1) (OUTFILE_POINTERS : Int) =
      (state.outfile_n + 1) % (OUTFILE_POINTERS : Int) :=
    Int.tmod_eq_emod (by omega) (by decide)
  have hnn : ¬ (state.outfile_n + 1) % (OUTFILE_POINTERS : Int) < 0 := by
    rw [OUTFILE_POINTERS_int]
    omega
  unfold bgpcorsaro_bgpstats_end_interval
  simp only [stats_dump, if_pos hr, if_neg hout, if_neg hmax, ht, if_neg hnn]
  cases hp : state.outfile_p ((state.outfile_n + 1) % (OUTFILE_POINTERS : Int)).toNat with
  | none =>
    simp only [Option.toList]
    rw [← hp, Function.update_eq_self]
  | some f => rfl

end Bgpstats

namespace Bgpstats

/-- On a rotate interval without a current file the assertion of
`bgpcorsaro_bgpstats_end_interval` fails. -/
theorem end_interval_assert (env : env_t) (rotate : Int)
    (state : bgpcorsaro_bgpstats_state_t) (int_end : bgpcorsaro_interval_t)
    (hr : rotate ≠ 0) (hout : state.outfile = none) :
    bgpcorsaro_bgpstats_end_interval env rotate state int_end = none := by
  unfold bgpcorsaro_bgpstats_end_interval
  simp only [stats_dump, if_pos hr, hout, if_true]

/-- C21: `bgpcorsaro_bgpstats_end_interval` returns 0. On a rotate interval it
sets `outfile_n` to `(outfile_n + 1) mod OUTFILE_POINTERS`, which is another
index than before; the slot of `outfile_p` at the new index is NULL afterwards,
every other slot, the one of the previously current file among them, is as
before, the only file handed to `wandio_wdestroy` is the one that sat in the
new slot, and `outfile` is NULL. On a non-rotate interval `outfile_n`,
`outfile_p` and `outfile` are unchanged and no file is destroyed. The
hypotheses are the invariant that `outfile_n` is an index of `outfile_p` and,
on a rotate interval, the assertion of the function that there is a current
file; the invariant holds again afterwards. -/
theorem end_interval_rotates (env : env_t) (rotate : Int)
    (state : bgpcorsaro_bgpstats_state_t) (int_end : bgpcorsaro_interval_t)
    (hn : 0 ≤ state.outfile_n ∧ state.outfile_n < (OUTFILE_POINTERS : Int))
    (hout : rotate ≠ 0 → state.outfile ≠ none) :
    ∃ state1 effects,
      bgpcorsaro_bgpstats_end_interval env rotate state int_end = some (0, state1, effects) ∧
      (rotate ≠ 0 →
        state1.outfile_n = (state.outfile_n + 1) % (OUTFILE_POINTERS : Int) ∧
        state1.outfile_n ≠ state.outfile_n ∧
        state1.outfile_p state1.outfile_n.toNat = none ∧
        (∀ i, i ≠ state1.outfile_n.toNat → state1.outfile_p i = state.outfile_p i) ∧
        state1.outfile_p state.outfile_n.toNat = state.outfile_p state.outfile_n.toNat ∧
        state1.outfile = none ∧
        effects.destroyed = (state.outfile_p state1.outfile_n.toNat).toList) ∧
      (rotate = 0 →
        state1.outfile_n = state.outfile_n ∧ state1.outfile_p = state.outfile_p ∧
        state1.outfile = state.outfile ∧ effects.destroyed = []) ∧
      (0 ≤ state1.outfile_n ∧ state1.outfile_n < (OUTFILE_POINTERS : Int)) ∧
      effects.interval_file = state.outfile := by
  by_cases hr : rotate = 0
  · subst hr
    exact ⟨_, _, rfl, fun h => absurd rfl h, fun _ => ⟨rfl, rfl, rfl, rfl⟩, hn, rfl⟩
  · refine ⟨_, _, end_interval_rotate_eq env rotate state int_end hn hr (hout hr), ?_,
      fun h => absurd h hr, ?_, rfl⟩
    · intro _
      have hne : ((state.outfile_n + 1) % (OUTFILE_POINTERS : Int)).toNat ≠
          state.outfile_n.toNat := by
        rw [OUTFILE_POINTERS_int] at hn ⊢
        omega
      refine ⟨rfl, ?_, ?_, ?_, ?_, rfl, rfl⟩
      · rw [OUTFILE_POINTERS_int] at hn ⊢
        show (state.outfile_n + 1) % 2 ≠ state.outfile_n
        omega
      · exact Function.update_same _ _ _
      · intro i hi
        exact Function.update_noteq hi _ _
      · exact Function.update_noteq (Ne.symm hne) _ _
    · rw [OUTFILE_POINTERS_int] at hn ⊢
      show 0 ≤ (state.outfile_n + 1) % 2 ∧ (state.outfile_n + 1) % 2 < 2
      omega

/-- Witness for C21: the end of a rotate interval in the state where file 8 is
current in slot 1 and file 7 still sits in slot 0: the plugin moves to slot 0,
destroys file 7 and leaves slot 1 with file 8; the same interval without
rotation changes none of the three fields. -/
theorem end_interval_rotates_witness :
    (0 ≤ state_rotated.outfile_n ∧ state_rotated.outfile_n < (OUTFILE_POINTERS : Int)) ∧
    (∃ state1 effects,
      bgpcorsaro_bgpstats_end_interval env_example 1 state_rotated ⟨1, 1500000000⟩ =
        some (0, state1, effects) ∧
      state1.outfile_n = 0 ∧ state1.outfile = none ∧
      outfile_slots state1 = [none, some 8] ∧ effects.destroyed = [7]) ∧
    (bgpcorsaro_bgpstats_end_interval env_example 0 state_rotated ⟨1, 1500000000⟩).map
      (fun r => (r.1, r.2.1.outfile_n, r.2.1.outfile, outfile_slots r.2.1, r.2.2.destroyed)) =
      some (0, 1, some 8, [some 7, some 8], []) :=
  ⟨by decide,
   by
    obtain ⟨state1, effects, h, hrot, _, _, _⟩ :=
      end_interval_rotates env_example 1 state_rotated ⟨1, 1500000000⟩ (by decide)
        (fun _ => by decide)
    obtain ⟨h1, _, h3, h4, _, h6, h7⟩ := hrot (by decide)
    have hn0 : state1.outfile_n = 0 := by rw [h1]; decide
    refine ⟨state1, effects, h, hn0, h6, ?_, ?_⟩
    · rw [hn0] at h3 h4
      have h11 := h4 1 (by decide)
      simp only [outfile_slots, OUTFILE_POINTERS]
      simp [List.range_succ, h11, state_rotated]
      exact h3
    · rw [h7, hn0]; rfl,
   rfl⟩

end Bgpstats

end BgpWatcher
